import Mathlib

/-!
# gin-starter: transactional CRUD executor and resilient REST caller

A shallow embedding of `internal/app/repository/CRUDRepository.go`,
`internal/config/postgres.go`, `internal/app/utils/pagination.go`,
`internal/app/utils/commonUtility.go`, `internal/app/utils/response.go` and
`internal/app/services/restCaller.go`.

The database driver and the HTTP transport are external collaborators.  They are
modelled as deterministic oracles that answer each call from the history of all
calls made so far; every call is recorded, together with its answer, in a trace
of events.  A Go function becomes a Lean function from the oracle, the history
and the receiver's fields to an outcome, the new fields and the events it added.
Goroutines that call the health check on one repository are an interleaving of
its statements, each statement one step on the shared fields.  The type `int` is
the 64-bit integer, whose arithmetic wraps around.
-/

namespace Starter

set_option autoImplicit false

/-! ## Go values and errors -/

/-- A Go `error` value as far as the code can tell errors apart: the sentinel
`pgx.ErrNoRows`, a plain error, or an error wrapping another one. -/
inductive GoError
  | ErrNoRows
  | errorString (text : String)
  | wrapError (text : String) (inner : GoError)
deriving DecidableEq, Repr

/-- The method `Error()` of a Go error. -/
def GoError.Error : GoError → String
  | .ErrNoRows => "no rows in result set"
  | .errorString text => text
  | .wrapError text _ => text

/-- A value held in an `interface{}`: nil, an `int`, an `int64` or a `string`. -/
inductive Value
  | nil
  | int (n : Int)
  | int64 (n : Int)
  | string (s : String)
deriving DecidableEq, Repr

/-- The result of a call that returns `(T, error)`. -/
inductive Res (α : Type)
  | ok (a : α)
  | err (e : GoError)
deriving DecidableEq, Repr

/-! ## package utils: response.go -/

namespace utils

/-- The struct `utils.ErrorMessage`. -/
structure ErrorMessage where
  StatusCode : Int
  Message : String
deriving DecidableEq, Repr

end utils

/-! ## package net/http and package constants -/

namespace http

def StatusOK : Int := 200
def StatusBadRequest : Int := 400
def StatusNotFound : Int := 404
def StatusInternalServerError : Int := 500

end http

/-- Modelled from the spec: the package `constants` is not among the sources.  A
message constant that is passed to `fmt.Sprintf` with the object kind is a format
with one verb, given by the text before and the text after the verb ("with the
object-kind label interpolated into the message"). -/
structure Format where
  before : String
  after : String
deriving DecidableEq, Repr

/-- The call `fmt.Sprintf(format, objectType)` for a format with one verb. -/
def Sprintf (format : Format) (objectType : String) : String :=
  format.before ++ objectType ++ format.after

/-- The message constants of package `constants` that the repository uses. -/
structure Constants where
  FAILED_TO_CREATE_OBJ : Format
  FAILED_BEGIN_TRANSACTION : String
  COMMIT_FAILED : Format
  FAILED_TO_UPDATE_OBJ : Format
  NO_ROWS_AFFECTED : Format
  FAILED_SCAN : String

/-! ## The driver: handles, rows, events and the oracle -/

/-- A connection pool (`config.DBPool`), named by a number. -/
abbrev Handle := Nat

/-- A transaction (`pgx.Tx`), named by a number. -/
abbrev Tx := Nat

/-- A row handle (`pgx.Row`): what `Scan` reports when it is called on it. -/
structure Row where
  scan : Res (List Value)
deriving DecidableEq, Repr

/-- One call to the driver, with its answer, or one call of the caller's row
mapper, with its result. -/
inductive Event
  | poolNew (res : Res Handle)
  | ping (db : Handle) (err : Option GoError)
  | begin (db : Handle) (res : Res Tx)
  | query (db : Handle) (sql : String) (args : List Value) (res : Res (List Row))
  | rowsClose
  | queryRow (db : Handle) (sql : String) (args : List Value) (row : Row)
  | queryRowScanInt64 (db : Handle) (sql : String) (args : List Value) (res : Res Int)
  | mapper (row : Row) (item : Value) (err : Option GoError)
  | exec (tx : Tx) (sql : String) (args : List Value) (res : Res Int)
  | txQueryRowScan (tx : Tx) (sql : String) (args : List Value) (res : Res Value)
  | commit (tx : Tx) (err : Option GoError)
  | rollback (tx : Tx) (err : Option GoError)
deriving DecidableEq, Repr

/-- The driver as an oracle: the answer to each call, given the history of the
calls made before it. -/
structure Env where
  poolNew : List Event → Res Handle
  ping : List Event → Handle → Option GoError
  begin : List Event → Handle → Res Tx
  query : List Event → Handle → String → List Value → Res (List Row)
  queryRow : List Event → Handle → String → List Value → Row
  queryRowScanInt64 : List Event → Handle → String → List Value → Res Int
  exec : List Event → Tx → String → List Value → Res Int
  txQueryRowScan : List Event → Tx → String → List Value → Res Value
  commit : List Event → Tx → Option GoError
  rollback : List Event → Tx → Option GoError

/-- The struct `crudRepository`: the pool in use (nil or a handle) and the flag
that `CheckAndResetDBConnection` spins on. -/
structure crudRepository where
  db : Option Handle
  lock : Bool
deriving DecidableEq, Repr

/-- How a call ends: it returns a value, it spins forever in a busy-wait, the
process is ended by `logrus.Fatalf`, or it panics on a nil pool. -/
inductive Outcome (α : Type)
  | ret (a : α)
  | spin
  | fatal
  | panic
deriving DecidableEq, Repr

/-- What a call leaves behind: its outcome, the receiver's fields after it and the
driver calls it made, oldest first. -/
structure Run (α : Type) where
  out : Outcome α
  crud : crudRepository
  events : List Event

/-- A computation of the repository: it reads the oracle, the history before it
and the receiver's fields. -/
def Exec (α : Type) : Type := Env → List Event → crudRepository → Run α

namespace Exec

def pure {α : Type} (a : α) : Exec α := fun _ _ crud => ⟨.ret a, crud, []⟩

def bind {α β : Type} (m : Exec α) (f : α → Exec β) : Exec β := fun env hist crud =>
  match m env hist crud with
  | ⟨.ret a, crud1, ev1⟩ =>
    match f a env (hist ++ ev1) crud1 with
    | ⟨out, crud2, ev2⟩ => ⟨out, crud2, ev1 ++ ev2⟩
  | ⟨.spin, crud1, ev1⟩ => ⟨.spin, crud1, ev1⟩
  | ⟨.fatal, crud1, ev1⟩ => ⟨.fatal, crud1, ev1⟩
  | ⟨.panic, crud1, ev1⟩ => ⟨.panic, crud1, ev1⟩

/-- A call that ends without returning. -/
def halt {α : Type} (o : Outcome α) : Exec α := fun _ _ crud => ⟨o, crud, []⟩

/-- One call to the driver: ask the oracle and record the call with its answer. -/
def call {β : Type} (ask : Env → List Event → β) (record : β → Event) : Exec β :=
  fun env hist crud => ⟨.ret (ask env hist), crud, [record (ask env hist)]⟩

def getCrud : Exec crudRepository := fun _ _ crud => ⟨.ret crud, crud, []⟩

def setDb (db : Option Handle) : Exec Unit := fun _ _ crud => ⟨.ret (), { crud with db := db }, []⟩

def setLock (lock : Bool) : Exec Unit := fun _ _ crud => ⟨.ret (), { crud with lock := lock }, []⟩

end Exec

instance : Monad Exec where
  pure := Exec.pure
  bind := Exec.bind

/-- The run of `m` from this history and these fields satisfies `post`, a property
of its outcome, of the fields it leaves and of the events it adds. -/
def Exec.wp {α : Type} (m : Exec α) (env : Env) (hist : List Event) (crud : crudRepository)
    (post : Outcome α → crudRepository → List Event → Prop) : Prop :=
  post (m env hist crud).out (m env hist crud).crud (m env hist crud).events

/-- An event of the health check: opening a pool, or a ping. -/
def Event.isHealth : Event → Bool
  | .poolNew _ => true
  | .ping _ _ => true
  | _ => false

/-- An acquire: a call that opens a new pool. -/
def Event.isPoolNew : Event → Bool
  | .poolNew _ => true
  | _ => false

/-- A commit, on any transaction. -/
def Event.isCommit : Event → Bool
  | .commit _ _ => true
  | _ => false

/-- A rollback, on any transaction. -/
def Event.isRollback : Event → Bool
  | .rollback _ _ => true
  | _ => false

/-- A commit on the transaction `tx`. -/
def Event.isCommitOn (tx : Tx) : Event → Bool
  | .commit t _ => decide (t = tx)
  | _ => false

/-- A rollback on the transaction `tx`. -/
def Event.isRollbackOn (tx : Tx) : Event → Bool
  | .rollback t _ => decide (t = tx)
  | _ => false

/-- A statement run inside a transaction: an `Exec`, or the `QueryRow(...).Scan` of
`Create`. -/
def Event.isStatement : Event → Bool
  | .exec _ _ _ _ => true
  | .txQueryRowScan _ _ _ _ => true
  | _ => false

/-- A call of the caller's row mapper. -/
def Event.isMapper : Event → Bool
  | .mapper _ _ _ => true
  | _ => false

/-- The outcome of a step that returns a value or ends the process. -/
def Outcome.ofOption {α : Type} : Option α → Outcome α
  | some a => .ret a
  | none => .fatal

/-- The runs of `config.ConnectDB`: the pool it returns (`none` when `logrus.Fatalf`
ends the process) and the calls it makes. -/
inductive ConnectRun : Option Handle → List Event → Prop
  | newFailed (err : GoError) : ConnectRun none [Event.poolNew (.err err)]
  | pingFailed (db : Handle) (err : GoError) :
      ConnectRun none [Event.poolNew (.ok db), Event.ping db (some err)]
  | connected (db : Handle) : ConnectRun (some db) [Event.poolNew (.ok db), Event.ping db none]

/-- The runs of the second step of the health check, on the pool `db`: the ping
succeeds, or it fails and a new pool is acquired. -/
inductive PingRun (db : Handle) : Option Handle → List Event → Prop
  | healthy : PingRun db (some db) [Event.ping db none]
  | stale (err : GoError) (res : Option Handle) (ev : List Event) :
      ConnectRun res ev → PingRun db res (Event.ping db (some err) :: ev)

/-- The runs of the health check once the busy-wait is passed: the pool that is
left (`none` when the process is ended) and the calls made. -/
inductive HealthRun (crud : crudRepository) : Option Handle → List Event → Prop
  | ping (db : Handle) (res : Option Handle) (ev : List Event) :
      crud.db = some db → PingRun db res ev → HealthRun crud res ev
  | connectFailed (ev : List Event) :
      crud.db = none → ConnectRun none ev → HealthRun crud none ev
  | connected (db : Handle) (res : Option Handle) (ev ev2 : List Event) :
      crud.db = none → ConnectRun (some db) ev → PingRun db res ev2 →
      HealthRun crud res (ev ++ ev2)

/-! The driver calls. -/

def poolNew : Exec (Res Handle) := Exec.call (fun env hist => env.poolNew hist) Event.poolNew

def Ping (db : Handle) : Exec (Option GoError) :=
  Exec.call (fun env hist => env.ping hist db) (Event.ping db)

def Begin (db : Handle) : Exec (Res Tx) :=
  Exec.call (fun env hist => env.begin hist db) (Event.begin db)

def Query (db : Handle) (sql : String) (args : List Value) : Exec (Res (List Row)) :=
  Exec.call (fun env hist => env.query hist db sql args) (Event.query db sql args)

def QueryRow (db : Handle) (sql : String) (args : List Value) : Exec Row :=
  Exec.call (fun env hist => env.queryRow hist db sql args) (Event.queryRow db sql args)

/-- The chain `QueryRow(sql, args...).Scan(&n)` on the pool, for an `int64` n. -/
def QueryRowScanInt64 (db : Handle) (sql : String) (args : List Value) : Exec (Res Int) :=
  Exec.call (fun env hist => env.queryRowScanInt64 hist db sql args)
    (Event.queryRowScanInt64 db sql args)

/-- The method `Close` of the rows of a query. -/
def RowsClose : Exec Unit := fun _ _ crud => ⟨.ret (), crud, [Event.rowsClose]⟩

def TxExec (tx : Tx) (sql : String) (args : List Value) : Exec (Res Int) :=
  Exec.call (fun env hist => env.exec hist tx sql args) (Event.exec tx sql args)

/-- The chain `tx.QueryRow(sql, args...).Scan(&id)` for an `interface{}` id. -/
def TxQueryRowScan (tx : Tx) (sql : String) (args : List Value) : Exec (Res Value) :=
  Exec.call (fun env hist => env.txQueryRowScan hist tx sql args) (Event.txQueryRowScan tx sql args)

def TxCommit (tx : Tx) : Exec (Option GoError) :=
  Exec.call (fun env hist => env.commit hist tx) (Event.commit tx)

def TxRollback (tx : Tx) : Exec (Option GoError) :=
  Exec.call (fun env hist => env.rollback hist tx) (Event.rollback tx)

/-- The type `utils.RowMapperFunc`: from a row handle to a domain value and an
error. -/
abbrev RowMapperFunc := Row → Value × Option GoError

/-- One call of the caller's row mapper, recorded with its result. -/
def callMapper (mapper : RowMapperFunc) (row : Row) : Exec (Value × Option GoError) :=
  fun _ _ crud => ⟨.ret (mapper row), crud, [Event.mapper row (mapper row).1 (mapper row).2]⟩

/-- The event of one call of the row mapper. -/
def mapperEvent (mapper : RowMapperFunc) (row : Row) : Event :=
  Event.mapper row (mapper row).1 (mapper row).2

/-! ## float64 arithmetic

`GetWithPagination` computes `int(math.Ceil(float64(totalRows) / float64(limit)))`.
A finite float64 is kept as `mant * 2 ^ exp`; the sign of a zero is not kept (no
operation below tells the two zeros apart once the result is converted to `int`).
Conversions and division round to nearest, ties to even, to a 53-bit mantissa. -/

/-- A float64: the finite value `mant * 2 ^ exp`, an infinity, or NaN. -/
inductive Float64
  | finite (mant : Int) (exp : Int)
  | inf (negative : Bool)
  | nan
deriving DecidableEq, Repr

/-- Round the fraction `n / d`, `d > 0`, to the nearest integer, a tie to the even
one. -/
def roundHalfEven (n d : Nat) : Nat :=
  if 2 * (n % d) < d then n / d
  else if d < 2 * (n % d) then n / d + 1
  else if (n / d) % 2 = 0 then n / d
  else n / d + 1

/-- The number of halvings that bring `n` below 2, counted with `fuel` steps. -/
def log2Fuel : Nat → Nat → Nat
  | 0, _ => 0
  | fuel + 1, n => if n < 2 then 0 else log2Fuel fuel (n / 2) + 1

/-- The position of the leading bit of `n`: `2 ^ ilog2 n ≤ n < 2 ^ (ilog2 n + 1)`
for `n > 0`. -/
def ilog2 (n : Nat) : Nat := log2Fuel n n

/-- The binade of the fraction `n / d` (`n, d > 0`): the `e` with
`2 ^ e ≤ n / d < 2 ^ (e + 1)`. -/
def binade (n d : Nat) : Int :=
  let e0 : Int := (ilog2 n : Int) - (ilog2 d : Int)
  if d * 2 ^ e0.toNat ≤ n * 2 ^ (-e0).toNat then e0 else e0 - 1

/-- Round the fraction `n / d > 0` to a float64 magnitude `mant * 2 ^ exp`: the
unit in the last place is `2 ^ (binade - 52)`, not below `2 ^ -1074`; `none` when
the rounded value is above the largest float64, `(2 ^ 53 - 1) * 2 ^ 971` (overflow
to infinity). -/
def roundFloat64 (n d : Nat) : Option (Nat × Int) :=
  let exp : Int := max (binade n d - 52) (-1074)
  let mant := roundHalfEven (n * 2 ^ (-exp).toNat) (d * 2 ^ exp.toNat)
  if 971 < exp ∨ (exp = 971 ∧ 2 ^ 53 ≤ mant) then none else some (mant, exp)

/-- The conversion `float64(n)` of an integer. -/
def float64 (n : Int) : Float64 :=
  if n = 0 then .finite 0 0
  else
    match roundFloat64 n.natAbs 1 with
    | some (mant, exp) => .finite (if n < 0 then -(mant : Int) else mant) exp
    | none => .inf (decide (n < 0))

/-- The quotient `x / y` of two float64 values. -/
def Float64.div : Float64 → Float64 → Float64
  | .nan, _ => .nan
  | _, .nan => .nan
  | .inf _, .inf _ => .nan
  | .inf negative, .finite mant _ => .inf (negative != decide (mant < 0))
  | .finite _ _, .inf _ => .finite 0 0
  | .finite m1 e1, .finite m2 e2 =>
    if m2 = 0 then (if m1 = 0 then .nan else .inf (decide (m1 < 0)))
    else if m1 = 0 then .finite 0 0
    else
      match roundFloat64 (m1.natAbs * 2 ^ (e1 - e2).toNat) (m2.natAbs * 2 ^ (e2 - e1).toNat) with
      | some (mant, exp) =>
        .finite (if decide (m1 < 0) = decide (m2 < 0) then (mant : Int) else -(mant : Int)) exp
      | none => .inf (decide (m1 < 0) != decide (m2 < 0))

namespace math

/-- The function `math.Ceil`: the least integer value not below `x`. -/
def Ceil : Float64 → Float64
  | .finite mant exp =>
    if 0 ≤ exp then .finite mant exp else .finite (-((-mant) / 2 ^ (-exp).toNat)) 0
  | x => x

end math

/-- The conversion `int(x)` of a float64 to the 64-bit `int`: the fraction is
discarded (truncation towards zero); when the value does not fit, Go leaves the
result to the implementation, here `undef`. -/
def intOfFloat64 (undef : Int) : Float64 → Int
  | .finite mant exp =>
    let v : Int := if 0 ≤ exp then mant * 2 ^ exp.toNat else Int.tdiv mant (2 ^ (-exp).toNat)
    if -2 ^ 63 ≤ v ∧ v < 2 ^ 63 then v else undef
  | _ => undef

/-! ## The type int, package strconv and the request context -/

/-- The value that the 64-bit `int` holds after an operation whose exact result
is `x`: the result wraps around on overflow. -/
def wrapInt64 (x : Int) : Int := (x + 2 ^ 63) % 2 ^ 64 - 2 ^ 63

namespace strconv

/-- The error `strconv.ErrSyntax`, as `Atoi` reports it inside a `*NumError`; the
text that names the input is left out (the callers only test `err != nil`). -/
def ErrSyntax : GoError := .wrapError "strconv.Atoi: parsing: invalid syntax" (.errorString "invalid syntax")

/-- The error `strconv.ErrRange`, as `Atoi` reports it inside a `*NumError`. -/
def ErrRange : GoError := .wrapError "strconv.Atoi: parsing: value out of range" (.errorString "value out of range")

/-- The number that a string of decimal digits writes, after the digits read so
far; `none` when a character is not a digit. -/
def digits : List Char → Nat → Option Nat
  | [], n => some n
  | ch :: rest, n =>
    if '0' ≤ ch ∧ ch ≤ '9' then digits rest (n * 10 + (ch.toNat - '0'.toNat)) else none

/-- The function `strconv.Atoi` for the 64-bit `int`: an optional sign, then one or
more decimal digits; 0 with a syntax error for any other input, and the nearest
bound with a range error for a number outside the range of `int`. -/
def Atoi (s : String) : Int × Option GoError :=
  let negative := s.data.head? = some '-'
  let body := if s.data.head? = some '-' ∨ s.data.head? = some '+' then s.data.tail else s.data
  if body = [] then (0, some ErrSyntax)
  else
    match digits body 0 with
    | none => (0, some ErrSyntax)
    | some n =>
      if negative then
        if n ≤ 2 ^ 63 then (-(n : Int), none) else (-(2 ^ 63), some ErrRange)
      else
        if n < 2 ^ 63 then ((n : Int), none) else (2 ^ 63 - 1, some ErrRange)

end strconv

namespace gin

/-- A `*gin.Context` as far as `PaginateQueryExtractor` reads it: the method
`Query`, which gives the value of a query parameter, "" when it is absent. -/
structure Context where
  Query : String → String

end gin

/-! ## package utils: pagination.go -/

namespace utils

/-- The struct `utils.Pagination`; `Rows` is nil or the list of mapped rows, and
`Sort_` is the field `Sort` (a reserved word here). -/
structure Pagination where
  Limit : Int
  Page : Int
  Sort_ : String
  TotalRows : Int
  TotalPages : Int
  Rows : Option (List Value)
deriving DecidableEq, Repr

/-- The method `GetLimit`: the limit and the receiver after the call. -/
def Pagination.GetLimit (p : Pagination) : Int × Pagination :=
  if p.Limit = 0 then (10, { p with Limit := 10 }) else (p.Limit, p)

/-- The method `GetPage`: the page and the receiver after the call. -/
def Pagination.GetPage (p : Pagination) : Int × Pagination :=
  if p.Page = 0 then (1, { p with Page := 1 }) else (p.Page, p)

/-- The method `GetSort`: the sort clause and the receiver after the call. -/
def Pagination.GetSort (p : Pagination) : String × Pagination :=
  if p.Sort_ = "" then ("\"id\" desc", { p with Sort_ := "\"id\" desc" }) else (p.Sort_, p)

/-- The method `GetOffset`: `(p.GetPage() - 1) * p.GetLimit()` in the 64-bit `int`,
and the receiver after the two calls. -/
def Pagination.GetOffset (p : Pagination) : Int × Pagination :=
  let (page, p) := p.GetPage
  let (limit, p) := p.GetLimit
  (wrapInt64 (wrapInt64 (page - 1) * limit), p)

/-- The function `StringContains` of commonUtility.go. -/
def StringContains : List String → String → Bool
  | [], _ => false
  | item :: rest, str => if item = str then true else StringContains rest str

/-- The function `PaginateQueryExtractor`: the `Pagination` (nil on failure) and
the error. -/
def PaginateQueryExtractor (context : gin.Context) (validSortFields : List String) :
    Option Pagination × Option ErrorMessage :=
  let (page, err) := strconv.Atoi (context.Query "page")
  let page := if err ≠ none ∨ page ≤ 0 then 1 else page
  let (pageSize, err) := strconv.Atoi (context.Query "per_page")
  let pageSize := if err ≠ none ∨ pageSize ≤ 0 then 10 else pageSize
  let sort := context.Query "sort"
  let direction := context.Query "sortDesc"
  if sort ≠ "" ∧ !StringContains validSortFields sort then
    (none, some { StatusCode := http.StatusBadRequest, Message := "Invalid sort field" })
  else
    let sortWithDirection :=
      if sort ≠ "" then
        if direction = "true" then "\"" ++ sort ++ "\" DESC" else "\"" ++ sort ++ "\" ASC"
      else ""
    (some { Limit := pageSize, Page := page, Sort_ := sortWithDirection,
            TotalRows := 0, TotalPages := 0, Rows := none }, none)

end utils

/-! ## package config: postgres.go -/

namespace config

/-- The function `ConnectDB`: open a pool and ping it; `logrus.Fatalf` ends the
process when either step fails, so a pool that is returned is never nil. -/
def ConnectDB : Exec Handle := do
  match ← poolNew with
  | .err _ => Exec.halt .fatal
  | .ok dbConnection =>
    match ← Ping dbConnection with
    | some _ => Exec.halt .fatal
    | none => pure dbConnection

end config

/-! ## package Repository: CRUDRepository.go -/

namespace Repository

open utils

/-- The method `CheckAndResetDBConnection`. -/
def CheckAndResetDBConnection : Exec Unit := do
  -- for crud.lock { }
  if (← Exec.getCrud).lock then Exec.halt .spin else
  -- if crud.db == nil
  if (← Exec.getCrud).db = none then do
    Exec.setLock true
    Exec.setDb (some (← config.ConnectDB))
    Exec.setLock false
  -- if err := crud.db.Ping(...); err != nil
  match (← Exec.getCrud).db with
  | none => Exec.halt .panic
  | some db =>
    match ← Ping db with
    | some _ => do
      Exec.setLock true
      Exec.setDb (some (← config.ConnectDB))
      Exec.setLock false
    | none => pure ()

/-- The second of two calls of `CheckAndResetDBConnection` in sequence: it starts
from the history and the fields that the first call leaves. -/
def secondCheck (env : Env) (hist : List Event) (crud : crudRepository) : Run Unit :=
  CheckAndResetDBConnection env (hist ++ (CheckAndResetDBConnection env hist crud).events)
    (CheckAndResetDBConnection env hist crud).crud

/-- The pool `crud.db` at a call through it; a nil pool panics. -/
def crudDb : Exec Handle := do
  match (← Exec.getCrud).db with
  | none => Exec.halt .panic
  | some db => pure db

/-- The method `BeginTransaction`. -/
def BeginTransaction (k : Constants) : Exec (Option Tx × Option ErrorMessage) := do
  CheckAndResetDBConnection
  match ← Begin (← crudDb) with
  | .err _ =>
    pure (none, some { StatusCode := http.StatusInternalServerError,
                       Message := k.FAILED_BEGIN_TRANSACTION })
  | .ok tx => pure (some tx, none)

/-- The method `CommitTransaction`. -/
def CommitTransaction (k : Constants) (tx : Tx) (objectType : String) :
    Exec (Option ErrorMessage) := do
  match ← TxCommit tx with
  | some _ =>
    pure (some { StatusCode := http.StatusInternalServerError,
                 Message := Sprintf k.COMMIT_FAILED objectType })
  | none => pure none

/-- The method `RollBackTransaction`: a failed rollback is only logged. -/
def RollBackTransaction (k : Constants) (tx : Tx) (objectType : String) :
    Exec (Option ErrorMessage) := do
  let _rollbackErr ← TxRollback tx
  pure (some { StatusCode := http.StatusInternalServerError,
               Message := Sprintf k.FAILED_TO_UPDATE_OBJ objectType })

/-- The method `Delete`. -/
def Delete (k : Constants) (query : String) (objectType : String) (args : List Value) :
    Exec (Option ErrorMessage) := do
  match ← BeginTransaction k with
  | (_, some txErr) => pure (some txErr)
  | (none, none) => Exec.halt .panic
  | (some tx, none) =>
    match ← TxExec tx query args with
    | .err _ => RollBackTransaction k tx objectType
    | .ok rowsAffected =>
      if rowsAffected = 0 then
        pure none
      else
        CommitTransaction k tx objectType

/-- The method `Create`: the identifier and the error. -/
def Create (k : Constants) (query : String) (objectType : String) (args : List Value) :
    Exec (Value × Option ErrorMessage) := do
  match ← BeginTransaction k with
  | (_, some txErr) => pure (Value.int (-1), some txErr)
  | (none, none) => Exec.halt .panic
  | (some tx, none) =>
    match ← TxQueryRowScan tx query args with
    | .err _ => do
      let _ ← RollBackTransaction k tx objectType
      pure (Value.int (-1), some { StatusCode := http.StatusInternalServerError,
                                   Message := Sprintf k.FAILED_TO_CREATE_OBJ objectType })
    | .ok id =>
      match ← CommitTransaction k tx objectType with
      | some _cErr => do
        let rbErr ← RollBackTransaction k tx objectType
        pure (Value.int (-1), rbErr)
      | none => pure (id, none)

/-- The method `Update`. -/
def Update (k : Constants) (query : String) (objectType : String) (args : List Value) :
    Exec (Option ErrorMessage) := do
  match ← BeginTransaction k with
  | (_, some txerr) => pure (some txerr)
  | (none, none) => Exec.halt .panic
  | (some tx, none) =>
    match ← TxExec tx query args with
    | .err _ => RollBackTransaction k tx objectType
    | .ok rowsAffected =>
      if rowsAffected = 0 then
        pure (some { StatusCode := http.StatusNotFound,
                     Message := Sprintf k.NO_ROWS_AFFECTED objectType })
      else
        CommitTransaction k tx objectType

/-- The loop `for rows.Next()` of `Get` and `GetWithPagination` over the rows that
`Next` yields: `none` when the mapper fails on a row, else all mapped items. -/
def mapRows (mapper : RowMapperFunc) : List Row → List Value → Exec (Option (List Value))
  | [], results => pure (some results)
  | row :: rest, results => do
    match ← callMapper mapper row with
    | (_, some _) => pure none
    | (item, none) => mapRows mapper rest (results ++ [item])

/-- What `GetWithPagination` leaves: the caller's `Pagination` after the call, the
pointer it returns (nil, or the caller's value) and the error. -/
structure PaginationResult where
  pagination : Pagination
  returned : Option Pagination
  err : Option ErrorMessage
deriving DecidableEq, Repr

/-- The method `GetWithPagination`; `undef` is what `int(x)` gives on this machine
for a float64 outside the range of `int`. -/
def GetWithPagination (k : Constants) (undef : Int) (countSQL : String) (objectType : String)
    (finalSQL : String) (mapper : RowMapperFunc) (pagination : Pagination)
    (args : List Value) : Exec PaginationResult := do
  let _ := objectType
  CheckAndResetDBConnection
  match ← Query (← crudDb) finalSQL args with
  | .err _ =>
    pure ⟨pagination, none, some { StatusCode := http.StatusInternalServerError,
                                   Message := "Failed to execute query" }⟩
  | .ok rows =>
    -- defer rows.Close()
    match ← mapRows mapper rows [] with
    | none => do
      RowsClose
      pure ⟨pagination, none, some { StatusCode := http.StatusInternalServerError,
                                     Message := k.FAILED_SCAN }⟩
    | some results =>
      match ← QueryRowScanInt64 (← crudDb) countSQL [] with
      | .err _ => do
        RowsClose
        pure ⟨pagination, none, some { StatusCode := http.StatusInternalServerError,
                                       Message := "Failed to count total rows" }⟩
      | .ok totalRows => do
        let pagination := { pagination with TotalRows := totalRows }
        let (limit, pagination) := pagination.GetLimit
        let pagination := { pagination with
          TotalPages := intOfFloat64 undef (math.Ceil ((float64 totalRows).div (float64 limit))) }
        let pagination := { pagination with Rows := some results }
        RowsClose
        pure ⟨pagination, some pagination, none⟩

/-- The method `Get`: the mapped rows (nil on failure) and the error. -/
def Get (query : String) (objectType : String) (mapper : RowMapperFunc) (args : List Value) :
    Exec (List Value × Option ErrorMessage) := do
  let _ := objectType
  CheckAndResetDBConnection
  match ← Query (← crudDb) query args with
  | .err _ =>
    pure ([], some { StatusCode := http.StatusInternalServerError,
                     Message := "Failed to execute query" })
  | .ok rows =>
    -- defer rows.Close()
    match ← mapRows mapper rows [] with
    | none => do
      RowsClose
      pure ([], some { StatusCode := http.StatusInternalServerError,
                       Message := "Failed to scan row" })
    | some results => do
      RowsClose
      pure (results, none)

/-- The method `GetOne`: the mapped row (nil on failure) and the error. -/
def GetOne (k : Constants) (query : String) (objectType : String) (mapper : RowMapperFunc)
    (args : List Value) : Exec (Value × Option ErrorMessage) := do
  CheckAndResetDBConnection
  let row ← QueryRow (← crudDb) query args
  match ← callMapper mapper row with
  | (_, some err) =>
    if err = GoError.ErrNoRows then
      pure (Value.nil, some { StatusCode := http.StatusNotFound,
                              Message := "No " ++ objectType ++ " found with the given criteria" })
    else
      pure (Value.nil, some { StatusCode := http.StatusInternalServerError,
                              Message := k.FAILED_SCAN })
  | (item, none) => pure (item, none)

end Repository

/-! ## package services: restCaller.go -/

namespace services

open utils

def maxRetries : Nat := 5

/-- The constant `initialBackoff`, one second, in nanoseconds. -/
def initialBackoff : Nat := 1 * 1000000000

/-- An `*http.Response` as far as the caller reads it: the status code and the
body, which is nil or else what `io.ReadAll` reports on it. -/
structure Response where
  StatusCode : Int
  Body : Option (Res String)
deriving DecidableEq, Repr

/-- What the caller does to the outside: one GET with its answer (a response or
nil, an error or nil), or one `time.Sleep` with its duration in nanoseconds. -/
inductive RestEvent
  | get (url : String) (resp : Option Response) (restErr : Option GoError)
  | sleep (duration : Nat)
deriving DecidableEq, Repr

/-- The transport as an oracle: the answer of `Get`, given what happened before. -/
abbrev Transport := List RestEvent → String → Option Response × Option GoError

/-- What a call of `MakeRestCallToPartner` leaves: how it ended and what it did. -/
structure RestRun where
  out : Outcome (Option ErrorMessage)
  events : List RestEvent
deriving DecidableEq, Repr

/-- The loop `for` of `MakeRestCallToPartner`, run for at most `fuel` rounds;
`body` is the variable declared before the loop, `hist` what happened so far.
`none` when the rounds run out before the loop ends. -/
def restLoop (transport : Transport) (url : String) (body : String) :
    Nat → Nat → List RestEvent → Option RestRun
  | 0, _, _ => none
  | fuel + 1, retries, hist =>
    -- resp, restErr := rc.Get(url)
    let (resp, restErr) := transport hist url
    let hist := hist ++ [RestEvent.get url resp restErr]
    match restErr with
    | some restErr =>
      if retries ≥ maxRetries then
        let statusCode : Int :=
          match resp with
          | some resp => resp.StatusCode
          | none => 0
        some ⟨.ret (some { Message := "Failed to make GET request after retries -> " ++ restErr.Error,
                           StatusCode := statusCode }), hist⟩
      else
        let retries := retries + 1
        -- time.Sleep(initialBackoff * time.Duration(retries)); continue
        restLoop transport url body fuel retries (hist ++ [RestEvent.sleep (initialBackoff * retries)])
    | none =>
      match resp with
      | none => some ⟨.panic, hist⟩
      | some resp =>
        let statusCode := resp.StatusCode
        -- if resp.Body != nil: body, readErr := io.ReadAll(resp.Body) declares a
        -- new variable body, local to the block; the outer body is not assigned
        match resp.Body with
        | some (.err readErr) =>
          some ⟨.ret (some { Message := "Failed to read response body -> " ++ readErr.Error,
                             StatusCode := statusCode }), hist⟩
        | _ =>
          if statusCode ≠ http.StatusOK then
            some ⟨.ret (some { Message := "Received non-OK HTTP status: " ++ body,
                               StatusCode := statusCode }), hist⟩
          else
            -- break; return nil
            some ⟨.ret none, hist⟩

/-- The method `MakeRestCallToPartner`, its loop run for at most `fuel` rounds. -/
def MakeRestCallToPartner (transport : Transport) (fuel : Nat) (url : String) (params : String) :
    Option RestRun :=
  -- retries := 0; var body []byte; url = url + "?" + params
  restLoop transport (url ++ "?" ++ params) "" fuel 0 []

/-- One GET attempt. -/
def RestEvent.isGet : RestEvent → Bool
  | .get _ _ _ => true
  | .sleep _ => false

/-- The status code that an exhausted call reports: that of the last response, 0
when there is none. -/
def lastStatusCode : Option Response → Int
  | some resp => resp.StatusCode
  | none => 0

/-- The duration of a `time.Sleep`, `none` for a GET. -/
def RestEvent.sleep? : RestEvent → Option Nat
  | .get _ _ _ => none
  | .sleep duration => some duration

/-- The trace of failed attempts that are retried, the first of them made with
`retries` retries used: each is a GET that fails and then the sleep before the next
attempt. -/
def retryTrace (url : String) : Nat → List (Option Response × GoError) → List RestEvent
  | _, [] => []
  | retries, (resp, restErr) :: rest =>
    RestEvent.get url resp (some restErr) :: RestEvent.sleep (initialBackoff * (retries + 1)) ::
      retryTrace url (retries + 1) rest

/-- What a round of the loop makes of an attempt that is not retried: the error of
exhausted retries, or the reading of the response. -/
def finalOutcome (body : String) : Option Response → Option GoError → Outcome (Option ErrorMessage)
  | resp, some restErr =>
    .ret (some { Message := "Failed to make GET request after retries -> " ++ restErr.Error,
                 StatusCode := lastStatusCode resp })
  | none, none => .panic
  | some resp, none =>
    match resp.Body with
    | some (.err readErr) =>
      .ret (some { Message := "Failed to read response body -> " ++ readErr.Error,
                   StatusCode := resp.StatusCode })
    | _ =>
      if resp.StatusCode ≠ http.StatusOK then
        .ret (some { Message := "Received non-OK HTTP status: " ++ body,
                     StatusCode := resp.StatusCode })
      else .ret none

/-- The status code last seen in a trace, in the words of the specification: that
of the latest response that any attempt obtained, 0 when no attempt obtained one. -/
def specLastSeenStatusCode : List RestEvent → Int
  | [] => 0
  | .get _ (some resp) _ :: rest =>
    if rest.any (fun e => match e with | .get _ (some _) _ => true | _ => false)
    then specLastSeenStatusCode rest else resp.StatusCode
  | _ :: rest => specLastSeenStatusCode rest

end services

/-! ## Concurrent callers of the health check

Several goroutines call `CheckAndResetDBConnection` on the same `crudRepository`.
Each statement of the method is one atomic step on the shared fields, and a
schedule names the goroutine that steps next: a sequentially consistent
interleaving, which is the most that Go grants a program (the fields are read and
written without synchronisation). -/

/-- The statement of `CheckAndResetDBConnection` that a goroutine executes next,
or how its call has ended. -/
inductive Pc
  /-- At `for crud.lock { }`. -/
  | spin
  /-- At `if crud.db == nil`. -/
  | checkNil
  /-- At `crud.lock = true` of the first `if`. -/
  | nilLock
  /-- At `crud.db = config.ConnectDB()` of the first `if`. -/
  | nilConnect
  /-- At `crud.lock = false` of the first `if`. -/
  | nilUnlock
  /-- At `if err := crud.db.Ping(...); err != nil`. -/
  | ping
  /-- At `crud.lock = true` of the second `if`. -/
  | staleLock
  /-- At `crud.db = config.ConnectDB()` of the second `if`. -/
  | staleConnect
  /-- At `crud.lock = false` of the second `if`. -/
  | staleUnlock
  /-- The call has returned. -/
  | done
  /-- The process was ended by `logrus.Fatalf`. -/
  | fatal
  /-- The goroutine panicked on a nil pool. -/
  | panic
deriving DecidableEq, Repr

/-- One statement of `CheckAndResetDBConnection`, executed by a goroutine at `pc` on
the shared fields `crud`, with `hist` the driver calls of all goroutines so far:
where the goroutine stands next, the fields after the statement and the driver
calls it made. -/
def Pc.step (env : Env) (hist : List Event) (crud : crudRepository) :
    Pc → Pc × crudRepository × List Event
  | .spin => (if crud.lock then .spin else .checkNil, crud, [])
  | .checkNil => (if crud.db = none then .nilLock else .ping, crud, [])
  | .nilLock => (.nilConnect, { crud with lock := true }, [])
  | .nilConnect =>
    match (config.ConnectDB env hist crud).out with
    | .ret db => (.nilUnlock, { crud with db := some db }, (config.ConnectDB env hist crud).events)
    | _ => (.fatal, crud, (config.ConnectDB env hist crud).events)
  | .nilUnlock => (.ping, { crud with lock := false }, [])
  | .ping =>
    match crud.db with
    | none => (.panic, crud, [])
    | some db =>
      match env.ping hist db with
      | some err => (.staleLock, crud, [Event.ping db (some err)])
      | none => (.done, crud, [Event.ping db none])
  | .staleLock => (.staleConnect, { crud with lock := true }, [])
  | .staleConnect =>
    match (config.ConnectDB env hist crud).out with
    | .ret db => (.staleUnlock, { crud with db := some db }, (config.ConnectDB env hist crud).events)
    | _ => (.fatal, crud, (config.ConnectDB env hist crud).events)
  | .staleUnlock => (.done, { crud with lock := false }, [])
  | .done => (.done, crud, [])
  | .fatal => (.fatal, crud, [])
  | .panic => (.panic, crud, [])

/-- A goroutine between `crud.lock = true` and `crud.lock = false`: it holds the
flag and replaces the pool. -/
def Pc.replacing : Pc → Bool
  | .nilConnect => true
  | .nilUnlock => true
  | .staleConnect => true
  | .staleUnlock => true
  | _ => false

/-- The goroutines that call `CheckAndResetDBConnection` on one repository: the
shared fields, the driver calls made so far and where each goroutine stands. -/
structure World where
  crud : crudRepository
  hist : List Event
  pcs : List Pc
deriving DecidableEq, Repr

/-- Goroutine `i` executes its next statement; nothing moves once `logrus.Fatalf`
has ended the process. -/
def World.step (env : Env) (i : Nat) (w : World) : World :=
  if w.pcs.contains Pc.fatal then w
  else
    match w.pcs.get? i with
    | none => w
    | some pc =>
      ⟨(pc.step env w.hist w.crud).2.1, w.hist ++ (pc.step env w.hist w.crud).2.2,
        w.pcs.set i (pc.step env w.hist w.crud).1⟩

/-- The goroutines step in the order that the schedule names them. -/
def World.run (env : Env) : List Nat → World → World
  | [], w => w
  | i :: schedule, w => World.run env schedule (w.step env i)

/-- How a call that the statements have brought to `pc` has ended. -/
def Pc.ofOutcome : Outcome Unit → Pc
  | .ret _ => .done
  | .spin => .spin
  | .fatal => .fatal
  | .panic => .panic

/-! ## Sample inputs -/

/-- Sample message constants. -/
def sampleConstants : Constants where
  FAILED_TO_CREATE_OBJ := ⟨"Failed to create ", ""⟩
  FAILED_BEGIN_TRANSACTION := "Failed to begin transaction"
  COMMIT_FAILED := ⟨"Failed to commit the ", " transaction"⟩
  FAILED_TO_UPDATE_OBJ := ⟨"Failed to update ", ""⟩
  NO_ROWS_AFFECTED := ⟨"No ", " rows affected"⟩
  FAILED_SCAN := "Failed to scan row"

/-- A driver on which every call succeeds: statements affect `rows` rows, a
created row gets the identifier 42, a query yields one row, a single-row query
yields no row, and the count is 1. -/
def okEnv (rows : Int) : Env where
  poolNew := fun _ => .ok 1
  ping := fun _ _ => none
  begin := fun _ _ => .ok 7
  query := fun _ _ _ _ => .ok [⟨.ok [.int64 1]⟩]
  queryRow := fun _ _ _ _ => ⟨.err .ErrNoRows⟩
  queryRowScanInt64 := fun _ _ _ _ => .ok 1
  exec := fun _ _ _ _ => .ok rows
  txQueryRowScan := fun _ _ _ _ => .ok (.int64 42)
  commit := fun _ _ => none
  rollback := fun _ _ => none

/-- A repository with a pool and a free lock. -/
def sampleCrud : crudRepository := ⟨some 0, false⟩

/-- A driver on which the commit fails and every other call succeeds. -/
def commitFailEnv : Env :=
  { okEnv 1 with commit := fun _ _ => some (.errorString "commit failed") }

/-- A row mapper that reads the first column and wraps the error of `Scan` in an
error of its own, as `fmt.Errorf` with the verb `%w` does. -/
def wrappingMapper : RowMapperFunc := fun row =>
  match row.scan with
  | .ok (v :: _) => (v, none)
  | .ok [] => (Value.nil, some (.errorString "no columns"))
  | .err e => (Value.nil, some (.wrapError ("scan user: " ++ e.Error) e))

/-- A row mapper that reads the first column and returns the error of `Scan` as it
is, like the mappers of `userRepository.go`. -/
def plainMapper : RowMapperFunc := fun row =>
  match row.scan with
  | .ok (v :: _) => (v, none)
  | .ok [] => (Value.nil, some (.errorString "no columns"))
  | .err e => (Value.nil, some e)

/-- A row mapper that returns the no-rows error of `Scan` as it is and wraps every
other error of `Scan` in an error of its own. -/
def passNoRowsMapper : RowMapperFunc := fun row =>
  match row.scan with
  | .ok (v :: _) => (v, none)
  | .ok [] => (Value.nil, some (.errorString "no columns"))
  | .err .ErrNoRows => (Value.nil, some .ErrNoRows)
  | .err e => (Value.nil, some (.wrapError ("scan user: " ++ e.Error) e))

/-- A transport that fails on every attempt. -/
def failingTransport : services.Transport :=
  fun _ _ => (none, some (.errorString "connection refused"))

/-- A transport that answers every attempt with status 500 and the body "boom". -/
def boomTransport : services.Transport := fun _ _ => (some ⟨500, some (.ok "boom")⟩, none)

/-- A driver on which every call succeeds and the count query returns
`2 ^ 53 + 1`. -/
def bigCountEnv : Env :=
  { okEnv 1 with queryRowScanInt64 := fun _ _ _ _ => .ok 9007199254740993 }

/-- The zero value `utils.Pagination{}`. -/
def zeroPagination : utils.Pagination := ⟨0, 0, "", 0, 0, none⟩

/-- A repository without a pool. -/
def nilCrud : crudRepository := ⟨none, false⟩

/-- A driver on which the pool 0 has gone stale (its ping fails) and every other
call succeeds; a new pool is the pool 1. -/
def staleEnv : Env :=
  { okEnv 1 with ping := fun _ db => if db = 0 then some (.errorString "conn closed") else none }

/-- Two goroutines that enter `CheckAndResetDBConnection` on a repository whose pool
is the pool 0, with the flag free. -/
def twoCallers : World := ⟨sampleCrud, [], [Pc.spin, Pc.spin]⟩

/-- A driver on which the statement fails and every other call succeeds. -/
def execFailEnv : Env :=
  { okEnv 1 with
    exec := fun _ _ _ _ => .err (.errorString "some error")
    txQueryRowScan := fun _ _ _ _ => .err (.errorString "some error") }

/-- A driver on which the statement fails and then the rollback fails too. -/
def rollbackFailEnv : Env :=
  { execFailEnv with rollback := fun _ _ => some (.errorString "some error") }

/-- A driver on which `Begin` fails and every other call succeeds. -/
def beginFailEnv : Env :=
  { okEnv 1 with begin := fun _ _ => .err (.errorString "some error") }

/-- A driver on which the query yields three rows, the second without columns. -/
def threeRowsEnv : Env :=
  { okEnv 1 with query := fun _ _ _ _ => .ok [⟨.ok [.int64 1]⟩, ⟨.ok []⟩, ⟨.ok [.int64 3]⟩] }

/-- A driver on which the query fails. -/
def queryFailEnv : Env :=
  { okEnv 1 with query := fun _ _ _ _ => .err (.errorString "some error") }

/-- A driver on which the count query fails. -/
def countFailEnv : Env :=
  { okEnv 1 with queryRowScanInt64 := fun _ _ _ _ => .err (.errorString "some error") }

/-- A driver on which the third driver call, when it is a ping, fails, and every
other call succeeds. -/
def flakyEnv : Env :=
  { okEnv 1 with
    ping := fun hist _ => if hist.length = 2 then some (.errorString "conn closed") else none }

/-- A transport whose first five attempts end in a redirect that is not followed
(a response with status 302 together with an error) and whose later attempts find
the connection refused. -/
def redirectTransport : services.Transport := fun hist _ =>
  if hist.length < 10 then (some ⟨302, none⟩, some (.errorString "stopped after 10 redirects"))
  else (none, some (.errorString "connection refused"))

/-- A request context with the given query parameters. -/
def contextOf (params : List (String × String)) : gin.Context :=
  ⟨fun key => (params.lookup key).getD ""⟩

/-- The run of `MakeRestCallToPartner` against `redirectTransport`. -/
def redirectRun : services.RestRun :=
  (services.MakeRestCallToPartner redirectTransport 6 "http://partner" "a=1").getD ⟨.panic, []⟩

/-! ## The calculus of runs

`Exec.wp m env hist crud post` says that the run of `m` satisfies `post`.  The
lemmas below compute it along the structure of a program. -/

theorem wp_def {α : Type} (m : Exec α) (env : Env) (hist : List Event) (crud : crudRepository)
    (P : Run α → Prop) :
    P (m env hist crud) ↔ m.wp env hist crud (fun o c e => P ⟨o, c, e⟩) := Iff.rfl

theorem wp_pure {α : Type} (a : α) (env : Env) (hist : List Event) (crud : crudRepository)
    (post : Outcome α → crudRepository → List Event → Prop) :
    (pure a : Exec α).wp env hist crud post ↔ post (.ret a) crud [] := Iff.rfl

theorem wp_halt {α : Type} (o : Outcome α) (env : Env) (hist : List Event) (crud : crudRepository)
    (post : Outcome α → crudRepository → List Event → Prop) :
    (Exec.halt o).wp env hist crud post ↔ post o crud [] := Iff.rfl

theorem wp_bind {α β : Type} (m : Exec α) (f : α → Exec β) (env : Env) (hist : List Event)
    (crud : crudRepository) (post : Outcome β → crudRepository → List Event → Prop) :
    (m >>= f).wp env hist crud post ↔
      m.wp env hist crud (fun o c e =>
        match o with
        | .ret a => (f a).wp env (hist ++ e) c (fun o2 c2 e2 => post o2 c2 (e ++ e2))
        | .spin => post .spin c e
        | .fatal => post .fatal c e
        | .panic => post .panic c e) := by
  show (Exec.bind m f).wp env hist crud post ↔ _
  unfold Exec.wp Exec.bind
  rcases m env hist crud with ⟨o, c, e⟩
  cases o <;> exact Iff.rfl

theorem wp_call {β : Type} (ask : Env → List Event → β) (record : β → Event) (env : Env)
    (hist : List Event) (crud : crudRepository)
    (post : Outcome β → crudRepository → List Event → Prop) :
    (Exec.call ask record).wp env hist crud post ↔
      ∀ answer, answer = ask env hist → post (.ret answer) crud [record answer] := by
  constructor
  · rintro h answer rfl
    exact h
  · intro h
    exact h _ rfl

theorem wp_getCrud (env : Env) (hist : List Event) (crud : crudRepository)
    (post : Outcome crudRepository → crudRepository → List Event → Prop) :
    Exec.getCrud.wp env hist crud post ↔ post (.ret crud) crud [] := Iff.rfl

theorem wp_setDb (db : Option Handle) (env : Env) (hist : List Event) (crud : crudRepository)
    (post : Outcome Unit → crudRepository → List Event → Prop) :
    (Exec.setDb db).wp env hist crud post ↔ post (.ret ()) { crud with db := db } [] := Iff.rfl

theorem wp_setLock (lock : Bool) (env : Env) (hist : List Event) (crud : crudRepository)
    (post : Outcome Unit → crudRepository → List Event → Prop) :
    (Exec.setLock lock).wp env hist crud post ↔ post (.ret ()) { crud with lock := lock } [] :=
  Iff.rfl

theorem wp_callMapper (mapper : RowMapperFunc) (row : Row) (env : Env) (hist : List Event)
    (crud : crudRepository)
    (post : Outcome (Value × Option GoError) → crudRepository → List Event → Prop) :
    (callMapper mapper row).wp env hist crud post ↔
      post (.ret (mapper row)) crud [Event.mapper row (mapper row).1 (mapper row).2] := Iff.rfl

theorem wp_RowsClose (env : Env) (hist : List Event) (crud : crudRepository)
    (post : Outcome Unit → crudRepository → List Event → Prop) :
    RowsClose.wp env hist crud post ↔ post (.ret ()) crud [Event.rowsClose] := Iff.rfl

/-! ### The health check -/

theorem connectRun_isHealth {res : Option Handle} {ev : List Event} (h : ConnectRun res ev) :
    ∀ x ∈ ev, x.isHealth = true := by
  cases h <;> simp [Event.isHealth]

theorem pingRun_isHealth {db : Handle} {res : Option Handle} {ev : List Event}
    (h : PingRun db res ev) : ∀ x ∈ ev, x.isHealth = true := by
  cases h with
  | healthy => simp [Event.isHealth]
  | stale err res ev hc =>
    intro x hx
    rcases List.mem_cons.mp hx with rfl | hx
    · rfl
    · exact connectRun_isHealth hc x hx

theorem health_append {e1 e2 : List Event} (h1 : ∀ x ∈ e1, x.isHealth = true)
    (h2 : ∀ x ∈ e2, x.isHealth = true) : ∀ x ∈ e1 ++ e2, x.isHealth = true := by
  intro x hx
  rcases List.mem_append.mp hx with hx | hx
  · exact h1 x hx
  · exact h2 x hx

theorem healthRun_isHealth {crud : crudRepository} {res : Option Handle} {ev : List Event}
    (h : HealthRun crud res ev) : ∀ x ∈ ev, x.isHealth = true := by
  cases h with
  | ping db res ev _ hp => exact pingRun_isHealth hp
  | connectFailed ev _ hc => exact connectRun_isHealth hc
  | connected db res ev ev2 _ hc hp => exact health_append (connectRun_isHealth hc) (pingRun_isHealth hp)

theorem not_mem_of_health {e : List Event} (he : ∀ x ∈ e, x.isHealth = true) {x : Event}
    (hx : x.isHealth = false) : x ∉ e := by
  intro hmem
  rw [he x hmem] at hx
  exact Bool.noConfusion hx

/-- Every run of `config.ConnectDB`. -/
theorem wp_ConnectDB (env : Env) (hist : List Event) (crud : crudRepository)
    (post : Outcome Handle → crudRepository → List Event → Prop)
    (h : ∀ res ev, ConnectRun res ev → post (Outcome.ofOption res) crud ev) :
    config.ConnectDB.wp env hist crud post := by
  unfold config.ConnectDB poolNew Ping
  simp only [wp_bind, wp_call, wp_pure, wp_halt]
  intro a _
  cases a <;> simp only [wp_bind, wp_call, wp_pure, wp_halt]
  · intro b _
    cases b <;> simp only [wp_bind, wp_call, wp_pure, wp_halt]
    · exact h _ _ (ConnectRun.connected _)
    · exact h _ _ (ConnectRun.pingFailed _ _)
  · exact h _ _ (ConnectRun.newFailed _)

/-- Every run of the second step of the health check on the pool `db`. -/
theorem wp_pingStep (db : Handle) (env : Env) (hist : List Event) (crud : crudRepository)
    (post : Outcome Unit → crudRepository → List Event → Prop)
    (hcrud : crud = ⟨some db, false⟩)
    (hret : ∀ db2 ev, PingRun db (some db2) ev → post (.ret ()) ⟨some db2, false⟩ ev)
    (hfatal : ∀ c ev, PingRun db none ev → post .fatal c ev) :
    (Ping db >>= fun (pingErr : Option GoError) =>
      match pingErr with
      | some _ => do
        Exec.setLock true
        Exec.setDb (some (← config.ConnectDB))
        Exec.setLock false
      | none => pure ()).wp env hist crud post := by
  subst hcrud
  unfold Ping
  simp only [wp_bind, wp_call]
  intro a _
  cases a
  · simp only [wp_pure, List.append_nil]
    exact hret db _ PingRun.healthy
  · simp only [wp_bind, wp_setLock]
    apply wp_ConnectDB
    intro res ev hc
    cases res
    · exact hfatal _ _ (PingRun.stale _ _ _ (by simpa using hc))
    · simp only [Outcome.ofOption, wp_bind, wp_setDb, wp_setLock]
      exact hret _ _ (PingRun.stale _ _ _ (by simpa using hc))

/-- Every run of `CheckAndResetDBConnection`. -/
theorem wp_CheckAndReset_exact (env : Env) (hist : List Event) (crud : crudRepository)
    (post : Outcome Unit → crudRepository → List Event → Prop)
    (hspin : crud.lock = true → post .spin crud [])
    (hret : ∀ db ev, crud.lock = false → HealthRun crud (some db) ev →
      post (.ret ()) ⟨some db, false⟩ ev)
    (hfatal : ∀ c ev, crud.lock = false → HealthRun crud none ev → post .fatal c ev) :
    Repository.CheckAndResetDBConnection.wp env hist crud post := by
  unfold Repository.CheckAndResetDBConnection
  simp only [wp_bind, wp_getCrud]
  cases hl : crud.lock
  · simp only [Bool.false_eq_true, ↓reduceIte, wp_bind, wp_getCrud]
    cases hd : crud.db
    · simp only [↓reduceIte, wp_bind, wp_setLock]
      apply wp_ConnectDB
      intro res ev hc
      cases res
      · exact hfatal _ _ hl (HealthRun.connectFailed _ hd hc)
      · rename_i db
        have h := wp_pingStep db env (hist ++ ev) ⟨some db, false⟩
          (fun o c x => post o c (ev ++ x)) rfl ?_ ?_
        · simpa only [Outcome.ofOption, wp_bind, wp_setLock, wp_setDb, wp_getCrud, wp_pure,
            List.append_nil, List.nil_append, List.append_assoc] using h
        · intro db2 ev2 hp
          exact hret _ _ hl (HealthRun.connected _ _ _ _ hd hc hp)
        · intro c ev2 hp
          exact hfatal _ _ hl (HealthRun.connected _ _ _ _ hd hc hp)
    · rename_i db
      simp only [reduceCtorEq, ↓reduceIte, wp_bind, wp_pure, wp_getCrud, hd]
      have h := wp_pingStep db env hist crud post ?_ ?_ ?_
      · simpa only [wp_bind, wp_setLock, wp_setDb, wp_getCrud, wp_pure,
          List.append_nil, List.nil_append, List.append_assoc] using h
      · rcases crud with ⟨d, l⟩
        simp only at hl hd
        rw [hl, hd]
      · intro db2 ev hp
        exact hret _ _ hl (HealthRun.ping _ _ _ hd hp)
      · intro c ev hp
        exact hfatal _ _ hl (HealthRun.ping _ _ _ hd hp)
  · simp only [↓reduceIte, wp_halt]
    exact hspin hl

/-- Every run of `CheckAndResetDBConnection`, by the kind of its events only. -/
theorem wp_CheckAndReset (env : Env) (hist : List Event) (crud : crudRepository)
    (post : Outcome Unit → crudRepository → List Event → Prop)
    (hret : ∀ db e, (∀ x ∈ e, x.isHealth = true) → crud.lock = false →
      post (.ret ()) ⟨some db, false⟩ e)
    (hspin : crud.lock = true → post .spin crud [])
    (hfatal : ∀ c e, (∀ x ∈ e, x.isHealth = true) → post .fatal c e) :
    Repository.CheckAndResetDBConnection.wp env hist crud post := by
  apply wp_CheckAndReset_exact
  · exact hspin
  · intro db ev hl hr
    exact hret db ev (healthRun_isHealth hr) hl
  · intro c ev _ hr
    exact hfatal c ev (healthRun_isHealth hr)

/-! ### Transactions -/

open utils

theorem wp_crudDb (env : Env) (hist : List Event) (crud : crudRepository)
    (post : Outcome Handle → crudRepository → List Event → Prop) (db : Handle)
    (hdb : crud.db = some db) (h : post (.ret db) crud []) :
    Repository.crudDb.wp env hist crud post := by
  unfold Repository.crudDb
  simp only [wp_bind, wp_getCrud, hdb, wp_pure]
  exact h

/-- Every run of `BeginTransaction`: the health check, then one `Begin`. -/
theorem wp_BeginTransaction (k : Constants) (env : Env) (hist : List Event)
    (crud : crudRepository)
    (post : Outcome (Option Tx × Option ErrorMessage) → crudRepository → List Event → Prop)
    (hok : ∀ c e db tx, (∀ x ∈ e, x.isHealth = true) → crud.lock = false →
      post (.ret (some tx, none)) c (e ++ [Event.begin db (.ok tx)]))
    (herr : ∀ c e db err, (∀ x ∈ e, x.isHealth = true) → crud.lock = false →
      post (.ret (none, some ⟨http.StatusInternalServerError, k.FAILED_BEGIN_TRANSACTION⟩)) c
        (e ++ [Event.begin db (.err err)]))
    (hspin : crud.lock = true → post .spin crud [])
    (hfatal : ∀ c e, (∀ x ∈ e, x.isHealth = true) → post .fatal c e) :
    (Repository.BeginTransaction k).wp env hist crud post := by
  unfold Repository.BeginTransaction
  simp only [wp_bind]
  apply wp_CheckAndReset
  · intro db e he hl
    simp only []
    apply wp_crudDb _ _ _ _ db rfl
    unfold Begin
    simp only [wp_call, List.append_nil]
    intro a _
    cases a <;> simp only [wp_pure, List.append_nil]
    · exact hok _ _ _ _ he hl
    · exact herr _ _ _ _ he hl
  · exact hspin
  · exact hfatal


theorem wp_CommitTransaction (k : Constants) (tx : Tx) (objectType : String) (env : Env)
    (hist : List Event) (crud : crudRepository)
    (post : Outcome (Option ErrorMessage) → crudRepository → List Event → Prop)
    (hok : post (.ret none) crud [Event.commit tx none])
    (herr : ∀ err, post (.ret (some ⟨http.StatusInternalServerError,
      Sprintf k.COMMIT_FAILED objectType⟩)) crud [Event.commit tx (some err)]) :
    (Repository.CommitTransaction k tx objectType).wp env hist crud post := by
  unfold Repository.CommitTransaction TxCommit
  simp only [wp_bind, wp_call]
  intro a _
  cases a <;> simp only [wp_pure, List.append_nil]
  · exact hok
  · exact herr _

theorem wp_RollBackTransaction (k : Constants) (tx : Tx) (objectType : String) (env : Env)
    (hist : List Event) (crud : crudRepository)
    (post : Outcome (Option ErrorMessage) → crudRepository → List Event → Prop)
    (h : ∀ rb, post (.ret (some ⟨http.StatusInternalServerError,
      Sprintf k.FAILED_TO_UPDATE_OBJ objectType⟩)) crud [Event.rollback tx rb]) :
    (Repository.RollBackTransaction k tx objectType).wp env hist crud post := by
  unfold Repository.RollBackTransaction TxRollback
  simp only [wp_bind, wp_call, wp_pure, List.append_nil]
  intro a _
  exact h a

/-- Every run of `Delete`, by what the driver answers. -/
theorem wp_Delete (k : Constants) (query objectType : String) (args : List Value) (env : Env)
    (hist : List Event) (crud : crudRepository)
    (post : Outcome (Option ErrorMessage) → crudRepository → List Event → Prop)
    (hspin : crud.lock = true → post .spin crud [])
    (hfatal : ∀ c e, (∀ x ∈ e, x.isHealth = true) → post .fatal c e)
    (hbegin : ∀ c e db err, (∀ x ∈ e, x.isHealth = true) →
      post (.ret (some ⟨http.StatusInternalServerError, k.FAILED_BEGIN_TRANSACTION⟩)) c
        (e ++ [Event.begin db (.err err)]))
    (hexec : ∀ c e db tx err rb, (∀ x ∈ e, x.isHealth = true) →
      post (.ret (some ⟨http.StatusInternalServerError, Sprintf k.FAILED_TO_UPDATE_OBJ objectType⟩))
        c (e ++ [Event.begin db (.ok tx), Event.exec tx query args (.err err),
                 Event.rollback tx rb]))
    (hzero : ∀ c e db tx, (∀ x ∈ e, x.isHealth = true) →
      post (.ret none) c (e ++ [Event.begin db (.ok tx), Event.exec tx query args (.ok 0)]))
    (hcommit : ∀ c e db tx n, (∀ x ∈ e, x.isHealth = true) → n ≠ 0 →
      post (.ret none) c
        (e ++ [Event.begin db (.ok tx), Event.exec tx query args (.ok n), Event.commit tx none]))
    (hcommitErr : ∀ c e db tx n err, (∀ x ∈ e, x.isHealth = true) → n ≠ 0 →
      post (.ret (some ⟨http.StatusInternalServerError, Sprintf k.COMMIT_FAILED objectType⟩)) c
        (e ++ [Event.begin db (.ok tx), Event.exec tx query args (.ok n),
               Event.commit tx (some err)])) :
    (Repository.Delete k query objectType args).wp env hist crud post := by
  unfold Repository.Delete
  simp only [wp_bind]
  apply wp_BeginTransaction
  · intro c e db tx he _
    unfold TxExec
    simp only [wp_bind, wp_call]
    intro a _
    cases a with
    | err err =>
      simp only []
      apply wp_RollBackTransaction
      intro rb
      simpa using hexec c e db tx err rb he
    | ok n =>
      simp only []
      by_cases hn : n = 0
      · subst hn
        simp only [↓reduceIte, wp_pure]
        simpa using hzero c e db tx he
      · simp only [hn, ↓reduceIte]
        apply wp_CommitTransaction
        · simpa using hcommit c e db tx n he hn
        · intro err
          simpa using hcommitErr c e db tx n err he hn
  · intro c e db err he _
    simp only [wp_pure, List.append_nil]
    exact hbegin c e db err he
  · exact hspin
  · exact hfatal


/-- Every run of `Update`, by what the driver answers. -/
theorem wp_Update (k : Constants) (query objectType : String) (args : List Value) (env : Env)
    (hist : List Event) (crud : crudRepository)
    (post : Outcome (Option ErrorMessage) → crudRepository → List Event → Prop)
    (hspin : crud.lock = true → post .spin crud [])
    (hfatal : ∀ c e, (∀ x ∈ e, x.isHealth = true) → post .fatal c e)
    (hbegin : ∀ c e db err, (∀ x ∈ e, x.isHealth = true) →
      post (.ret (some ⟨http.StatusInternalServerError, k.FAILED_BEGIN_TRANSACTION⟩)) c
        (e ++ [Event.begin db (.err err)]))
    (hexec : ∀ c e db tx err rb, (∀ x ∈ e, x.isHealth = true) →
      post (.ret (some ⟨http.StatusInternalServerError, Sprintf k.FAILED_TO_UPDATE_OBJ objectType⟩))
        c (e ++ [Event.begin db (.ok tx), Event.exec tx query args (.err err),
                 Event.rollback tx rb]))
    (hzero : ∀ c e db tx, (∀ x ∈ e, x.isHealth = true) →
      post (.ret (some ⟨http.StatusNotFound, Sprintf k.NO_ROWS_AFFECTED objectType⟩)) c
        (e ++ [Event.begin db (.ok tx), Event.exec tx query args (.ok 0)]))
    (hcommit : ∀ c e db tx n, (∀ x ∈ e, x.isHealth = true) → n ≠ 0 →
      post (.ret none) c
        (e ++ [Event.begin db (.ok tx), Event.exec tx query args (.ok n), Event.commit tx none]))
    (hcommitErr : ∀ c e db tx n err, (∀ x ∈ e, x.isHealth = true) → n ≠ 0 →
      post (.ret (some ⟨http.StatusInternalServerError, Sprintf k.COMMIT_FAILED objectType⟩)) c
        (e ++ [Event.begin db (.ok tx), Event.exec tx query args (.ok n),
               Event.commit tx (some err)])) :
    (Repository.Update k query objectType args).wp env hist crud post := by
  unfold Repository.Update
  simp only [wp_bind]
  apply wp_BeginTransaction
  · intro c e db tx he _
    unfold TxExec
    simp only [wp_bind, wp_call]
    intro a _
    cases a with
    | err err =>
      simp only []
      apply wp_RollBackTransaction
      intro rb
      simpa using hexec c e db tx err rb he
    | ok n =>
      simp only []
      by_cases hn : n = 0
      · subst hn
        simp only [↓reduceIte, wp_pure]
        simpa using hzero c e db tx he
      · simp only [hn, ↓reduceIte]
        apply wp_CommitTransaction
        · simpa using hcommit c e db tx n he hn
        · intro err
          simpa using hcommitErr c e db tx n err he hn
  · intro c e db err he _
    simp only [wp_pure, List.append_nil]
    exact hbegin c e db err he
  · exact hspin
  · exact hfatal

/-- Every run of `Create`, by what the driver answers. -/
theorem wp_Create (k : Constants) (query objectType : String) (args : List Value) (env : Env)
    (hist : List Event) (crud : crudRepository)
    (post : Outcome (Value × Option ErrorMessage) → crudRepository → List Event → Prop)
    (hspin : crud.lock = true → post .spin crud [])
    (hfatal : ∀ c e, (∀ x ∈ e, x.isHealth = true) → post .fatal c e)
    (hbegin : ∀ c e db err, (∀ x ∈ e, x.isHealth = true) →
      post (.ret (Value.int (-1),
          some ⟨http.StatusInternalServerError, k.FAILED_BEGIN_TRANSACTION⟩)) c
        (e ++ [Event.begin db (.err err)]))
    (hscan : ∀ c e db tx err rb, (∀ x ∈ e, x.isHealth = true) →
      post (.ret (Value.int (-1),
          some ⟨http.StatusInternalServerError, Sprintf k.FAILED_TO_CREATE_OBJ objectType⟩))
        c (e ++ [Event.begin db (.ok tx), Event.txQueryRowScan tx query args (.err err),
                 Event.rollback tx rb]))
    (hcommit : ∀ c e db tx id, (∀ x ∈ e, x.isHealth = true) →
      post (.ret (id, none)) c
        (e ++ [Event.begin db (.ok tx), Event.txQueryRowScan tx query args (.ok id),
               Event.commit tx none]))
    (hcommitErr : ∀ c e db tx id err rb, (∀ x ∈ e, x.isHealth = true) →
      post (.ret (Value.int (-1),
          some ⟨http.StatusInternalServerError, Sprintf k.FAILED_TO_UPDATE_OBJ objectType⟩)) c
        (e ++ [Event.begin db (.ok tx), Event.txQueryRowScan tx query args (.ok id),
               Event.commit tx (some err), Event.rollback tx rb])) :
    (Repository.Create k query objectType args).wp env hist crud post := by
  unfold Repository.Create
  simp only [wp_bind]
  apply wp_BeginTransaction
  · intro c e db tx he _
    unfold TxQueryRowScan
    simp only [wp_bind, wp_call]
    intro a _
    cases a with
    | err err =>
      simp only [wp_bind]
      apply wp_RollBackTransaction
      intro rb
      simp only [wp_pure]
      simpa using hscan c e db tx err rb he
    | ok id =>
      simp only [wp_bind]
      apply wp_CommitTransaction
      · simp only [wp_pure]
        simpa using hcommit c e db tx id he
      · intro err
        simp only [wp_bind]
        apply wp_RollBackTransaction
        intro rb
        simp only [wp_pure]
        simpa using hcommitErr c e db tx id err rb he
  · intro c e db err he _
    simp only [wp_pure, List.append_nil]
    exact hbegin c e db err he
  · exact hspin
  · exact hfatal

theorem countP_eq_zero_of_health {e : List Event} (p : Event → Bool)
    (he : ∀ x ∈ e, x.isHealth = true) (hp : ∀ x, x.isHealth = true → p x = false) :
    e.countP p = 0 := by
  rw [List.countP_eq_zero]
  intro x hx
  simp [hp x (he x hx)]

theorem countP_isCommit_health {e : List Event} (he : ∀ x ∈ e, x.isHealth = true) :
    e.countP Event.isCommit = 0 :=
  countP_eq_zero_of_health _ he (by intro x; cases x <;> simp [Event.isHealth, Event.isCommit])

theorem countP_isRollback_health {e : List Event} (he : ∀ x ∈ e, x.isHealth = true) :
    e.countP Event.isRollback = 0 :=
  countP_eq_zero_of_health _ he (by intro x; cases x <;> simp [Event.isHealth, Event.isRollback])

theorem countP_isCommitOn_health {e : List Event} (tx : Tx) (he : ∀ x ∈ e, x.isHealth = true) :
    e.countP (Event.isCommitOn tx) = 0 :=
  countP_eq_zero_of_health _ he (by intro x; cases x <;> simp [Event.isHealth, Event.isCommitOn])

theorem countP_isRollbackOn_health {e : List Event} (tx : Tx)
    (he : ∀ x ∈ e, x.isHealth = true) : e.countP (Event.isRollbackOn tx) = 0 :=
  countP_eq_zero_of_health _ he
    (by intro x; cases x <;> simp [Event.isHealth, Event.isRollbackOn])

/-- Every run of `GetOne`, by what the mapper returns. -/
theorem wp_GetOne (k : Constants) (query objectType : String) (mapper : RowMapperFunc)
    (args : List Value) (env : Env) (hist : List Event) (crud : crudRepository)
    (post : Outcome (Value × Option ErrorMessage) → crudRepository → List Event → Prop)
    (hspin : crud.lock = true → post .spin crud [])
    (hfatal : ∀ c e, (∀ x ∈ e, x.isHealth = true) → post .fatal c e)
    (hok : ∀ c e db row, (∀ x ∈ e, x.isHealth = true) → (mapper row).2 = none →
      post (.ret ((mapper row).1, none)) c
        (e ++ [Event.queryRow db query args row,
               Event.mapper row (mapper row).1 (mapper row).2]))
    (hnone : ∀ c e db row, (∀ x ∈ e, x.isHealth = true) →
      (mapper row).2 = some GoError.ErrNoRows →
      post (.ret (Value.nil, some ⟨http.StatusNotFound,
          "No " ++ objectType ++ " found with the given criteria"⟩)) c
        (e ++ [Event.queryRow db query args row,
               Event.mapper row (mapper row).1 (mapper row).2]))
    (hscan : ∀ c e db row err, (∀ x ∈ e, x.isHealth = true) →
      (mapper row).2 = some err → err ≠ GoError.ErrNoRows →
      post (.ret (Value.nil, some ⟨http.StatusInternalServerError, k.FAILED_SCAN⟩)) c
        (e ++ [Event.queryRow db query args row,
               Event.mapper row (mapper row).1 (mapper row).2])) :
    (Repository.GetOne k query objectType mapper args).wp env hist crud post := by
  unfold Repository.GetOne
  simp only [wp_bind]
  apply wp_CheckAndReset
  · intro db e he hl
    simp only []
    apply wp_crudDb _ _ _ _ db rfl
    unfold QueryRow
    simp only [wp_call, wp_bind, wp_callMapper, List.append_nil]
    intro row _
    rcases hm : mapper row with ⟨item, merr⟩
    cases merr with
    | none =>
      simp only [wp_pure]
      have := hok ⟨some db, false⟩ e db row he (by rw [hm])
      simpa [hm] using this
    | some err =>
      simp only []
      by_cases herr : err = GoError.ErrNoRows
      · subst herr
        simp only [↓reduceIte, wp_pure]
        have := hnone ⟨some db, false⟩ e db row he (by rw [hm])
        simpa [hm] using this
      · simp only [herr, ↓reduceIte, wp_pure]
        have := hscan ⟨some db, false⟩ e db row err he (by rw [hm]) herr
        simpa [hm] using this
  · exact hspin
  · exact hfatal

/-- The run of the health check on a pool whose ping succeeds. -/
theorem CheckAndReset_healthy (env : Env) (hist : List Event) (crud : crudRepository)
    (db : Handle) (hdb : crud.db = some db) (hlock : crud.lock = false)
    (hping : env.ping hist db = none) :
    Repository.CheckAndResetDBConnection env hist crud = ⟨.ret (), crud, [Event.ping db none]⟩ := by
  rcases crud with ⟨d, l⟩
  simp only at hdb hlock
  subst hdb hlock
  rw [wp_def Repository.CheckAndResetDBConnection env hist ⟨some db, false⟩
    (fun r => r = ⟨.ret (), ⟨some db, false⟩, [Event.ping db none]⟩)]
  unfold Repository.CheckAndResetDBConnection Ping
  simp only [wp_bind, wp_getCrud, wp_call, wp_pure, Bool.false_eq_true, ↓reduceIte, reduceCtorEq,
    List.append_nil, List.nil_append]
  intro a ha
  rw [hping] at ha
  subst ha
  simp only [wp_pure, List.append_nil]

theorem CheckAndReset_spinning (env : Env) (hist : List Event) (crud : crudRepository)
    (hlock : crud.lock = true) :
    Repository.CheckAndResetDBConnection env hist crud = ⟨.spin, crud, []⟩ := by
  rw [wp_def Repository.CheckAndResetDBConnection env hist crud (fun r => r = ⟨.spin, crud, []⟩)]
  unfold Repository.CheckAndResetDBConnection
  simp only [wp_bind, wp_getCrud, hlock, ↓reduceIte, wp_halt, List.append_nil]

/-- The first event of the health check on a pool, past the busy-wait, is the
ping of that pool, with what the driver answers. -/
theorem CheckAndReset_first_ping (env : Env) (hist : List Event) (crud : crudRepository)
    (db : Handle) (hdb : crud.db = some db) (hlock : crud.lock = false) :
    Event.ping db (env.ping hist db) ∈
      (Repository.CheckAndResetDBConnection env hist crud).events := by
  rw [wp_def Repository.CheckAndResetDBConnection env hist crud
    (fun r => Event.ping db (env.ping hist db) ∈ r.events)]
  unfold Repository.CheckAndResetDBConnection Ping
  simp only [wp_bind, wp_getCrud, wp_call, wp_pure, hlock, hdb, Bool.false_eq_true, ↓reduceIte,
    reduceCtorEq, List.append_nil, List.nil_append]
  intro a ha
  subst ha
  cases env.ping hist db with
  | none => simp only [wp_pure]; simp
  | some err =>
    simp only [wp_bind, wp_setLock]
    apply wp_ConnectDB
    intro res ev _
    cases res <;> simp [Outcome.ofOption, wp_bind, wp_setDb, wp_setLock, Exec.wp, Exec.setDb, Exec.setLock, Exec.bind]


/-- The acquires of a run of the health check in which every ping succeeds. -/
theorem healthRun_acquires_le_one (crud : crudRepository) (db : Handle) (ev : List Event)
    (h : HealthRun crud (some db) ev)
    (hpings : ∀ d err, Event.ping d err ∈ ev → err = none) :
    ev.countP Event.isPoolNew ≤ 1 := by
  have hstale : ∀ (d : Handle) (res : Option Handle) (ev2 : List Event), PingRun d res ev2 →
      (∀ d err, Event.ping d err ∈ ev2 → err = none) → ev2 = [Event.ping d none] := by
    intro d res ev2 hp hok
    cases hp with
    | healthy => rfl
    | stale err res ev3 _ =>
      have := hok d (some err) (by simp)
      simp at this
  cases h with
  | ping db0 res ev _ hp =>
    rw [hstale _ _ _ hp hpings]
    simp [Event.isPoolNew]
  | connected db1 res ev1 ev2 _ hc hp =>
    have h2 := hstale _ _ _ hp (fun d err hmem => hpings d err (List.mem_append_right _ hmem))
    subst h2
    cases hc
    simp [List.countP_cons, Event.isPoolNew]

/-! ### The row loop and the paginated query -/

/-- Every run of the row loop: all rows map, or the loop stops at the first row
on which the mapper fails. -/
theorem wp_mapRows (mapper : RowMapperFunc) (env : Env) (crud : crudRepository) :
    ∀ (rows : List Row) (results : List Value) (hist : List Event)
      (post : Outcome (Option (List Value)) → crudRepository → List Event → Prop),
      ((∀ r ∈ rows, (mapper r).2 = none) →
        post (.ret (some (results ++ rows.map (fun r => (mapper r).1)))) crud
          (rows.map (mapperEvent mapper))) →
      (∀ before row rest, rows = before ++ row :: rest →
        (∀ r ∈ before, (mapper r).2 = none) → (mapper row).2 ≠ none →
        post (.ret none) crud ((before ++ [row]).map (mapperEvent mapper))) →
      (Repository.mapRows mapper rows results).wp env hist crud post := by
  intro rows
  induction rows with
  | nil =>
    intro results hist post hok _
    unfold Repository.mapRows
    simp only [wp_pure]
    simpa using hok
  | cons row rest ih =>
    intro results hist post hok hfail
    unfold Repository.mapRows
    simp only [wp_bind, wp_callMapper]
    rcases hm : mapper row with ⟨item, merr⟩
    cases merr with
    | some err =>
      simp only [wp_pure, List.append_nil]
      have := hfail [] row rest rfl (by simp) (by rw [hm]; simp)
      simpa [mapperEvent, hm] using this
    | none =>
      simp only []
      apply ih
      · intro hall
        have := hok (by
          intro r hr
          rcases List.mem_cons.mp hr with rfl | hr
          · rw [hm]
          · exact hall r hr)
        simpa [mapperEvent, hm] using this
      · intro before row2 rest2 hrows hall hne
        have := hfail (row :: before) row2 rest2 (by rw [hrows]; rfl) (by
          intro r hr
          rcases List.mem_cons.mp hr with rfl | hr
          · rw [hm]
          · exact hall r hr) hne
        simpa [mapperEvent, hm] using this


/-- Every run of `GetWithPagination`, by what the driver and the mapper answer. -/
theorem wp_GetWithPagination (k : Constants) (undef : Int) (countSQL objectType finalSQL : String)
    (mapper : RowMapperFunc) (pagination : Pagination) (args : List Value) (env : Env)
    (hist : List Event) (crud : crudRepository)
    (post : Outcome Repository.PaginationResult → crudRepository → List Event → Prop)
    (hspin : crud.lock = true → post .spin crud [])
    (hfatal : ∀ c e, (∀ x ∈ e, x.isHealth = true) → post .fatal c e)
    (hquery : ∀ c e db err, (∀ x ∈ e, x.isHealth = true) →
      post (.ret ⟨pagination, none,
          some ⟨http.StatusInternalServerError, "Failed to execute query"⟩⟩) c
        (e ++ [Event.query db finalSQL args (.err err)]))
    (hmap : ∀ c e db before row rest, (∀ x ∈ e, x.isHealth = true) →
      (∀ r ∈ before, (mapper r).2 = none) → (mapper row).2 ≠ none →
      post (.ret ⟨pagination, none, some ⟨http.StatusInternalServerError, k.FAILED_SCAN⟩⟩) c
        (e ++ [Event.query db finalSQL args (.ok (before ++ row :: rest))] ++
          (before ++ [row]).map (mapperEvent mapper) ++ [Event.rowsClose]))
    (hcount : ∀ c e db rows err, (∀ x ∈ e, x.isHealth = true) →
      (∀ r ∈ rows, (mapper r).2 = none) →
      post (.ret ⟨pagination, none,
          some ⟨http.StatusInternalServerError, "Failed to count total rows"⟩⟩) c
        (e ++ [Event.query db finalSQL args (.ok rows)] ++ rows.map (mapperEvent mapper) ++
          [Event.queryRowScanInt64 db countSQL [] (.err err), Event.rowsClose]))
    (hok : ∀ c e db rows totalRows, (∀ x ∈ e, x.isHealth = true) →
      (∀ r ∈ rows, (mapper r).2 = none) →
      post (.ret
          ⟨{ pagination.GetLimit.2 with
              TotalRows := totalRows
              TotalPages := intOfFloat64 undef
                (math.Ceil ((float64 totalRows).div (float64 pagination.GetLimit.1)))
              Rows := some (rows.map (fun r => (mapper r).1)) },
            some { pagination.GetLimit.2 with
              TotalRows := totalRows
              TotalPages := intOfFloat64 undef
                (math.Ceil ((float64 totalRows).div (float64 pagination.GetLimit.1)))
              Rows := some (rows.map (fun r => (mapper r).1)) },
            none⟩) c
        (e ++ [Event.query db finalSQL args (.ok rows)] ++ rows.map (mapperEvent mapper) ++
          [Event.queryRowScanInt64 db countSQL [] (.ok totalRows), Event.rowsClose])) :
    (Repository.GetWithPagination k undef countSQL objectType finalSQL mapper pagination
      args).wp env hist crud post := by
  unfold Repository.GetWithPagination
  simp only [wp_bind]
  apply wp_CheckAndReset
  · intro db e he hl
    simp only []
    apply wp_crudDb _ _ _ _ db rfl
    unfold Query
    simp only [wp_call, wp_bind, List.append_nil]
    intro a _
    cases a with
    | err err =>
      simp only [wp_pure, List.append_nil]
      exact hquery _ _ _ _ he
    | ok rows =>
      simp only [wp_bind]
      apply wp_mapRows
      · intro hall
        simp only [wp_bind]
        apply wp_crudDb _ _ _ _ db rfl
        unfold QueryRowScanInt64
        simp only [wp_call, wp_bind, List.append_nil, List.nil_append]
        intro b _
        cases b with
        | err err =>
          simp only [wp_bind, wp_RowsClose, wp_pure, List.append_nil]
          have := hcount ⟨some db, false⟩ e db rows err he hall
          simpa using this
        | ok totalRows =>
          simp only [wp_bind, wp_RowsClose, wp_pure, List.append_nil]
          have := hok ⟨some db, false⟩ e db rows totalRows he hall
          by_cases hlim : pagination.Limit = 0
          · simp only [Pagination.GetLimit, hlim, ↓reduceIte] at this ⊢
            simpa using this
          · simp only [Pagination.GetLimit, hlim, ↓reduceIte] at this ⊢
            simpa using this
      · intro before row rest hrows hall hne
        simp only [wp_bind, wp_RowsClose, wp_pure, List.append_nil]
        have := hmap ⟨some db, false⟩ e db before row rest he hall hne
        rw [hrows]
        simpa using this
  · exact hspin
  · exact hfatal


/-! ### float64: rounding, conversion, division and ceiling -/

theorem log2Fuel_spec : ∀ (fuel n : Nat), 0 < n → n ≤ fuel →
    2 ^ log2Fuel fuel n ≤ n ∧ n < 2 ^ (log2Fuel fuel n + 1) := by
  intro fuel
  induction fuel with
  | zero => intro n h1 h2; omega
  | succ fuel ih =>
    intro n h1 h2
    unfold log2Fuel
    by_cases hn : n < 2
    · simp only [hn, ↓reduceIte]
      omega
    · simp only [hn, ↓reduceIte]
      have := ih (n / 2) (by omega) (by omega)
      rw [pow_succ, pow_succ]
      omega

theorem ilog2_spec (n : Nat) (h : 0 < n) : 2 ^ ilog2 n ≤ n ∧ n < 2 ^ (ilog2 n + 1) :=
  log2Fuel_spec n n h (le_refl n)

theorem scaled_fraction (n d : Nat) (t : Int) (hd : 0 < d) :
    ((n * 2 ^ (-t).toNat : Nat) : ℚ) / ((d * 2 ^ t.toNat : Nat) : ℚ) =
      (n : ℚ) / (d : ℚ) * (2 : ℚ) ^ (-t) := by
  have hd' : (d : ℚ) ≠ 0 := by exact_mod_cast hd.ne'
  rcases le_total 0 t with ht | ht
  · obtain ⟨k, rfl⟩ := Int.eq_ofNat_of_zero_le ht
    have h1 : (-(k : Int)).toNat = 0 := by simp
    simp only [h1, Int.toNat_ofNat, pow_zero, mul_one, Nat.cast_mul, Nat.cast_pow, Nat.cast_ofNat,
      zpow_neg, zpow_natCast]
    field_simp
  · obtain ⟨k, hk⟩ := Int.eq_ofNat_of_zero_le (neg_nonneg.mpr ht)
    have h1 : t.toNat = 0 := by omega
    have h2 : (-t).toNat = k := by omega
    rw [h1, h2, hk]
    simp only [pow_zero, mul_one, Nat.cast_mul, Nat.cast_pow, Nat.cast_ofNat, zpow_natCast]
    field_simp

theorem scaled_pos (d : Nat) (t : Int) (hd : 0 < d) : 0 < d * 2 ^ t.toNat :=
  Nat.mul_pos hd (pow_pos (by decide) _)

/-- The binade of a positive fraction brackets it between two powers of 2. -/
theorem binade_spec (n d : Nat) (hn : 0 < n) (hd : 0 < d) :
    (2 : ℚ) ^ binade n d ≤ (n : ℚ) / (d : ℚ) ∧ (n : ℚ) / (d : ℚ) < (2 : ℚ) ^ (binade n d + 1) := by
  obtain ⟨hn1, hn2⟩ := ilog2_spec n hn
  obtain ⟨hd1, hd2⟩ := ilog2_spec d hd
  have hdq : (0 : ℚ) < d := by exact_mod_cast hd
  have hn1q : (2 : ℚ) ^ (ilog2 n : Int) ≤ n := by
    rw [zpow_natCast]; exact_mod_cast hn1
  have hn2q : (n : ℚ) < (2 : ℚ) ^ ((ilog2 n : Int) + 1) := by
    have : ((ilog2 n : Int) + 1) = ((ilog2 n + 1 : Nat) : Int) := by push_cast; ring
    rw [this, zpow_natCast]; exact_mod_cast hn2
  have hd1q : (2 : ℚ) ^ (ilog2 d : Int) ≤ d := by
    rw [zpow_natCast]; exact_mod_cast hd1
  have hd2q : (d : ℚ) < (2 : ℚ) ^ ((ilog2 d : Int) + 1) := by
    have : ((ilog2 d : Int) + 1) = ((ilog2 d + 1 : Nat) : Int) := by push_cast; ring
    rw [this, zpow_natCast]; exact_mod_cast hd2
  have h2 : (0 : ℚ) < 2 := by norm_num
  -- the two outer bounds
  have hlow : (2 : ℚ) ^ ((ilog2 n : Int) - (ilog2 d : Int) - 1) ≤ (n : ℚ) / (d : ℚ) := by
    rw [le_div_iff₀ hdq]
    calc (2 : ℚ) ^ ((ilog2 n : Int) - (ilog2 d : Int) - 1) * d
        ≤ (2 : ℚ) ^ ((ilog2 n : Int) - (ilog2 d : Int) - 1) * (2 : ℚ) ^ ((ilog2 d : Int) + 1) := by
          apply mul_le_mul_of_nonneg_left hd2q.le (zpow_nonneg h2.le _)
      _ = (2 : ℚ) ^ (ilog2 n : Int) := by
          rw [← zpow_add₀ h2.ne']; congr 1; ring
      _ ≤ n := hn1q
  have hhigh : (n : ℚ) / (d : ℚ) < (2 : ℚ) ^ ((ilog2 n : Int) - (ilog2 d : Int) + 1) := by
    rw [div_lt_iff₀ hdq]
    calc (n : ℚ) < (2 : ℚ) ^ ((ilog2 n : Int) + 1) := hn2q
      _ = (2 : ℚ) ^ ((ilog2 n : Int) - (ilog2 d : Int) + 1) * (2 : ℚ) ^ (ilog2 d : Int) := by
          rw [← zpow_add₀ h2.ne']; congr 1; ring
      _ ≤ (2 : ℚ) ^ ((ilog2 n : Int) - (ilog2 d : Int) + 1) * d := by
          apply mul_le_mul_of_nonneg_left hd1q (zpow_nonneg h2.le _)
  -- the test of `binade`
  have htest : d * 2 ^ ((ilog2 n : Int) - (ilog2 d : Int)).toNat ≤
        n * 2 ^ (-((ilog2 n : Int) - (ilog2 d : Int))).toNat ↔
      (2 : ℚ) ^ ((ilog2 n : Int) - (ilog2 d : Int)) ≤ (n : ℚ) / (d : ℚ) := by
    have hpos := scaled_pos d ((ilog2 n : Int) - (ilog2 d : Int)) hd
    have hposq : (0 : ℚ) < ((d * 2 ^ ((ilog2 n : Int) - (ilog2 d : Int)).toNat : Nat) : ℚ) := by
      exact_mod_cast hpos
    have hsc := scaled_fraction n d ((ilog2 n : Int) - (ilog2 d : Int)) hd
    rw [← Nat.cast_le (α := ℚ), ← one_le_div hposq, hsc, zpow_neg,
      ← div_eq_mul_inv, le_div_iff₀ (zpow_pos h2 _), one_mul]
  unfold binade
  simp only []
  split
  · rename_i hc
    exact ⟨htest.mp hc, hhigh⟩
  · rename_i hc
    refine ⟨hlow, ?_⟩
    rw [sub_add_cancel]
    exact lt_of_not_le (fun h => hc (htest.mpr h))

/-- Rounding does not go below a whole number that the fraction reaches. -/
theorem roundHalfEven_ge (n d K : Nat) (hd : 0 < d) (h : K * d ≤ n) : K ≤ roundHalfEven n d := by
  have hq : K ≤ n / d := (Nat.le_div_iff_mul_le hd).mpr h
  unfold roundHalfEven
  split
  · exact hq
  · split
    · omega
    · split <;> omega

/-- Rounding does not go above a whole number that bounds the fraction. -/
theorem roundHalfEven_le (n d K : Nat) (hd : 0 < d) (h : n ≤ K * d) : roundHalfEven n d ≤ K := by
  have hdm := Nat.div_add_mod n d
  have hmod := Nat.mod_lt n hd
  have hq : n / d ≤ K := by
    have : n / d ≤ K * d / d := Nat.div_le_div_right h
    rwa [Nat.mul_div_cancel _ hd] at this
  have hq2 : n % d ≠ 0 → n / d < K := by
    intro hr
    by_contra hlt
    have hK : K = n / d := by omega
    have : d * (n / d) + n % d ≤ (n / d) * d := by rw [hdm]; rw [hK] at h; exact h
    rw [Nat.mul_comm] at this
    omega
  unfold roundHalfEven
  split
  · exact hq
  · rename_i h1
    have hr : n % d ≠ 0 := by
      intro h0
      rw [h0] at h1
      omega
    have := hq2 hr
    split
    · omega
    · split <;> omega

/-- Rounding goes up past the midpoint. -/
theorem roundHalfEven_gt (n d K : Nat) (hd : 0 < d) (h : (2 * K + 1) * d < 2 * n) :
    K + 1 ≤ roundHalfEven n d := by
  have hdm := Nat.div_add_mod n d
  have hmod := Nat.mod_lt n hd
  by_cases hq : K + 1 ≤ n / d
  · exact le_trans hq (roundHalfEven_ge n d (n / d) hd (Nat.div_mul_le_self n d))
  · have hqK : n / d ≤ K := by omega
    -- then n / d = K and the remainder is above the half
    have h2 : (2 * K + 1) * d < 2 * (d * (n / d) + n % d) := by rw [hdm]; exact h
    have hKq : K ≤ n / d := by
      by_contra hlt
      have h3 : n / d + 1 ≤ K := by omega
      have h4 : d * (n / d + 1) ≤ d * K := Nat.mul_le_mul_left d h3
      nlinarith
    have hK : n / d = K := by omega
    rw [hK] at h2
    have hr : d < 2 * (n % d) := by nlinarith
    unfold roundHalfEven
    split
    · omega
    · omega

/-- What `roundFloat64` returns on a fraction in the normal range, against the
grid of multiples of the unit in the last place. -/
theorem roundFloat64_spec (n d : Nat) (hd : 0 < d)
    (hlo : -1022 ≤ binade n d) (hhi : binade n d ≤ 970) :
    ∃ m : Nat, roundFloat64 n d = some (m, binade n d - 52) ∧
      (∀ K : Nat, (K : ℚ) * (2 : ℚ) ^ (binade n d - 52) ≤ (n : ℚ) / d → K ≤ m) ∧
      (∀ K : Nat, (n : ℚ) / d ≤ (K : ℚ) * (2 : ℚ) ^ (binade n d - 52) → m ≤ K) ∧
      (∀ K : Nat, (K : ℚ) * (2 : ℚ) ^ (binade n d - 52) + (2 : ℚ) ^ (binade n d - 52) / 2 <
        (n : ℚ) / d → K + 1 ≤ m) := by
  have h2 : (0 : ℚ) < 2 := by norm_num
  have hexp : max (binade n d - 52) (-1074) = binade n d - 52 := by
    apply max_eq_left; omega
  have hD := scaled_pos d (binade n d - 52) hd
  have hDq : (0 : ℚ) < ((d * 2 ^ (binade n d - 52).toNat : Nat) : ℚ) := by exact_mod_cast hD
  have hsc := scaled_fraction n d (binade n d - 52) hd
  have hp : (0 : ℚ) < (2 : ℚ) ^ (binade n d - 52) := zpow_pos h2 _
  -- the scaled fraction against a whole number
  have hscale : (n : ℚ) / d = ((n * 2 ^ (-(binade n d - 52)).toNat : Nat) : ℚ) /
      ((d * 2 ^ (binade n d - 52).toNat : Nat) : ℚ) * (2 : ℚ) ^ (binade n d - 52) := by
    rw [hsc, mul_assoc, ← zpow_add₀ h2.ne']
    simp
  refine ⟨roundHalfEven (n * 2 ^ (-(binade n d - 52)).toNat) (d * 2 ^ (binade n d - 52).toNat),
    ?_, ?_, ?_, ?_⟩
  · unfold roundFloat64
    simp only [hexp]
    have hno : ¬ (971 < binade n d - 52 ∨ (binade n d - 52 = 971 ∧
        2 ^ 53 ≤ roundHalfEven (n * 2 ^ (-(binade n d - 52)).toNat)
          (d * 2 ^ (binade n d - 52).toNat))) := by
      rintro (h | ⟨h, _⟩) <;> omega
    simp only [hno, ↓reduceIte]
  · intro K hK
    apply roundHalfEven_ge _ _ _ hD
    rw [hscale] at hK
    have := le_of_mul_le_mul_right hK hp
    rw [le_div_iff₀ hDq] at this
    exact_mod_cast this
  · intro K hK
    apply roundHalfEven_le _ _ _ hD
    rw [hscale] at hK
    have := le_of_mul_le_mul_right hK hp
    rw [div_le_iff₀ hDq] at this
    exact_mod_cast this
  · intro K hK
    apply roundHalfEven_gt _ _ _ hD
    rw [hscale] at hK
    have h3 : ((K : ℚ) + 1 / 2) * (2 : ℚ) ^ (binade n d - 52) <
        ((n * 2 ^ (-(binade n d - 52)).toNat : Nat) : ℚ) /
          ((d * 2 ^ (binade n d - 52).toNat : Nat) : ℚ) * (2 : ℚ) ^ (binade n d - 52) := by
      calc ((K : ℚ) + 1 / 2) * (2 : ℚ) ^ (binade n d - 52)
          = (K : ℚ) * (2 : ℚ) ^ (binade n d - 52) + (2 : ℚ) ^ (binade n d - 52) / 2 := by ring
        _ < _ := hK
    have h4 := lt_of_mul_lt_mul_right h3 hp.le
    rw [lt_div_iff₀ hDq] at h4
    have h5 : ((2 * K + 1 : Nat) : ℚ) * ((d * 2 ^ (binade n d - 52).toNat : Nat) : ℚ) <
        ((2 * (n * 2 ^ (-(binade n d - 52)).toNat) : Nat) : ℚ) := by
      push_cast
      push_cast at h4
      linarith
    exact_mod_cast h5

theorem two_zpow_le_iff (i j : Int) : (2 : ℚ) ^ i ≤ (2 : ℚ) ^ j ↔ i ≤ j :=
  zpow_le_zpow_iff_right₀ (by norm_num)

theorem two_zpow_lt_iff (i j : Int) : (2 : ℚ) ^ i < (2 : ℚ) ^ j ↔ i < j :=
  zpow_lt_zpow_iff_right₀ (by norm_num)

/-- The conversion `float64(p)` of a positive 64-bit integer: a positive mantissa
of at most 53 bits; the value is `p` itself up to `2 ^ 53`, and at least `2 ^ 53`
from there on. -/
theorem float64_pos (p : Int) (hp : 0 < p) (hp2 : p < 2 ^ 63) :
    ∃ (m : Nat) (t : Int), float64 p = .finite (m : Int) t ∧ 0 < m ∧ m ≤ 2 ^ 53 ∧
      -52 ≤ t ∧ t ≤ 10 ∧
      (p ≤ 2 ^ 53 → (m : ℚ) * (2 : ℚ) ^ t = (p : ℚ)) ∧
      (2 ^ 53 ≤ p → (2 : ℚ) ^ (53 : Int) ≤ (m : ℚ) * (2 : ℚ) ^ t) := by
  have h2 : (0 : ℚ) < 2 := by norm_num
  have hn : ((p.natAbs : Nat) : Int) = p := Int.natAbs_of_nonneg hp.le
  have hnpos : 0 < p.natAbs := by omega
  have hnq : ((p.natAbs : Nat) : ℚ) = (p : ℚ) := by
    rw [Nat.cast_natAbs, abs_of_nonneg hp.le]
  obtain ⟨hb1, hb2⟩ := binade_spec p.natAbs 1 hnpos (by decide)
  simp only [Nat.cast_one, div_one] at hb1 hb2
  rw [hnq] at hb1 hb2
  have hp1q : (1 : ℚ) ≤ (p : ℚ) := by exact_mod_cast hp
  have hp63q : (p : ℚ) < (2 : ℚ) ^ (63 : Int) := by
    have : (p : ℚ) < ((2 ^ 63 : Int) : ℚ) := by exact_mod_cast hp2
    rw [show ((63 : Int)) = ((63 : Nat) : Int) from rfl, zpow_natCast]
    exact_mod_cast this
  have he0 : 0 ≤ binade p.natAbs 1 := by
    have : (2 : ℚ) ^ (0 : Int) < (2 : ℚ) ^ (binade p.natAbs 1 + 1) := by
      rw [zpow_zero]; exact lt_of_le_of_lt hp1q hb2
    have := (two_zpow_lt_iff _ _).mp this
    omega
  have he62 : binade p.natAbs 1 ≤ 62 := by
    have := (two_zpow_lt_iff _ _).mp (lt_of_le_of_lt hb1 hp63q)
    omega
  obtain ⟨m, hm, hG1, hG2, _⟩ := roundFloat64_spec p.natAbs 1 (by decide) (by omega) (by omega)
  simp only [Nat.cast_one, div_one] at hG1 hG2
  rw [hnq] at hG1 hG2
  have hpt : (0 : ℚ) < (2 : ℚ) ^ (binade p.natAbs 1 - 52) := zpow_pos h2 _
  -- the mantissa has its leading bit set
  have hm52 : 2 ^ 52 ≤ m := by
    apply hG1
    have : ((2 ^ 52 : Nat) : ℚ) * (2 : ℚ) ^ (binade p.natAbs 1 - 52) =
        (2 : ℚ) ^ binade p.natAbs 1 := by
      have : ((2 ^ 52 : Nat) : ℚ) = (2 : ℚ) ^ (52 : Int) := by norm_num
      rw [this, ← zpow_add₀ h2.ne']
      congr 1; ring
    rw [this]; exact hb1
  have hm53 : m ≤ 2 ^ 53 := by
    apply hG2
    have : ((2 ^ 53 : Nat) : ℚ) * (2 : ℚ) ^ (binade p.natAbs 1 - 52) =
        (2 : ℚ) ^ (binade p.natAbs 1 + 1) := by
      have : ((2 ^ 53 : Nat) : ℚ) = (2 : ℚ) ^ (53 : Int) := by norm_num
      rw [this, ← zpow_add₀ h2.ne']
      congr 1; ring
    rw [this]; exact hb2.le
  refine ⟨m, binade p.natAbs 1 - 52, ?_, by omega, hm53, by omega, by omega, ?_, ?_⟩
  · unfold float64
    have hp0 : p ≠ 0 := by omega
    have hpn : ¬ p < 0 := by omega
    simp only [hp0, ↓reduceIte, hm, hpn]
  · intro hp53
    have hp53q : (p : ℚ) ≤ (2 : ℚ) ^ (53 : Int) := by
      have : (p : ℚ) ≤ ((2 ^ 53 : Int) : ℚ) := by exact_mod_cast hp53
      rw [show ((53 : Int)) = ((53 : Nat) : Int) from rfl, zpow_natCast]
      exact_mod_cast this
    -- p is a multiple of the unit in the last place
    have hK : ∃ K : Nat, (K : ℚ) * (2 : ℚ) ^ (binade p.natAbs 1 - 52) = (p : ℚ) := by
      by_cases he : binade p.natAbs 1 ≤ 52
      · obtain ⟨j, hj⟩ := Int.eq_ofNat_of_zero_le (by omega : 0 ≤ 52 - binade p.natAbs 1)
        refine ⟨p.natAbs * 2 ^ j, ?_⟩
        have ht : binade p.natAbs 1 - 52 = -(j : Int) := by omega
        rw [ht]
        push_cast
        rw [hnq, zpow_neg, zpow_natCast]
        field_simp
      · have he53 : binade p.natAbs 1 = 53 := by
          have := (two_zpow_le_iff _ _).mp (le_trans hb1 hp53q)
          omega
        refine ⟨2 ^ 52, ?_⟩
        rw [he53] at hb1 ⊢
        have : (p : ℚ) = (2 : ℚ) ^ (53 : Int) := le_antisymm hp53q hb1
        rw [this]
        norm_num
    obtain ⟨K, hK⟩ := hK
    have h1 : K ≤ m := hG1 K (le_of_eq hK)
    have h2' : m ≤ K := hG2 K (le_of_eq hK.symm)
    have : m = K := le_antisymm h2' h1
    rw [this, hK]
  · intro hp53
    have hp53q : (2 : ℚ) ^ (53 : Int) ≤ (p : ℚ) := by
      have : ((2 ^ 53 : Int) : ℚ) ≤ (p : ℚ) := by exact_mod_cast hp53
      rw [show ((53 : Int)) = ((53 : Nat) : Int) from rfl, zpow_natCast]
      exact_mod_cast this
    have he53 : 53 ≤ binade p.natAbs 1 := by
      have := (two_zpow_lt_iff _ _).mp (lt_of_le_of_lt hp53q hb2)
      omega
    obtain ⟨j, hj⟩ := Int.eq_ofNat_of_zero_le (by omega : 0 ≤ 105 - binade p.natAbs 1)
    have hKv : ((2 ^ j : Nat) : ℚ) * (2 : ℚ) ^ (binade p.natAbs 1 - 52) = (2 : ℚ) ^ (53 : Int) := by
      push_cast
      rw [← zpow_natCast, ← zpow_add₀ h2.ne']
      congr 1; omega
    have h1 : 2 ^ j ≤ m := hG1 _ (by rw [hKv]; exact hp53q)
    calc (2 : ℚ) ^ (53 : Int) = ((2 ^ j : Nat) : ℚ) * (2 : ℚ) ^ (binade p.natAbs 1 - 52) := hKv.symm
      _ ≤ (m : ℚ) * (2 : ℚ) ^ (binade p.natAbs 1 - 52) := by
          apply mul_le_mul_of_nonneg_right _ hpt.le
          exact_mod_cast h1

/-- The quotient of two positive finite float64 values, in the normal range. -/
theorem div_pos_spec (ma mL : Nat) (ta tL : Int) (hma : 0 < ma) (hmL : 0 < mL)
    (hlo : (2 : ℚ) ^ (-1000 : Int) ≤ ((ma : ℚ) * (2 : ℚ) ^ ta) / ((mL : ℚ) * (2 : ℚ) ^ tL))
    (hhi : ((ma : ℚ) * (2 : ℚ) ^ ta) / ((mL : ℚ) * (2 : ℚ) ^ tL) ≤ (2 : ℚ) ^ (900 : Int)) :
    ∃ (m : Nat) (e : Int),
      (Float64.finite (ma : Int) ta).div (Float64.finite (mL : Int) tL) =
        Float64.finite (m : Int) (e - 52) ∧
      (2 : ℚ) ^ e ≤ ((ma : ℚ) * (2 : ℚ) ^ ta) / ((mL : ℚ) * (2 : ℚ) ^ tL) ∧
      ((ma : ℚ) * (2 : ℚ) ^ ta) / ((mL : ℚ) * (2 : ℚ) ^ tL) < (2 : ℚ) ^ (e + 1) ∧
      (∀ K : Nat, (K : ℚ) * (2 : ℚ) ^ (e - 52) ≤
        ((ma : ℚ) * (2 : ℚ) ^ ta) / ((mL : ℚ) * (2 : ℚ) ^ tL) → K ≤ m) ∧
      (∀ K : Nat, ((ma : ℚ) * (2 : ℚ) ^ ta) / ((mL : ℚ) * (2 : ℚ) ^ tL) ≤
        (K : ℚ) * (2 : ℚ) ^ (e - 52) → m ≤ K) ∧
      (∀ K : Nat, (K : ℚ) * (2 : ℚ) ^ (e - 52) + (2 : ℚ) ^ (e - 52) / 2 <
        ((ma : ℚ) * (2 : ℚ) ^ ta) / ((mL : ℚ) * (2 : ℚ) ^ tL) → K + 1 ≤ m) := by
  have h2 : (0 : ℚ) < 2 := by norm_num
  have hN : 0 < ma * 2 ^ (ta - tL).toNat := Nat.mul_pos hma (pow_pos (by decide) _)
  have hD : 0 < mL * 2 ^ (tL - ta).toNat := Nat.mul_pos hmL (pow_pos (by decide) _)
  have hmLq : (0 : ℚ) < mL := by exact_mod_cast hmL
  -- the fraction that is rounded is the quotient of the two values
  have hx : ((ma * 2 ^ (ta - tL).toNat : Nat) : ℚ) / ((mL * 2 ^ (tL - ta).toNat : Nat) : ℚ) =
      ((ma : ℚ) * (2 : ℚ) ^ ta) / ((mL : ℚ) * (2 : ℚ) ^ tL) := by
    have hsc := scaled_fraction ma mL (tL - ta) hmL
    have hneg : -(tL - ta) = ta - tL := by ring
    rw [hneg] at hsc
    rw [hsc, zpow_sub₀ h2.ne']
    field_simp
  obtain ⟨hb1, hb2⟩ := binade_spec _ _ hN hD
  rw [hx] at hb1 hb2
  have he1 : -1022 ≤ binade (ma * 2 ^ (ta - tL).toNat) (mL * 2 ^ (tL - ta).toNat) := by
    have := (two_zpow_lt_iff _ _).mp (lt_of_le_of_lt hlo hb2)
    omega
  have he2 : binade (ma * 2 ^ (ta - tL).toNat) (mL * 2 ^ (tL - ta).toNat) ≤ 970 := by
    have := (two_zpow_le_iff _ _).mp (le_trans hb1 hhi)
    omega
  obtain ⟨m, hm, hG1, hG2, hG3⟩ := roundFloat64_spec _ _ hD he1 he2
  rw [hx] at hG1 hG2 hG3
  refine ⟨m, _, ?_, hb1, hb2, hG1, hG2, hG3⟩
  unfold Float64.div
  have h1 : (mL : Int) ≠ 0 := by omega
  have h3 : (ma : Int) ≠ 0 := by omega
  have h4 : ¬ (ma : Int) < 0 := by omega
  have h5 : ¬ (mL : Int) < 0 := by omega
  simp only [h1, h3, ↓reduceIte, Int.natAbs_ofNat, hm, h4, h5, decide_False]

/-- The chain `int(math.Ceil(x))` on a finite float64 that is not negative and
not large: the ceiling of its value. -/
theorem intOfFloat64_Ceil (undef : Int) (m : Nat) (t : Int)
    (hv : (m : ℚ) * (2 : ℚ) ^ t ≤ (2 : ℚ) ^ (62 : Int)) :
    intOfFloat64 undef (math.Ceil (Float64.finite (m : Int) t)) = ⌈(m : ℚ) * (2 : ℚ) ^ t⌉ := by
  have h2 : (0 : ℚ) < 2 := by norm_num
  by_cases ht : 0 ≤ t
  · obtain ⟨j, rfl⟩ := Int.eq_ofNat_of_zero_le ht
    have hval : (m : ℚ) * (2 : ℚ) ^ (j : Int) = (((m : Int) * 2 ^ j : Int) : ℚ) := by
      push_cast; rw [zpow_natCast]
    have hle : ((m : Int) * 2 ^ j : Int) ≤ 2 ^ 62 := by
      rw [hval] at hv
      have : (2 : ℚ) ^ (62 : Int) = ((2 ^ 62 : Int) : ℚ) := by norm_num
      rw [this] at hv
      exact_mod_cast hv
    have hge : (0 : Int) ≤ (m : Int) * 2 ^ j := by positivity
    unfold math.Ceil intOfFloat64
    simp only [ht, ↓reduceIte, Int.toNat_ofNat]
    rw [hval, Int.ceil_intCast]
    have hr : -2 ^ 63 ≤ (m : Int) * 2 ^ j ∧ (m : Int) * 2 ^ j < 2 ^ 63 := by omega
    simp only [hr, and_self, ↓reduceIte]
  · obtain ⟨j, hj⟩ := Int.eq_ofNat_of_zero_le (by omega : 0 ≤ -t)
    have htj : t = -(j : Int) := by omega
    have hval : (m : ℚ) * (2 : ℚ) ^ t = ((m : Int) : ℚ) / ((2 ^ j : Nat) : ℚ) := by
      rw [htj, zpow_neg, zpow_natCast]; push_cast; rw [div_eq_mul_inv]
    have hceil : ⌈(m : ℚ) * (2 : ℚ) ^ t⌉ = -((-(m : Int)) / ((2 ^ j : Nat) : Int)) := by
      rw [hval, ← Rat.floor_intCast_div_natCast, ← Int.ceil_neg]
      congr 1
      push_cast
      ring
    have hnn : (0 : ℚ) ≤ (m : ℚ) * (2 : ℚ) ^ t := by positivity
    have hc0 : 0 ≤ ⌈(m : ℚ) * (2 : ℚ) ^ t⌉ := Int.ceil_nonneg hnn
    have hc1 : ⌈(m : ℚ) * (2 : ℚ) ^ t⌉ ≤ 2 ^ 62 := by
      rw [Int.ceil_le]
      have : (2 : ℚ) ^ (62 : Int) = ((2 ^ 62 : Int) : ℚ) := by norm_num
      rw [← this]; exact hv
    unfold math.Ceil intOfFloat64
    simp only [ht, ↓reduceIte, le_refl, Int.toNat_zero, pow_zero, mul_one]
    rw [hceil] at hc0 hc1 ⊢
    have hjn : (-t).toNat = j := by omega
    rw [hjn]
    push_cast at hc0 hc1 ⊢
    rw [if_pos (by omega)]

/-- A whole number up to `2 ^ 53` in the binade `e` is a multiple of the unit in
the last place of that binade. -/
theorem grid_of_int (z : Nat) (e : Int) (hz53 : (z : ℚ) ≤ (2 : ℚ) ^ (53 : Int))
    (h1 : (2 : ℚ) ^ e ≤ (z : ℚ)) : ∃ K : Nat, (K : ℚ) * (2 : ℚ) ^ (e - 52) = (z : ℚ) := by
  have h2 : (0 : ℚ) < 2 := by norm_num
  by_cases he : e ≤ 52
  · obtain ⟨j, hj⟩ := Int.eq_ofNat_of_zero_le (by omega : 0 ≤ 52 - e)
    refine ⟨z * 2 ^ j, ?_⟩
    have ht : e - 52 = -(j : Int) := by omega
    rw [ht]
    push_cast
    rw [zpow_neg, zpow_natCast]
    field_simp
  · have he53 : e = 53 := by
      have := (two_zpow_le_iff _ _).mp (le_trans h1 hz53)
      omega
    refine ⟨2 ^ 52, ?_⟩
    rw [he53] at h1 ⊢
    have : (z : ℚ) = (2 : ℚ) ^ (53 : Int) := le_antisymm hz53 h1
    rw [this]
    norm_num

/-- Below the binade 53, every whole number is a multiple of the unit in the last
place. -/
theorem grid_of_small (z : Nat) (e : Int) (he : e ≤ 52) :
    ∃ K : Nat, (K : ℚ) * (2 : ℚ) ^ (e - 52) = (z : ℚ) := by
  obtain ⟨j, hj⟩ := Int.eq_ofNat_of_zero_le (by omega : 0 ≤ 52 - e)
  refine ⟨z * 2 ^ j, ?_⟩
  have ht : e - 52 = -(j : Int) := by omega
  rw [ht]
  push_cast
  rw [zpow_neg, zpow_natCast]
  field_simp

/-- The ceiling of the rounded quotient is the ceiling of the exact quotient, when
the dividend is at most `2 ^ 53`. -/
theorem ceil_of_rounded (a L : Int) (VL : ℚ) (m : Nat) (e : Int)
    (ha : 0 < a) (ha53 : a ≤ 2 ^ 53) (hL : 0 < L)
    (hVL1 : L ≤ 2 ^ 53 → VL = (L : ℚ))
    (hVL2 : 2 ^ 53 ≤ L → (2 : ℚ) ^ (53 : Int) ≤ VL)
    (hb1 : (2 : ℚ) ^ e ≤ (a : ℚ) / VL) (hb2 : (a : ℚ) / VL < (2 : ℚ) ^ (e + 1))
    (hG1 : ∀ K : Nat, (K : ℚ) * (2 : ℚ) ^ (e - 52) ≤ (a : ℚ) / VL → K ≤ m)
    (hG2 : ∀ K : Nat, (a : ℚ) / VL ≤ (K : ℚ) * (2 : ℚ) ^ (e - 52) → m ≤ K)
    (hG3 : ∀ K : Nat, (K : ℚ) * (2 : ℚ) ^ (e - 52) + (2 : ℚ) ^ (e - 52) / 2 < (a : ℚ) / VL →
      K + 1 ≤ m) :
    ⌈(m : ℚ) * (2 : ℚ) ^ (e - 52)⌉ = ⌈(a : ℚ) / (L : ℚ)⌉ ∧
      (m : ℚ) * (2 : ℚ) ^ (e - 52) ≤ (2 : ℚ) ^ (62 : Int) := by
  have h2 : (0 : ℚ) < 2 := by norm_num
  have haq : (0 : ℚ) < (a : ℚ) := by exact_mod_cast ha
  have hLq : (0 : ℚ) < (L : ℚ) := by exact_mod_cast hL
  have hL1q : (1 : ℚ) ≤ (L : ℚ) := by exact_mod_cast hL
  have ha53q : (a : ℚ) ≤ (2 : ℚ) ^ (53 : Int) := by
    have : (a : ℚ) ≤ ((2 ^ 53 : Int) : ℚ) := by exact_mod_cast ha53
    rw [show ((53 : Int)) = ((53 : Nat) : Int) from rfl, zpow_natCast]
    exact_mod_cast this
  have hpt : (0 : ℚ) < (2 : ℚ) ^ (e - 52) := zpow_pos h2 _
  have h5362 : (2 : ℚ) ^ (53 : Int) ≤ (2 : ℚ) ^ (62 : Int) := (two_zpow_le_iff _ _).mpr (by decide)
  -- the mantissa has its leading bit set, so the rounded value is positive
  have hm52 : 2 ^ 52 ≤ m := by
    apply hG1
    have : ((2 ^ 52 : Nat) : ℚ) * (2 : ℚ) ^ (e - 52) = (2 : ℚ) ^ e := by
      have : ((2 ^ 52 : Nat) : ℚ) = (2 : ℚ) ^ (52 : Int) := by norm_num
      rw [this, ← zpow_add₀ h2.ne']
      congr 1; ring
    rw [this]; exact hb1
  have hvpos : (0 : ℚ) < (m : ℚ) * (2 : ℚ) ^ (e - 52) := by
    apply mul_pos _ hpt
    have : 0 < m := by omega
    exact_mod_cast this
  -- rounding against a multiple of the unit in the last place
  have hup : ∀ K : Nat, (a : ℚ) / VL ≤ (K : ℚ) * (2 : ℚ) ^ (e - 52) →
      (m : ℚ) * (2 : ℚ) ^ (e - 52) ≤ (K : ℚ) * (2 : ℚ) ^ (e - 52) := by
    intro K hK
    apply mul_le_mul_of_nonneg_right _ hpt.le
    exact_mod_cast hG2 K hK
  have hdown : ∀ K : Nat, (K : ℚ) * (2 : ℚ) ^ (e - 52) ≤ (a : ℚ) / VL →
      (K : ℚ) * (2 : ℚ) ^ (e - 52) ≤ (m : ℚ) * (2 : ℚ) ^ (e - 52) := by
    intro K hK
    apply mul_le_mul_of_nonneg_right _ hpt.le
    exact_mod_cast hG1 K hK
  by_cases hL53 : L ≤ 2 ^ 53
  · -- the divisor is converted exactly
    rw [hVL1 hL53] at hb1 hb2 hG1 hG2 hG3 hup hdown
    have hxa : (a : ℚ) / (L : ℚ) ≤ (a : ℚ) := div_le_self haq.le hL1q
    have hxpos : (0 : ℚ) < (a : ℚ) / (L : ℚ) := div_pos haq hLq
    have hz1 : ((⌈(a : ℚ) / (L : ℚ)⌉ : Int) : ℚ) - 1 < (a : ℚ) / (L : ℚ) := by
      have := Int.ceil_lt_add_one ((a : ℚ) / (L : ℚ))
      linarith
    have hz2 : (a : ℚ) / (L : ℚ) ≤ ((⌈(a : ℚ) / (L : ℚ)⌉ : Int) : ℚ) := Int.le_ceil _
    have hzpos : 0 < ⌈(a : ℚ) / (L : ℚ)⌉ := Int.ceil_pos.mpr hxpos
    have hza : ⌈(a : ℚ) / (L : ℚ)⌉ ≤ a := by
      rw [Int.ceil_le]; exact hxa
    obtain ⟨zn, hzn⟩ := Int.eq_ofNat_of_zero_le hzpos.le
    have hznq : ((⌈(a : ℚ) / (L : ℚ)⌉ : Int) : ℚ) = (zn : ℚ) := by rw [hzn]; simp
    rw [hznq] at hz1 hz2
    have hzn53 : (zn : ℚ) ≤ (2 : ℚ) ^ (53 : Int) := by
      have : ((zn : Int) : ℚ) ≤ (a : ℚ) := by rw [← hzn]; exact_mod_cast hza
      have h' : (zn : ℚ) ≤ (a : ℚ) := by exact_mod_cast this
      exact le_trans h' ha53q
    rcases eq_or_lt_of_le hz2 with hxz | hxz
    · -- the quotient is a whole number
      obtain ⟨K, hK⟩ := grid_of_int zn e hzn53 (by rw [← hxz]; exact hb1)
      have hv : (m : ℚ) * (2 : ℚ) ^ (e - 52) = (zn : ℚ) := by
        apply le_antisymm
        · rw [← hK]; exact hup K (by rw [hK, hxz])
        · rw [← hK]; exact hdown K (by rw [hK, hxz])
      rw [hv]
      refine ⟨?_, le_trans hzn53 h5362⟩
      rw [hzn]
      exact Int.ceil_natCast zn
    · -- the quotient lies strictly between two whole numbers
      have he52 : e ≤ 52 := by
        have := (two_zpow_lt_iff _ _).mp (lt_of_le_of_lt hb1 (lt_of_lt_of_le hxz hzn53))
        omega
      obtain ⟨K, hK⟩ := grid_of_small zn e he52
      have hvle : (m : ℚ) * (2 : ℚ) ^ (e - 52) ≤ (zn : ℚ) := by
        rw [← hK]; exact hup K (by rw [hK]; exact hxz.le)
      have hvgt : (zn : ℚ) - 1 < (m : ℚ) * (2 : ℚ) ^ (e - 52) := by
        by_cases hz1' : zn = 1
        · rw [hz1']; simpa using hvpos
        · have hzn2 : 2 ≤ zn := by
            have : 0 < zn := by omega
            omega
          obtain ⟨n, hn⟩ : ∃ n : Nat, zn = n + 1 := ⟨zn - 1, by omega⟩
          have hn1 : 1 ≤ n := by omega
          rw [hn] at hz1 hxz ⊢
          push_cast at hz1 hxz ⊢
          have hnx : (n : ℚ) < (a : ℚ) / (L : ℚ) := by linarith
          -- the quotient is at least 1 / L above n
          have hanL : (n : Int) * L + 1 ≤ a := by
            have h' : (n : ℚ) * (L : ℚ) < (a : ℚ) := (lt_div_iff₀ hLq).mp hnx
            have h'' : (n : Int) * L < a := by exact_mod_cast h'
            omega
          have hanLq : (n : ℚ) * (L : ℚ) + 1 ≤ (a : ℚ) := by exact_mod_cast hanL
          have hgap : (n : ℚ) + 1 / (L : ℚ) ≤ (a : ℚ) / (L : ℚ) := by
            rw [le_div_iff₀ hLq, add_mul, one_div, inv_mul_cancel₀ hLq.ne']
            exact hanLq
          -- the binade starts at a whole number, which is at most n
          have he0 : 0 ≤ e := by
            have h1x : (2 : ℚ) ^ (0 : Int) < (2 : ℚ) ^ (e + 1) := by
              rw [zpow_zero]
              have : (1 : ℚ) ≤ (n : ℚ) := by exact_mod_cast hn1
              linarith
            have := (two_zpow_lt_iff _ _).mp h1x
            omega
          obtain ⟨i, hi⟩ := Int.eq_ofNat_of_zero_le he0
          have hen : (2 : ℚ) ^ e ≤ (n : ℚ) := by
            rw [hi, zpow_natCast]
            have h' : ((2 ^ i : Nat) : ℚ) < ((n + 1 : Nat) : ℚ) := by
              push_cast
              have := lt_of_le_of_lt hb1 hxz
              rw [hi, zpow_natCast] at this
              exact this
            have h'' : 2 ^ i < n + 1 := by exact_mod_cast h'
            have h3 : 2 ^ i ≤ n := by omega
            exact_mod_cast h3
          -- so the gap is more than half a unit in the last place
          have hLe : (L : ℚ) * (2 : ℚ) ^ e < (2 : ℚ) ^ (53 : Int) := by
            have h' : (L : ℚ) * (2 : ℚ) ^ e ≤ (L : ℚ) * (n : ℚ) :=
              mul_le_mul_of_nonneg_left hen hLq.le
            have h'' : (L : ℚ) * (n : ℚ) < (a : ℚ) := by linarith
            linarith
          have hhalf : (2 : ℚ) ^ (e - 52) / 2 < 1 / (L : ℚ) := by
            rw [lt_div_iff₀ hLq]
            have : (2 : ℚ) ^ (e - 52) / 2 * (L : ℚ) =
                (L : ℚ) * (2 : ℚ) ^ e / (2 : ℚ) ^ (53 : Int) := by
              have h53 : (2 : ℚ) ^ (53 : Int) = (2 : ℚ) ^ (52 : Int) * 2 := by norm_num
              rw [zpow_sub₀ h2.ne', h53]
              field_simp
              ring
            rw [this, div_lt_one (zpow_pos h2 _)]
            exact hLe
          obtain ⟨K2, hK2⟩ := grid_of_small n e he52
          have hK3 := hG3 K2 (by rw [hK2]; linarith)
          have hK3q : ((K2 : ℚ) + 1) * (2 : ℚ) ^ (e - 52) ≤ (m : ℚ) * (2 : ℚ) ^ (e - 52) := by
            apply mul_le_mul_of_nonneg_right _ hpt.le
            exact_mod_cast hK3
          rw [add_mul, hK2, one_mul] at hK3q
          linarith
      refine ⟨?_, le_trans hvle (le_trans hzn53 h5362)⟩
      rw [Int.ceil_eq_iff, hznq]
      exact ⟨hvgt, hvle⟩
  · -- the divisor is at least 2 ^ 53: both quotients are in (0, 1]
    have hL53' : (2 : Int) ^ 53 ≤ L := by omega
    have hVL := hVL2 hL53'
    have hVLpos : (0 : ℚ) < VL := lt_of_lt_of_le (zpow_pos h2 _) hVL
    have hx1 : (a : ℚ) / VL ≤ 1 := by
      rw [div_le_one hVLpos]; exact le_trans ha53q hVL
    have he0 : e ≤ 0 := by
      have : (2 : ℚ) ^ e ≤ (2 : ℚ) ^ (0 : Int) := by rw [zpow_zero]; exact le_trans hb1 hx1
      exact (two_zpow_le_iff _ _).mp this
    obtain ⟨K, hK⟩ := grid_of_small 1 e (by omega)
    have hvle : (m : ℚ) * (2 : ℚ) ^ (e - 52) ≤ 1 := by
      have := hup K (by rw [hK]; simpa using hx1)
      rw [hK] at this
      simpa using this
    have hLq53 : (2 : ℚ) ^ (53 : Int) < (L : ℚ) := by
      have h' : ((2 ^ 53 : Int) : ℚ) < (L : ℚ) := by
        have : (2 : Int) ^ 53 < L := by omega
        exact_mod_cast this
      rw [show ((53 : Int)) = ((53 : Nat) : Int) from rfl, zpow_natCast]
      exact_mod_cast h'
    have hq1 : (a : ℚ) / (L : ℚ) ≤ 1 := by
      rw [div_le_one hLq]; linarith
    have hqpos : (0 : ℚ) < (a : ℚ) / (L : ℚ) := div_pos haq hLq
    have hz : ⌈(a : ℚ) / (L : ℚ)⌉ = 1 := by
      rw [Int.ceil_eq_iff]
      constructor
      · simpa using hqpos
      · simpa using hq1
    refine ⟨?_, le_trans hvle ?_⟩
    · rw [hz, Int.ceil_eq_iff]
      constructor
      · simpa using hvpos
      · simpa using hvle
    · have : (2 : ℚ) ^ (0 : Int) ≤ (2 : ℚ) ^ (62 : Int) := (two_zpow_le_iff _ _).mpr (by decide)
      simpa using this

/-- The chain `int(math.Ceil(float64(a) / float64(L)))` is the exact ceiling of
`a / L` for `0 ≤ a ≤ 2 ^ 53` and a positive 64-bit `L`. -/
theorem float64_ceil_div (undef a L : Int) (ha : 0 ≤ a) (ha53 : a ≤ 2 ^ 53) (hL : 0 < L)
    (hL63 : L < 2 ^ 63) :
    intOfFloat64 undef (math.Ceil ((float64 a).div (float64 L))) = ⌈(a : ℚ) / (L : ℚ)⌉ := by
  have h2 : (0 : ℚ) < 2 := by norm_num
  obtain ⟨mL, tL, hfL, hmL, hmL53, htL1, htL2, hVL1, hVL2⟩ := float64_pos L hL hL63
  rcases eq_or_lt_of_le ha with ha0 | hapos
  · -- no rows
    rw [← ha0, hfL]
    have h1 : (mL : Int) ≠ 0 := by omega
    have hf0 : float64 0 = Float64.finite 0 0 := by unfold float64; simp
    rw [hf0]
    unfold Float64.div
    simp only [h1, ↓reduceIte]
    unfold math.Ceil intOfFloat64
    simp
  · obtain ⟨ma, ta, hfa, hma, _, _, _, hVa, _⟩ := float64_pos a hapos (by omega)
    have hVa' := hVa ha53
    have hmLq : (0 : ℚ) < (mL : ℚ) := by exact_mod_cast hmL
    have hVLpos : (0 : ℚ) < (mL : ℚ) * (2 : ℚ) ^ tL := mul_pos hmLq (zpow_pos h2 _)
    have haq : (1 : ℚ) ≤ (a : ℚ) := by exact_mod_cast hapos
    have ha53q : (a : ℚ) ≤ (2 : ℚ) ^ (53 : Int) := by
      have : (a : ℚ) ≤ ((2 ^ 53 : Int) : ℚ) := by exact_mod_cast ha53
      rw [show ((53 : Int)) = ((53 : Nat) : Int) from rfl, zpow_natCast]
      exact_mod_cast this
    -- the converted divisor is between 1 and 2 ^ 63
    have hVL63 : (mL : ℚ) * (2 : ℚ) ^ tL ≤ (2 : ℚ) ^ (63 : Int) := by
      have h1 : (mL : ℚ) ≤ (2 : ℚ) ^ (53 : Int) := by
        have : (mL : ℚ) ≤ ((2 ^ 53 : Nat) : ℚ) := by exact_mod_cast hmL53
        rw [show ((53 : Int)) = ((53 : Nat) : Int) from rfl, zpow_natCast]
        exact_mod_cast this
      have h3 : (2 : ℚ) ^ tL ≤ (2 : ℚ) ^ (10 : Int) := (two_zpow_le_iff _ _).mpr htL2
      calc (mL : ℚ) * (2 : ℚ) ^ tL ≤ (2 : ℚ) ^ (53 : Int) * (2 : ℚ) ^ (10 : Int) :=
            mul_le_mul h1 h3 (zpow_nonneg h2.le _) (zpow_nonneg h2.le _)
        _ = (2 : ℚ) ^ (63 : Int) := by rw [← zpow_add₀ h2.ne']; rfl
    have hVL1' : (1 : ℚ) ≤ (mL : ℚ) * (2 : ℚ) ^ tL := by
      by_cases hL53 : L ≤ 2 ^ 53
      · rw [hVL1 hL53]; exact_mod_cast hL
      · have := hVL2 (by omega)
        have h1 : (1 : ℚ) ≤ (2 : ℚ) ^ (53 : Int) := by norm_num
        linarith
    have hlo : (2 : ℚ) ^ (-1000 : Int) ≤
        ((ma : ℚ) * (2 : ℚ) ^ ta) / ((mL : ℚ) * (2 : ℚ) ^ tL) := by
      rw [hVa', le_div_iff₀ hVLpos]
      have h1 : (2 : ℚ) ^ (-1000 : Int) * ((mL : ℚ) * (2 : ℚ) ^ tL) ≤
          (2 : ℚ) ^ (-1000 : Int) * (2 : ℚ) ^ (63 : Int) :=
        mul_le_mul_of_nonneg_left hVL63 (zpow_nonneg h2.le _)
      have h3 : (2 : ℚ) ^ (-1000 : Int) * (2 : ℚ) ^ (63 : Int) ≤ 1 := by
        rw [← zpow_add₀ h2.ne']
        have : (2 : ℚ) ^ ((-1000 : Int) + 63) ≤ (2 : ℚ) ^ (0 : Int) :=
          (two_zpow_le_iff _ _).mpr (by decide)
        simpa using this
      linarith
    have hhi : ((ma : ℚ) * (2 : ℚ) ^ ta) / ((mL : ℚ) * (2 : ℚ) ^ tL) ≤ (2 : ℚ) ^ (900 : Int) := by
      rw [hVa', div_le_iff₀ hVLpos]
      have h1 : (2 : ℚ) ^ (53 : Int) ≤ (2 : ℚ) ^ (900 : Int) := (two_zpow_le_iff _ _).mpr (by decide)
      have h3 : (2 : ℚ) ^ (900 : Int) * 1 ≤ (2 : ℚ) ^ (900 : Int) * ((mL : ℚ) * (2 : ℚ) ^ tL) :=
        mul_le_mul_of_nonneg_left hVL1' (zpow_nonneg h2.le _)
      linarith
    obtain ⟨m, e, hdiv, hb1, hb2, hG1, hG2, hG3⟩ := div_pos_spec ma mL ta tL hma hmL hlo hhi
    rw [hVa'] at hb1 hb2 hG1 hG2 hG3
    obtain ⟨hceil, hle⟩ := ceil_of_rounded a L ((mL : ℚ) * (2 : ℚ) ^ tL) m e hapos ha53 hL
      hVL1 hVL2 hb1 hb2 hG1 hG2 hG3
    rw [hfa, hfL, hdiv, intOfFloat64_Ceil undef m (e - 52) hle, hceil]


/-! ### The REST caller -/

open services

/-- Against a transport that fails on every attempt, the loop entered with `retries`
retries used, `retries + n = 5`, makes `n + 1` more attempts and gives up. -/
theorem restLoop_failing (transport : Transport) (url body : String)
    (hfail : ∀ hist url, (transport hist url).2 ≠ none) :
    ∀ (n retries fuel : Nat) (hist : List RestEvent), retries + n = 5 → n + 1 ≤ fuel →
      ∃ run, restLoop transport url body fuel retries hist = some run ∧
        run.events.countP RestEvent.isGet = hist.countP RestEvent.isGet + (n + 1) ∧
        ∃ resp restErr, run.events.getLast? = some (RestEvent.get url resp (some restErr)) ∧
          run.out = .ret (some {
            Message := "Failed to make GET request after retries -> " ++ restErr.Error,
            StatusCode := lastStatusCode resp }) := by
  intro n
  induction n with
  | zero =>
    intro retries fuel hist hr hf
    obtain ⟨f, rfl⟩ : ∃ f, fuel = f + 1 := ⟨fuel - 1, by omega⟩
    rcases ht : transport hist url with ⟨resp, restErr⟩
    have hne := hfail hist url
    rw [ht] at hne
    cases restErr with
    | none => exact absurd rfl hne
    | some e =>
      have hret : retries ≥ maxRetries := by simp [maxRetries]; omega
      have hrun : restLoop transport url body (f + 1) retries hist =
          some ⟨.ret (some {
            Message := "Failed to make GET request after retries -> " ++ e.Error,
            StatusCode := lastStatusCode resp }), hist ++ [RestEvent.get url resp (some e)]⟩ := by
        simp only [restLoop, ht, hret, ↓reduceIte]
        cases resp <;> rfl
      refine ⟨_, hrun, ?_, resp, e, ?_, rfl⟩
      · simp [List.countP_append, RestEvent.isGet]
      · simp
  | succ n ih =>
    intro retries fuel hist hr hf
    obtain ⟨f, rfl⟩ : ∃ f, fuel = f + 1 := ⟨fuel - 1, by omega⟩
    rcases ht : transport hist url with ⟨resp, restErr⟩
    have hne := hfail hist url
    rw [ht] at hne
    cases restErr with
    | none => exact absurd rfl hne
    | some e =>
      have hret : ¬ retries ≥ maxRetries := by simp [maxRetries]; omega
      obtain ⟨run, hrun, hcount, hlast⟩ := ih (retries + 1) f
        (hist ++ [RestEvent.get url resp (some e)] ++
          [RestEvent.sleep (initialBackoff * (retries + 1))]) (by omega) (by omega)
      refine ⟨run, ?_, ?_, hlast⟩
      · simp only [restLoop, ht, hret, ↓reduceIte]
        exact hrun
      · rw [hcount]
        simp [List.countP_append, RestEvent.isGet]
        omega

/-! ### One goroutine, statement by statement -/

theorem ConnectDB_run (env : Env) (hist : List Event) (crud : crudRepository) :
    config.ConnectDB env hist crud =
      match env.poolNew hist with
      | .err e => ⟨.fatal, crud, [Event.poolNew (.err e)]⟩
      | .ok db =>
        match env.ping (hist ++ [Event.poolNew (.ok db)]) db with
        | some e => ⟨.fatal, crud, [Event.poolNew (.ok db), Event.ping db (some e)]⟩
        | none => ⟨.ret db, crud, [Event.poolNew (.ok db), Event.ping db none]⟩ := by
  rw [wp_def config.ConnectDB env hist crud (fun r => r = _)]
  unfold config.ConnectDB poolNew Ping
  simp only [wp_bind, wp_call]
  intro a ha
  rw [← ha]
  cases a with
  | err e => simp only [wp_halt, List.append_nil]
  | ok db =>
    simp only [wp_bind, wp_call]
    intro b hb
    rw [← hb]
    cases b with
    | some e => simp only [wp_halt, List.append_nil]; rfl
    | none => simp only [wp_pure, List.append_nil]; rfl

theorem wp_ConnectDB_iff (env : Env) (hist : List Event) (crud : crudRepository)
    (post : Outcome Handle → crudRepository → List Event → Prop) :
    config.ConnectDB.wp env hist crud post ↔
      match env.poolNew hist with
      | .err e => post .fatal crud [Event.poolNew (.err e)]
      | .ok db =>
        match env.ping (hist ++ [Event.poolNew (.ok db)]) db with
        | some e => post .fatal crud [Event.poolNew (.ok db), Event.ping db (some e)]
        | none => post (.ret db) crud [Event.poolNew (.ok db), Event.ping db none] := by
  unfold Exec.wp
  rw [ConnectDB_run]
  cases env.poolNew hist with
  | err e => exact Iff.rfl
  | ok db =>
    simp only []
    cases env.ping (hist ++ [Event.poolNew (.ok db)]) db <;> exact Iff.rfl

theorem World_step_alone (env : Env) (crud : crudRepository) (hist : List Event) (pc : Pc)
    (h : pc ≠ Pc.fatal) :
    World.step env 0 ⟨crud, hist, [pc]⟩ =
      ⟨(pc.step env hist crud).2.1, hist ++ (pc.step env hist crud).2.2,
        [(pc.step env hist crud).1]⟩ := by
  unfold World.step
  have : ([pc].contains Pc.fatal) = false := by
    cases pc <;> first | rfl | exact absurd rfl h
  simp only [this, Bool.false_eq_true, ↓reduceIte]
  rfl

theorem World_run_ended (env : Env) (crud : crudRepository) (hist : List Event) (pc : Pc)
    (h : pc = Pc.done ∨ pc = Pc.fatal ∨ pc = Pc.panic ∨ (pc = Pc.spin ∧ crud.lock = true)) :
    ∀ n, World.run env (List.replicate n 0) ⟨crud, hist, [pc]⟩ = ⟨crud, hist, [pc]⟩ := by
  intro n
  induction n with
  | zero => rfl
  | succ n ih =>
    have hs : World.step env 0 ⟨crud, hist, [pc]⟩ = ⟨crud, hist, [pc]⟩ := by
      rcases h with rfl | rfl | rfl | ⟨rfl, hl⟩
      · rw [World_step_alone _ _ _ _ (by decide)]; simp [Pc.step]
      · rfl
      · rw [World_step_alone _ _ _ _ (by decide)]; simp [Pc.step]
      · rw [World_step_alone _ _ _ _ (by decide)]; simp [Pc.step, hl]
    show World.run env (List.replicate n 0) (World.step env 0 _) = _
    rw [hs, ih]

theorem World_run_step (env : Env) (crud : crudRepository) (hist : List Event) (pc : Pc) (n : Nat)
    (h : pc ≠ Pc.fatal) :
    World.run env (List.replicate (n + 1) 0) ⟨crud, hist, [pc]⟩ =
      World.run env (List.replicate n 0)
        ⟨(pc.step env hist crud).2.1, hist ++ (pc.step env hist crud).2.2,
          [(pc.step env hist crud).1]⟩ := by
  show World.run env (List.replicate n 0) (World.step env 0 _) = _
  rw [World_step_alone _ _ _ _ h]

/-- A goroutine that stands alone at the ping of the pool `db` ends as the second
step of the health check does. -/
theorem World_run_ping (env : Env) (db : Handle) (hist pre : List Event) (n : Nat) :
    (Ping db >>= fun (pingErr : Option GoError) =>
      match pingErr with
      | some _ => do
        Exec.setLock true
        Exec.setDb (some (← config.ConnectDB))
        Exec.setLock false
      | none => pure ()).wp env (hist ++ pre) ⟨some db, false⟩ (fun o c e =>
        World.run env (List.replicate (n + 4) 0) ⟨⟨some db, false⟩, hist ++ pre, [Pc.ping]⟩ =
          ⟨c, hist ++ (pre ++ e), [Pc.ofOutcome o]⟩) := by
  rw [World_run_step _ _ _ _ _ (by decide)]
  unfold Ping
  simp only [wp_bind, wp_call]
  intro a ha
  simp only [Pc.step, ← ha]
  cases a with
  | none =>
    simp only [wp_pure, List.append_nil]
    rw [World_run_ended _ _ _ _ (by simp)]
    simp [Pc.ofOutcome]
  | some err =>
    simp only [wp_bind, wp_setLock]
    rw [World_run_step _ _ _ _ _ (by decide)]
    simp only [Pc.step, List.append_nil]
    rw [World_run_step _ _ _ _ _ (by decide)]
    simp only [Pc.step]
    rw [ConnectDB_run, wp_ConnectDB_iff]
    cases h1 : env.poolNew (hist ++ pre ++ [Event.ping db (some err)]) with
    | err e =>
      simp only []
      rw [World_run_ended _ _ _ _ (by simp)]
      simp [Pc.ofOutcome]
    | ok db1 =>
      simp only []
      cases h2 : env.ping (hist ++ pre ++ [Event.ping db (some err)] ++ [Event.poolNew (.ok db1)])
          db1 with
      | some e =>
        simp only []
        rw [World_run_ended _ _ _ _ (by simp)]
        simp [Pc.ofOutcome]
      | none =>
        simp only []
        rw [World_run_step _ _ _ _ _ (by decide)]
        simp only [Pc.step]
        rw [World_run_ended _ _ _ _ (by simp)]
        simp only [wp_bind, wp_setDb, wp_setLock]
        simp [Pc.ofOutcome]

/-- A goroutine that runs alone through the statements of the health check ends as
`CheckAndResetDBConnection` does. -/
theorem World_run_alone (env : Env) (hist : List Event) (crud : crudRepository) :
    World.run env (List.replicate 9 0) ⟨crud, hist, [Pc.spin]⟩ =
      ⟨(Repository.CheckAndResetDBConnection env hist crud).crud,
        hist ++ (Repository.CheckAndResetDBConnection env hist crud).events,
        [Pc.ofOutcome (Repository.CheckAndResetDBConnection env hist crud).out]⟩ := by
  rw [wp_def Repository.CheckAndResetDBConnection env hist crud
    (fun r => World.run env (List.replicate 9 0) ⟨crud, hist, [Pc.spin]⟩ =
      ⟨r.crud, hist ++ r.events, [Pc.ofOutcome r.out]⟩)]
  rcases crud with ⟨db, lock⟩
  unfold Repository.CheckAndResetDBConnection
  simp only [wp_bind, wp_getCrud]
  cases lock
  · simp only [Bool.false_eq_true, ↓reduceIte, wp_bind, wp_getCrud]
    rw [World_run_step _ _ _ _ _ (by decide)]
    simp only [Pc.step, Bool.false_eq_true, ↓reduceIte, List.append_nil]
    rw [World_run_step _ _ _ _ _ (by decide)]
    cases db with
    | none =>
      simp only [↓reduceIte, wp_bind, wp_setLock, Pc.step, List.append_nil]
      rw [World_run_step _ _ _ _ _ (by decide)]
      simp only [Pc.step, List.append_nil]
      rw [World_run_step _ _ _ _ _ (by decide)]
      simp only [Pc.step]
      rw [ConnectDB_run, wp_ConnectDB_iff]
      cases h1 : env.poolNew hist with
      | err e =>
        simp only []
        rw [World_run_ended _ _ _ _ (by simp)]
        simp [Pc.ofOutcome]
      | ok db =>
        simp only []
        cases h2 : env.ping (hist ++ [Event.poolNew (.ok db)]) db with
        | some e =>
          simp only []
          rw [World_run_ended _ _ _ _ (by simp)]
          simp [Pc.ofOutcome]
        | none =>
          simp only []
          rw [World_run_step _ _ _ _ _ (by decide)]
          simp only [Pc.step, List.append_nil]
          have h := World_run_ping env db hist [Event.poolNew (.ok db), Event.ping db none] 0
          simpa only [wp_bind, wp_setLock, wp_setDb, wp_getCrud, wp_pure,
            List.append_nil, List.nil_append, List.append_assoc] using h
    | some db =>
      simp only [reduceCtorEq, ↓reduceIte, wp_bind, wp_pure, wp_getCrud, Pc.step, List.append_nil]
      have h := World_run_ping env db hist [] 3
      simpa only [wp_bind, wp_setLock, wp_setDb, wp_getCrud, wp_pure,
        List.append_nil, List.nil_append, List.append_assoc] using h
  · simp only [↓reduceIte, wp_halt]
    rw [World_run_ended _ _ _ _ (by simp)]
    simp [Pc.ofOutcome]

/-! ### Failed statements -/

/-- What a run of `Delete` whose statement fails returns and does. -/
theorem Delete_exec_failed (k : Constants) (query objectType : String) (args : List Value)
    (env : Env) (hist : List Event) (crud : crudRepository) (tx : Tx) (err : GoError)
    (h : Event.exec tx query args (.err err) ∈
      (Repository.Delete k query objectType args env hist crud).events) :
    (Repository.Delete k query objectType args env hist crud).out =
      .ret (some ⟨500, Sprintf k.FAILED_TO_UPDATE_OBJ objectType⟩) ∧
    ∃ e db rb, (∀ x ∈ e, x.isHealth = true) ∧
      (Repository.Delete k query objectType args env hist crud).events =
        e ++ [Event.begin db (.ok tx), Event.exec tx query args (.err err), Event.rollback tx rb] := by
  revert h
  rw [wp_def (Repository.Delete k query objectType args) env hist crud
    (fun r => Event.exec tx query args (.err err) ∈ r.events →
      r.out = .ret (some ⟨500, Sprintf k.FAILED_TO_UPDATE_OBJ objectType⟩) ∧
      ∃ e db rb, (∀ x ∈ e, x.isHealth = true) ∧
        r.events = e ++ [Event.begin db (.ok tx), Event.exec tx query args (.err err),
          Event.rollback tx rb])]
  apply wp_Delete
  · intro _ h; simp at h
  · intro c e he h1; exact absurd h1 (not_mem_of_health he rfl)
  · intro c e db1 err1 he h1
    have hne : Event.exec tx query args (.err err) ∉ e := not_mem_of_health he rfl
    simp [hne] at h1
  · intro c e db1 tx1 err1 rb he h1
    have hne : Event.exec tx query args (.err err) ∉ e := not_mem_of_health he rfl
    simp [hne] at h1
    obtain ⟨rfl, rfl⟩ := h1
    exact ⟨rfl, e, db1, rb, he, rfl⟩
  · intro c e db1 tx1 he h1
    have hne : Event.exec tx query args (.err err) ∉ e := not_mem_of_health he rfl
    simp [hne] at h1
  · intro c e db1 tx1 n he hn h1
    have hne : Event.exec tx query args (.err err) ∉ e := not_mem_of_health he rfl
    simp [hne] at h1
  · intro c e db1 tx1 n err1 he hn h1
    have hne : Event.exec tx query args (.err err) ∉ e := not_mem_of_health he rfl
    simp [hne] at h1

/-- What a run of `Update` whose statement fails returns and does. -/
theorem Update_exec_failed (k : Constants) (query objectType : String) (args : List Value)
    (env : Env) (hist : List Event) (crud : crudRepository) (tx : Tx) (err : GoError)
    (h : Event.exec tx query args (.err err) ∈
      (Repository.Update k query objectType args env hist crud).events) :
    (Repository.Update k query objectType args env hist crud).out =
      .ret (some ⟨500, Sprintf k.FAILED_TO_UPDATE_OBJ objectType⟩) ∧
    ∃ e db rb, (∀ x ∈ e, x.isHealth = true) ∧
      (Repository.Update k query objectType args env hist crud).events =
        e ++ [Event.begin db (.ok tx), Event.exec tx query args (.err err), Event.rollback tx rb] := by
  revert h
  rw [wp_def (Repository.Update k query objectType args) env hist crud
    (fun r => Event.exec tx query args (.err err) ∈ r.events →
      r.out = .ret (some ⟨500, Sprintf k.FAILED_TO_UPDATE_OBJ objectType⟩) ∧
      ∃ e db rb, (∀ x ∈ e, x.isHealth = true) ∧
        r.events = e ++ [Event.begin db (.ok tx), Event.exec tx query args (.err err),
          Event.rollback tx rb])]
  apply wp_Update
  · intro _ h; simp at h
  · intro c e he h1; exact absurd h1 (not_mem_of_health he rfl)
  · intro c e db1 err1 he h1
    have hne : Event.exec tx query args (.err err) ∉ e := not_mem_of_health he rfl
    simp [hne] at h1
  · intro c e db1 tx1 err1 rb he h1
    have hne : Event.exec tx query args (.err err) ∉ e := not_mem_of_health he rfl
    simp [hne] at h1
    obtain ⟨rfl, rfl⟩ := h1
    exact ⟨rfl, e, db1, rb, he, rfl⟩
  · intro c e db1 tx1 he h1
    have hne : Event.exec tx query args (.err err) ∉ e := not_mem_of_health he rfl
    simp [hne] at h1
  · intro c e db1 tx1 n he hn h1
    have hne : Event.exec tx query args (.err err) ∉ e := not_mem_of_health he rfl
    simp [hne] at h1
  · intro c e db1 tx1 n err1 he hn h1
    have hne : Event.exec tx query args (.err err) ∉ e := not_mem_of_health he rfl
    simp [hne] at h1

/-- What a run of `Create` whose statement fails returns and does. -/
theorem Create_scan_failed (k : Constants) (query objectType : String) (args : List Value)
    (env : Env) (hist : List Event) (crud : crudRepository) (tx : Tx) (err : GoError)
    (h : Event.txQueryRowScan tx query args (.err err) ∈
      (Repository.Create k query objectType args env hist crud).events) :
    (Repository.Create k query objectType args env hist crud).out =
      .ret (Value.int (-1), some ⟨500, Sprintf k.FAILED_TO_CREATE_OBJ objectType⟩) ∧
    ∃ e db rb, (∀ x ∈ e, x.isHealth = true) ∧
      (Repository.Create k query objectType args env hist crud).events =
        e ++ [Event.begin db (.ok tx), Event.txQueryRowScan tx query args (.err err),
          Event.rollback tx rb] := by
  revert h
  rw [wp_def (Repository.Create k query objectType args) env hist crud
    (fun r => Event.txQueryRowScan tx query args (.err err) ∈ r.events →
      r.out = .ret (Value.int (-1), some ⟨500, Sprintf k.FAILED_TO_CREATE_OBJ objectType⟩) ∧
      ∃ e db rb, (∀ x ∈ e, x.isHealth = true) ∧
        r.events = e ++ [Event.begin db (.ok tx), Event.txQueryRowScan tx query args (.err err),
          Event.rollback tx rb])]
  apply wp_Create
  · intro _ h; simp at h
  · intro c e he h1; exact absurd h1 (not_mem_of_health he rfl)
  · intro c e db1 err1 he h1
    have hne : Event.txQueryRowScan tx query args (.err err) ∉ e := not_mem_of_health he rfl
    simp [hne] at h1
  · intro c e db1 tx1 err1 rb he h1
    have hne : Event.txQueryRowScan tx query args (.err err) ∉ e := not_mem_of_health he rfl
    simp [hne] at h1
    obtain ⟨rfl, rfl⟩ := h1
    exact ⟨rfl, e, db1, rb, he, rfl⟩
  · intro c e db1 tx1 id he h1
    have hne : Event.txQueryRowScan tx query args (.err err) ∉ e := not_mem_of_health he rfl
    simp [hne] at h1
  · intro c e db1 tx1 id err1 rb he h1
    have hne : Event.txQueryRowScan tx query args (.err err) ∉ e := not_mem_of_health he rfl
    simp [hne] at h1

/-- The counts of a trace that ends a failed statement with a rollback. -/
theorem counts_of_rolled_back (e : List Event) (b s : Event) (tx : Tx) (rb : Option GoError)
    (he : ∀ x ∈ e, x.isHealth = true)
    (hb : b.isCommit = false ∧ b.isRollback = false)
    (hs : s.isCommit = false ∧ s.isRollback = false) :
    (e ++ [b, s, Event.rollback tx rb]).countP (Event.isRollbackOn tx) = 1 ∧
    (e ++ [b, s, Event.rollback tx rb]).countP Event.isRollback = 1 ∧
    (e ++ [b, s, Event.rollback tx rb]).countP Event.isCommit = 0 := by
  have hbo : Event.isRollbackOn tx b = false := by
    cases b <;> simp_all [Event.isRollback, Event.isRollbackOn]
  have hso : Event.isRollbackOn tx s = false := by
    cases s <;> simp_all [Event.isRollback, Event.isRollbackOn]
  have hr1 : Event.isRollbackOn tx (Event.rollback tx rb) = true := by simp [Event.isRollbackOn]
  have hr2 : Event.isRollback (Event.rollback tx rb) = true := rfl
  have hr3 : Event.isCommit (Event.rollback tx rb) = false := rfl
  simp [List.countP_append, List.countP_cons, countP_isRollbackOn_health _ he,
    countP_isRollback_health he, countP_isCommit_health he, hb.1, hb.2, hs.1, hs.2, hbo, hso,
    hr1, hr2, hr3]

/-! ### Affected rows, and a failed `Begin` -/

/-- What a run of `Delete` whose statement affects rows returns and does. -/
theorem Delete_rows_affected (k : Constants) (query objectType : String) (args : List Value)
    (env : Env) (hist : List Event) (crud : crudRepository) (tx : Tx) (n : Int) (hn : n ≠ 0)
    (h : Event.exec tx query args (.ok n) ∈
      (Repository.Delete k query objectType args env hist crud).events) :
    ∃ e db cErr, (∀ x ∈ e, x.isHealth = true) ∧
      (Repository.Delete k query objectType args env hist crud).events =
        e ++ [Event.begin db (.ok tx), Event.exec tx query args (.ok n), Event.commit tx cErr] ∧
      (Repository.Delete k query objectType args env hist crud).out =
        .ret (cErr.map (fun _ => ⟨500, Sprintf k.COMMIT_FAILED objectType⟩)) := by
  revert h
  rw [wp_def (Repository.Delete k query objectType args) env hist crud
    (fun r => Event.exec tx query args (.ok n) ∈ r.events →
      ∃ e db cErr, (∀ x ∈ e, x.isHealth = true) ∧
        r.events = e ++ [Event.begin db (.ok tx), Event.exec tx query args (.ok n),
          Event.commit tx cErr] ∧
        r.out = .ret (cErr.map (fun _ => ⟨500, Sprintf k.COMMIT_FAILED objectType⟩)))]
  apply wp_Delete
  · intro _ h; simp at h
  · intro c e he h1; exact absurd h1 (not_mem_of_health he rfl)
  · intro c e db1 err1 he h1
    have hne : Event.exec tx query args (.ok n) ∉ e := not_mem_of_health he rfl
    simp [hne] at h1
  · intro c e db1 tx1 err1 rb he h1
    have hne : Event.exec tx query args (.ok n) ∉ e := not_mem_of_health he rfl
    simp [hne] at h1
  · intro c e db1 tx1 he h1
    have hne : Event.exec tx query args (.ok n) ∉ e := not_mem_of_health he rfl
    simp [hne] at h1
    exact absurd h1.2 hn
  · intro c e db1 tx1 n1 he hn1 h1
    have hne : Event.exec tx query args (.ok n) ∉ e := not_mem_of_health he rfl
    simp [hne] at h1
    obtain ⟨rfl, rfl⟩ := h1
    exact ⟨e, db1, none, he, rfl, rfl⟩
  · intro c e db1 tx1 n1 err1 he hn1 h1
    have hne : Event.exec tx query args (.ok n) ∉ e := not_mem_of_health he rfl
    simp [hne] at h1
    obtain ⟨rfl, rfl⟩ := h1
    exact ⟨e, db1, some err1, he, rfl, rfl⟩

/-- What a run of `Update` whose statement affects rows returns and does. -/
theorem Update_rows_affected (k : Constants) (query objectType : String) (args : List Value)
    (env : Env) (hist : List Event) (crud : crudRepository) (tx : Tx) (n : Int) (hn : n ≠ 0)
    (h : Event.exec tx query args (.ok n) ∈
      (Repository.Update k query objectType args env hist crud).events) :
    ∃ e db cErr, (∀ x ∈ e, x.isHealth = true) ∧
      (Repository.Update k query objectType args env hist crud).events =
        e ++ [Event.begin db (.ok tx), Event.exec tx query args (.ok n), Event.commit tx cErr] ∧
      (Repository.Update k query objectType args env hist crud).out =
        .ret (cErr.map (fun _ => ⟨500, Sprintf k.COMMIT_FAILED objectType⟩)) := by
  revert h
  rw [wp_def (Repository.Update k query objectType args) env hist crud
    (fun r => Event.exec tx query args (.ok n) ∈ r.events →
      ∃ e db cErr, (∀ x ∈ e, x.isHealth = true) ∧
        r.events = e ++ [Event.begin db (.ok tx), Event.exec tx query args (.ok n),
          Event.commit tx cErr] ∧
        r.out = .ret (cErr.map (fun _ => ⟨500, Sprintf k.COMMIT_FAILED objectType⟩)))]
  apply wp_Update
  · intro _ h; simp at h
  · intro c e he h1; exact absurd h1 (not_mem_of_health he rfl)
  · intro c e db1 err1 he h1
    have hne : Event.exec tx query args (.ok n) ∉ e := not_mem_of_health he rfl
    simp [hne] at h1
  · intro c e db1 tx1 err1 rb he h1
    have hne : Event.exec tx query args (.ok n) ∉ e := not_mem_of_health he rfl
    simp [hne] at h1
  · intro c e db1 tx1 he h1
    have hne : Event.exec tx query args (.ok n) ∉ e := not_mem_of_health he rfl
    simp [hne] at h1
    exact absurd h1.2 hn
  · intro c e db1 tx1 n1 he hn1 h1
    have hne : Event.exec tx query args (.ok n) ∉ e := not_mem_of_health he rfl
    simp [hne] at h1
    obtain ⟨rfl, rfl⟩ := h1
    exact ⟨e, db1, none, he, rfl, rfl⟩
  · intro c e db1 tx1 n1 err1 he hn1 h1
    have hne : Event.exec tx query args (.ok n) ∉ e := not_mem_of_health he rfl
    simp [hne] at h1
    obtain ⟨rfl, rfl⟩ := h1
    exact ⟨e, db1, some err1, he, rfl, rfl⟩

/-- What follows for a call from a trace that ends with one commit after a
statement. -/
theorem committed_once (out : Outcome (Option ErrorMessage)) (events e : List Event)
    (db : Handle) (tx : Tx) (s : Event) (cErr : Option GoError) (msg : String)
    (he : ∀ x ∈ e, x.isHealth = true)
    (hs : s.isCommit = false ∧ s.isRollback = false)
    (hev : events = e ++ [Event.begin db (.ok tx), s, Event.commit tx cErr])
    (hout : out = .ret (cErr.map (fun _ => ⟨500, msg⟩))) :
    events.countP Event.isCommit = 1 ∧
    events.countP (Event.isCommitOn tx) = 1 ∧
    events.countP Event.isRollback = 0 ∧
    (out = .ret none ↔ Event.commit tx none ∈ events) ∧
    (out = .ret (some ⟨500, msg⟩) ↔ ∃ err, Event.commit tx (some err) ∈ events) := by
  have hso : Event.isCommitOn tx s = false := by
    cases s <;> simp_all [Event.isCommit, Event.isCommitOn]
  have hc1 : Event.isCommitOn tx (Event.commit tx cErr) = true := by simp [Event.isCommitOn]
  have hc2 : Event.isCommit (Event.commit tx cErr) = true := rfl
  have hc3 : Event.isRollback (Event.commit tx cErr) = false := rfl
  have hb1 : Event.isCommitOn tx (Event.begin db (.ok tx)) = false := rfl
  have hb2 : Event.isCommit (Event.begin db (.ok tx)) = false := rfl
  have hb3 : Event.isRollback (Event.begin db (.ok tx)) = false := rfl
  have hmem : ∀ c, Event.commit tx c ∈ events ↔ c = cErr := by
    intro c
    have hne : Event.commit tx c ∉ e := not_mem_of_health he rfl
    have hns : Event.commit tx c = s → c = cErr := by
      intro h
      rw [← h] at hs
      simp [Event.isCommit] at hs
    rw [hev]
    simp only [List.mem_append, List.mem_cons, hne, false_or, reduceCtorEq, Event.commit.injEq,
      true_and, List.mem_nil_iff, or_false]
    constructor
    · rintro (h | h)
      · exact hns h
      · exact h
    · intro h; exact Or.inr h
  subst hout
  refine ⟨?_, ?_, ?_, ?_, ?_⟩
  · rw [hev]
    simp [List.countP_append, List.countP_cons, countP_isCommit_health he, hs.1, hc2, hb2]
  · rw [hev]
    simp [List.countP_append, List.countP_cons, countP_isCommitOn_health _ he, hso, hc1, hb1]
  · rw [hev]
    simp [List.countP_append, List.countP_cons, countP_isRollback_health he, hs.2, hc3, hb3]
  · rw [hmem]
    cases cErr <;> simp
  · simp only [hmem]
    cases cErr <;> simp

/-- A postcondition may use what the run itself is. -/
theorem wp_and_self {α : Type} (m : Exec α) (env : Env) (hist : List Event) (crud : crudRepository)
    (post : Outcome α → crudRepository → List Event → Prop)
    (h : m.wp env hist crud (fun o c e => o = (m env hist crud).out →
      c = (m env hist crud).crud → e = (m env hist crud).events → post o c e)) :
    m.wp env hist crud post := h rfl rfl rfl

/-- The events of a sequence start with the events of its first part. -/
theorem bind_events {α β : Type} (m : Exec α) (f : α → Exec β) (env : Env) (hist : List Event)
    (crud : crudRepository) :
    ∃ rest, ((m >>= f) env hist crud).events = (m env hist crud).events ++ rest := by
  show ∃ rest, (Exec.bind m f env hist crud).events = _
  unfold Exec.bind
  rcases m env hist crud with ⟨o, c, e⟩
  cases o
  · exact ⟨_, rfl⟩
  · exact ⟨[], by simp⟩
  · exact ⟨[], by simp⟩
  · exact ⟨[], by simp⟩

/-- A sequence returns only if its first part does. -/
theorem bind_out_ret {α β : Type} (m : Exec α) (f : α → Exec β) (env : Env) (hist : List Event)
    (crud : crudRepository) (b : β) (h : ((m >>= f) env hist crud).out = .ret b) :
    ∃ a, (m env hist crud).out = .ret a := by
  change (Exec.bind m f env hist crud).out = .ret b at h
  unfold Exec.bind at h
  rcases hm : m env hist crud with ⟨o, c, e⟩
  rw [hm] at h
  cases o
  · exact ⟨_, rfl⟩
  · simp at h
  · simp at h
  · simp at h

/-- Every event of the health check is the opening of a pool or a ping. -/
theorem CheckAndReset_events_health (env : Env) (hist : List Event) (crud : crudRepository) :
    ∀ x ∈ (Repository.CheckAndResetDBConnection env hist crud).events, x.isHealth = true := by
  rw [wp_def Repository.CheckAndResetDBConnection env hist crud
    (fun r => ∀ x ∈ r.events, x.isHealth = true)]
  apply wp_CheckAndReset
  · intro db e he _; exact he
  · intro _; simp
  · intro c e he; exact he

/-- A run of `BeginTransaction` that returns is the run of the health check, which
returns, and then one `Begin`. -/
theorem BeginTransaction_events (k : Constants) (env : Env) (hist : List Event)
    (crud : crudRepository) (a : Option Tx × Option ErrorMessage)
    (h : (Repository.BeginTransaction k env hist crud).out = .ret a) :
    (Repository.CheckAndResetDBConnection env hist crud).out = .ret () ∧
    ∃ db answer, (Repository.BeginTransaction k env hist crud).events =
      (Repository.CheckAndResetDBConnection env hist crud).events ++ [Event.begin db answer] := by
  revert h
  rw [wp_def (Repository.BeginTransaction k) env hist crud
    (fun r => r.out = .ret a →
      (Repository.CheckAndResetDBConnection env hist crud).out = .ret () ∧
      ∃ db answer, r.events =
        (Repository.CheckAndResetDBConnection env hist crud).events ++ [Event.begin db answer])]
  unfold Repository.BeginTransaction
  simp only [wp_bind]
  apply wp_and_self
  apply wp_CheckAndReset
  · intro db e he hl hout _ hev
    simp only []
    apply wp_crudDb _ _ _ _ db rfl
    unfold Begin
    simp only [wp_call, List.append_nil]
    intro b _
    cases b <;> simp only [wp_pure, List.append_nil]
    · intro _
      exact ⟨hout.symm, db, _, by rw [hev, List.nil_append]⟩
    · intro _
      exact ⟨hout.symm, db, _, by rw [hev, List.nil_append]⟩
  · intro _ _ _ _ h; simp at h
  · intro c e he _ _ _ h; simp at h

/-- Two traces that agree split alike at their first event that is not of the
health check. -/
theorem health_prefix_unique : ∀ (e1 e2 r1 r2 : List Event) (a b : Event),
    (∀ x ∈ e1, x.isHealth = true) → (∀ x ∈ e2, x.isHealth = true) →
    a.isHealth = false → b.isHealth = false →
    e1 ++ a :: r1 = e2 ++ b :: r2 → e1 = e2 ∧ a = b ∧ r1 = r2 := by
  intro e1
  induction e1 with
  | nil =>
    intro e2 r1 r2 a b _ h2 ha hb h
    cases e2 with
    | nil => simpa using h
    | cons y e2 =>
      simp only [List.nil_append, List.cons_append, List.cons.injEq] at h
      have := h2 y (by simp)
      rw [← h.1, ha] at this
      exact absurd this (by simp)
  | cons x e1 ih =>
    intro e2 r1 r2 a b h1 h2 ha hb h
    cases e2 with
    | nil =>
      simp only [List.nil_append, List.cons_append, List.cons.injEq] at h
      have := h1 x (by simp)
      rw [h.1, hb] at this
      exact absurd this (by simp)
    | cons y e2 =>
      simp only [List.cons_append, List.cons.injEq] at h
      obtain ⟨hxy, hrest⟩ := h
      obtain ⟨h3, h4, h5⟩ := ih e2 r1 r2 a b (fun z hz => h1 z (by simp [hz]))
        (fun z hz => h2 z (by simp [hz])) ha hb hrest
      exact ⟨by rw [hxy, h3], h4, h5⟩

/-- A trace that is the health check and then a failed `Begin`, of a call that
starts with `BeginTransaction`: the health check is the one the call ran. -/
theorem begin_failed_after_health {β : Type} (k : Constants)
    (f : Option Tx × Option ErrorMessage → Exec β) (env : Env) (hist : List Event)
    (crud : crudRepository) (b : β) (e : List Event) (db : Handle) (err : GoError)
    (hout : ((Repository.BeginTransaction k >>= f) env hist crud).out = .ret b)
    (he : ∀ x ∈ e, x.isHealth = true)
    (hev : ((Repository.BeginTransaction k >>= f) env hist crud).events =
      e ++ [Event.begin db (.err err)]) :
    (Repository.CheckAndResetDBConnection env hist crud).out = .ret () ∧
    e = (Repository.CheckAndResetDBConnection env hist crud).events := by
  obtain ⟨a, ha⟩ := bind_out_ret _ _ _ _ _ _ hout
  obtain ⟨hH, db2, answer, hbt⟩ := BeginTransaction_events k env hist crud a ha
  obtain ⟨rest, hrest⟩ := bind_events (Repository.BeginTransaction k) f env hist crud
  rw [hev, hbt, List.append_assoc] at hrest
  have := health_prefix_unique e _ [] rest (Event.begin db (.err err)) (Event.begin db2 answer) he
    (CheckAndReset_events_health env hist crud) rfl rfl (by simpa using hrest)
  exact ⟨hH, this.1⟩

/-- What a run of `Delete` whose `Begin` fails returns and does. -/
theorem Delete_begin_failed (k : Constants) (query objectType : String) (args : List Value)
    (env : Env) (hist : List Event) (crud : crudRepository) (db : Handle) (err : GoError)
    (h : Event.begin db (.err err) ∈
      (Repository.Delete k query objectType args env hist crud).events) :
    (Repository.Delete k query objectType args env hist crud).out =
      .ret (some ⟨500, k.FAILED_BEGIN_TRANSACTION⟩) ∧
    (Repository.CheckAndResetDBConnection env hist crud).out = .ret () ∧
    (Repository.Delete k query objectType args env hist crud).events =
      (Repository.CheckAndResetDBConnection env hist crud).events ++
        [Event.begin db (.err err)] := by
  have hshape : (Repository.Delete k query objectType args env hist crud).out =
        .ret (some ⟨500, k.FAILED_BEGIN_TRANSACTION⟩) ∧
      ∃ e, (∀ x ∈ e, x.isHealth = true) ∧
        (Repository.Delete k query objectType args env hist crud).events =
          e ++ [Event.begin db (.err err)] := by
    revert h
    rw [wp_def (Repository.Delete k query objectType args) env hist crud
      (fun r => Event.begin db (.err err) ∈ r.events →
        r.out = .ret (some ⟨500, k.FAILED_BEGIN_TRANSACTION⟩) ∧
        ∃ e, (∀ x ∈ e, x.isHealth = true) ∧ r.events = e ++ [Event.begin db (.err err)])]
    apply wp_Delete
    · intro _ h; simp at h
    · intro c e he h1; exact absurd h1 (not_mem_of_health he rfl)
    · intro c e db1 err1 he h1
      have hne : Event.begin db (.err err) ∉ e := not_mem_of_health he rfl
      simp [hne] at h1
      obtain ⟨rfl, rfl⟩ := h1
      exact ⟨rfl, e, he, rfl⟩
    · intro c e db1 tx1 err1 rb he h1
      have hne : Event.begin db (.err err) ∉ e := not_mem_of_health he rfl
      simp [hne] at h1
    · intro c e db1 tx1 he h1
      have hne : Event.begin db (.err err) ∉ e := not_mem_of_health he rfl
      simp [hne] at h1
    · intro c e db1 tx1 n he hn h1
      have hne : Event.begin db (.err err) ∉ e := not_mem_of_health he rfl
      simp [hne] at h1
    · intro c e db1 tx1 n err1 he hn h1
      have hne : Event.begin db (.err err) ∉ e := not_mem_of_health he rfl
      simp [hne] at h1
  obtain ⟨hout, e, he, hev⟩ := hshape
  obtain ⟨hH, hE⟩ := begin_failed_after_health k _ env hist crud _ e db err hout he hev
  exact ⟨hout, hH, by rw [hev, hE]⟩

/-- What a run of `Update` whose `Begin` fails returns and does. -/
theorem Update_begin_failed (k : Constants) (query objectType : String) (args : List Value)
    (env : Env) (hist : List Event) (crud : crudRepository) (db : Handle) (err : GoError)
    (h : Event.begin db (.err err) ∈
      (Repository.Update k query objectType args env hist crud).events) :
    (Repository.Update k query objectType args env hist crud).out =
      .ret (some ⟨500, k.FAILED_BEGIN_TRANSACTION⟩) ∧
    (Repository.CheckAndResetDBConnection env hist crud).out = .ret () ∧
    (Repository.Update k query objectType args env hist crud).events =
      (Repository.CheckAndResetDBConnection env hist crud).events ++
        [Event.begin db (.err err)] := by
  have hshape : (Repository.Update k query objectType args env hist crud).out =
        .ret (some ⟨500, k.FAILED_BEGIN_TRANSACTION⟩) ∧
      ∃ e, (∀ x ∈ e, x.isHealth = true) ∧
        (Repository.Update k query objectType args env hist crud).events =
          e ++ [Event.begin db (.err err)] := by
    revert h
    rw [wp_def (Repository.Update k query objectType args) env hist crud
      (fun r => Event.begin db (.err err) ∈ r.events →
        r.out = .ret (some ⟨500, k.FAILED_BEGIN_TRANSACTION⟩) ∧
        ∃ e, (∀ x ∈ e, x.isHealth = true) ∧ r.events = e ++ [Event.begin db (.err err)])]
    apply wp_Update
    · intro _ h; simp at h
    · intro c e he h1; exact absurd h1 (not_mem_of_health he rfl)
    · intro c e db1 err1 he h1
      have hne : Event.begin db (.err err) ∉ e := not_mem_of_health he rfl
      simp [hne] at h1
      obtain ⟨rfl, rfl⟩ := h1
      exact ⟨rfl, e, he, rfl⟩
    · intro c e db1 tx1 err1 rb he h1
      have hne : Event.begin db (.err err) ∉ e := not_mem_of_health he rfl
      simp [hne] at h1
    · intro c e db1 tx1 he h1
      have hne : Event.begin db (.err err) ∉ e := not_mem_of_health he rfl
      simp [hne] at h1
    · intro c e db1 tx1 n he hn h1
      have hne : Event.begin db (.err err) ∉ e := not_mem_of_health he rfl
      simp [hne] at h1
    · intro c e db1 tx1 n err1 he hn h1
      have hne : Event.begin db (.err err) ∉ e := not_mem_of_health he rfl
      simp [hne] at h1
  obtain ⟨hout, e, he, hev⟩ := hshape
  obtain ⟨hH, hE⟩ := begin_failed_after_health k _ env hist crud _ e db err hout he hev
  exact ⟨hout, hH, by rw [hev, hE]⟩

/-- What a run of `Create` whose `Begin` fails returns and does. -/
theorem Create_begin_failed (k : Constants) (query objectType : String) (args : List Value)
    (env : Env) (hist : List Event) (crud : crudRepository) (db : Handle) (err : GoError)
    (h : Event.begin db (.err err) ∈
      (Repository.Create k query objectType args env hist crud).events) :
    (Repository.Create k query objectType args env hist crud).out =
      .ret (Value.int (-1), some ⟨500, k.FAILED_BEGIN_TRANSACTION⟩) ∧
    (Repository.CheckAndResetDBConnection env hist crud).out = .ret () ∧
    (Repository.Create k query objectType args env hist crud).events =
      (Repository.CheckAndResetDBConnection env hist crud).events ++
        [Event.begin db (.err err)] := by
  have hshape : (Repository.Create k query objectType args env hist crud).out =
        .ret (Value.int (-1), some ⟨500, k.FAILED_BEGIN_TRANSACTION⟩) ∧
      ∃ e, (∀ x ∈ e, x.isHealth = true) ∧
        (Repository.Create k query objectType args env hist crud).events =
          e ++ [Event.begin db (.err err)] := by
    revert h
    rw [wp_def (Repository.Create k query objectType args) env hist crud
      (fun r => Event.begin db (.err err) ∈ r.events →
        r.out = .ret (Value.int (-1), some ⟨500, k.FAILED_BEGIN_TRANSACTION⟩) ∧
        ∃ e, (∀ x ∈ e, x.isHealth = true) ∧ r.events = e ++ [Event.begin db (.err err)])]
    apply wp_Create
    · intro _ h; simp at h
    · intro c e he h1; exact absurd h1 (not_mem_of_health he rfl)
    · intro c e db1 err1 he h1
      have hne : Event.begin db (.err err) ∉ e := not_mem_of_health he rfl
      simp [hne] at h1
      obtain ⟨rfl, rfl⟩ := h1
      exact ⟨rfl, e, he, rfl⟩
    · intro c e db1 tx1 err1 rb he h1
      have hne : Event.begin db (.err err) ∉ e := not_mem_of_health he rfl
      simp [hne] at h1
    · intro c e db1 tx1 id he h1
      have hne : Event.begin db (.err err) ∉ e := not_mem_of_health he rfl
      simp [hne] at h1
    · intro c e db1 tx1 id err1 rb he h1
      have hne : Event.begin db (.err err) ∉ e := not_mem_of_health he rfl
      simp [hne] at h1
  obtain ⟨hout, e, he, hev⟩ := hshape
  obtain ⟨hH, hE⟩ := begin_failed_after_health k _ env hist crud _ e db err hout he hev
  exact ⟨hout, hH, by rw [hev, hE]⟩

/-- No statement, commit or rollback in a trace that is a health check and then a
`Begin`. -/
theorem only_begin_after_health (e : List Event) (b : Event)
    (he : ∀ x ∈ e, x.isHealth = true)
    (hb : b.isStatement = false ∧ b.isCommit = false ∧ b.isRollback = false) :
    ∀ x ∈ e ++ [b], x.isStatement = false ∧ x.isCommit = false ∧ x.isRollback = false := by
  intro x hx
  rcases List.mem_append.mp hx with hx | hx
  · have := he x hx
    cases x <;> simp_all [Event.isHealth, Event.isStatement, Event.isCommit, Event.isRollback]
  · simp only [List.mem_singleton] at hx
    rw [hx]
    exact hb

/-! ### Reads, and the shape of the health check -/

/-- Every run of `Get`, by what the driver and the mapper answer. -/
theorem wp_Get (query objectType : String) (mapper : RowMapperFunc) (args : List Value)
    (env : Env) (hist : List Event) (crud : crudRepository)
    (post : Outcome (List Value × Option ErrorMessage) → crudRepository → List Event → Prop)
    (hspin : crud.lock = true → post .spin crud [])
    (hfatal : ∀ c e, (∀ x ∈ e, x.isHealth = true) → post .fatal c e)
    (hquery : ∀ c e db err, (∀ x ∈ e, x.isHealth = true) →
      post (.ret ([], some ⟨http.StatusInternalServerError, "Failed to execute query"⟩)) c
        (e ++ [Event.query db query args (.err err)]))
    (hmap : ∀ c e db before row rest, (∀ x ∈ e, x.isHealth = true) →
      (∀ r ∈ before, (mapper r).2 = none) → (mapper row).2 ≠ none →
      post (.ret ([], some ⟨http.StatusInternalServerError, "Failed to scan row"⟩)) c
        (e ++ [Event.query db query args (.ok (before ++ row :: rest))] ++
          (before ++ [row]).map (mapperEvent mapper) ++ [Event.rowsClose]))
    (hok : ∀ c e db rows, (∀ x ∈ e, x.isHealth = true) →
      (∀ r ∈ rows, (mapper r).2 = none) →
      post (.ret (rows.map (fun r => (mapper r).1), none)) c
        (e ++ [Event.query db query args (.ok rows)] ++ rows.map (mapperEvent mapper) ++
          [Event.rowsClose])) :
    (Repository.Get query objectType mapper args).wp env hist crud post := by
  unfold Repository.Get
  simp only [wp_bind]
  apply wp_CheckAndReset
  · intro db e he hl
    simp only []
    apply wp_crudDb _ _ _ _ db rfl
    unfold Query
    simp only [wp_call, wp_bind, List.append_nil]
    intro a _
    cases a with
    | err err =>
      simp only [wp_pure, List.append_nil]
      exact hquery _ _ _ _ he
    | ok rows =>
      simp only [wp_bind]
      apply wp_mapRows
      · intro hall
        simp only [wp_bind, wp_RowsClose, wp_pure, List.append_nil]
        have := hok ⟨some db, false⟩ e db rows he hall
        simpa using this
      · intro before row rest hrows hall hne
        simp only [wp_bind, wp_RowsClose, wp_pure, List.append_nil]
        have := hmap ⟨some db, false⟩ e db before row rest he hall hne
        rw [hrows]
        simpa using this
  · exact hspin
  · exact hfatal

/-- A list splits in one way only at its first element that fails a test. -/
theorem first_failure_unique {α : Type} (p : α → Prop) : ∀ (l1 l2 r1 r2 : List α) (a b : α),
    (∀ x ∈ l1, p x) → (∀ x ∈ l2, p x) → ¬ p a → ¬ p b →
    l1 ++ a :: r1 = l2 ++ b :: r2 → l1 = l2 ∧ a = b ∧ r1 = r2 := by
  intro l1
  induction l1 with
  | nil =>
    intro l2 r1 r2 a b _ h2 ha hb h
    cases l2 with
    | nil => simpa using h
    | cons y l2 =>
      simp only [List.nil_append, List.cons_append, List.cons.injEq] at h
      exact absurd (h.1 ▸ h2 y (by simp)) ha
  | cons x l1 ih =>
    intro l2 r1 r2 a b h1 h2 ha hb h
    cases l2 with
    | nil =>
      simp only [List.nil_append, List.cons_append, List.cons.injEq] at h
      exact absurd (h.1 ▸ h1 x (by simp)) hb
    | cons y l2 =>
      simp only [List.cons_append, List.cons.injEq] at h
      obtain ⟨hxy, hrest⟩ := h
      obtain ⟨h3, h4, h5⟩ := ih l2 r1 r2 a b (fun z hz => h1 z (by simp [hz]))
        (fun z hz => h2 z (by simp [hz])) ha hb hrest
      exact ⟨by rw [hxy, h3], h4, h5⟩

/-- The mapper calls in the trace of a query: those of the row loop. -/
theorem filter_isMapper_query (mapper : RowMapperFunc) (e : List Event) (q : Event)
    (rows : List Row) (tail : List Event)
    (he : ∀ x ∈ e, x.isHealth = true) (hq : q.isMapper = false)
    (ht : ∀ x ∈ tail, x.isMapper = false) :
    (e ++ [q] ++ rows.map (mapperEvent mapper) ++ tail).filter Event.isMapper =
      rows.map (mapperEvent mapper) := by
  have h1 : e.filter Event.isMapper = [] := by
    rw [List.filter_eq_nil_iff]
    intro x hx
    have := he x hx
    cases x <;> simp_all [Event.isHealth, Event.isMapper]
  have h2 : tail.filter Event.isMapper = [] := by
    rw [List.filter_eq_nil_iff]
    intro x hx
    simp [ht x hx]
  have h3 : (rows.map (mapperEvent mapper)).filter Event.isMapper =
      rows.map (mapperEvent mapper) := by
    rw [List.filter_eq_self]
    intro x hx
    obtain ⟨r, _, rfl⟩ := List.mem_map.mp hx
    rfl
  simp [List.filter_append, h1, h2, h3, hq]

/-- One acquire opens one pool. -/
theorem connectRun_count {res : Option Handle} {ev : List Event} (h : ConnectRun res ev) :
    ev.countP Event.isPoolNew = 1 := by
  cases h <;> simp [List.countP_cons, Event.isPoolNew]

/-- The second step of the health check: one ping of the pool, and an acquire after
it exactly when the ping fails. -/
theorem pingRun_shape {db : Handle} {res : Option Handle} {ev : List Event}
    (h : PingRun db res ev) :
    ∃ pingErr rest, ev = Event.ping db pingErr :: rest ∧
      (pingErr = none → rest = []) ∧
      (pingErr ≠ none → ∃ res2, ConnectRun res2 rest) ∧
      ev.countP Event.isPoolNew = (if pingErr = none then 0 else 1) := by
  cases h with
  | healthy => exact ⟨none, [], rfl, fun _ => rfl, fun h => absurd rfl h, rfl⟩
  | stale err res ev2 hc =>
    refine ⟨some err, ev2, rfl, fun h => by simp at h, fun _ => ⟨res, hc⟩, ?_⟩
    simp [List.countP_cons, Event.isPoolNew, connectRun_count hc]

/-- The two steps of the health check, by whether a pool exists. -/
theorem healthRun_shape {crud : crudRepository} {res : Option Handle} {ev : List Event}
    (h : HealthRun crud res ev) :
    (∀ db, crud.db = some db →
      ∃ pingErr rest, ev = Event.ping db pingErr :: rest ∧
        (pingErr = none → rest = []) ∧
        (pingErr ≠ none → ∃ res2, ConnectRun res2 rest) ∧
        ev.countP Event.isPoolNew = (if pingErr = none then 0 else 1)) ∧
    (crud.db = none →
      ∃ res1 ev1 rest, ConnectRun res1 ev1 ∧ ev = ev1 ++ rest ∧
        (res1 = none → rest = []) ∧
        (∀ db, res1 = some db →
          ∃ pingErr rest2, rest = Event.ping db pingErr :: rest2 ∧
            (pingErr = none → rest2 = []) ∧
            (pingErr ≠ none → ∃ res2, ConnectRun res2 rest2) ∧
            ev.countP Event.isPoolNew = (if pingErr = none then 1 else 2))) ∧
    ev.countP Event.isPoolNew ≤ 2 := by
  cases h with
  | ping db0 res ev hd hp =>
    obtain ⟨pingErr, rest, h1, h2, h3, h4⟩ := pingRun_shape hp
    refine ⟨?_, ?_, ?_⟩
    · intro db hdb
      rw [hd] at hdb
      cases hdb
      exact ⟨pingErr, rest, h1, h2, h3, h4⟩
    · intro hnone
      rw [hd] at hnone
      cases hnone
    · rw [h4]
      split <;> omega
  | connectFailed ev hd hc =>
    refine ⟨?_, ?_, ?_⟩
    · intro db hdb
      rw [hd] at hdb
      cases hdb
    · intro _
      exact ⟨none, ev, [], hc, by simp, fun _ => rfl, fun db h => by cases h⟩
    · rw [connectRun_count hc]
      omega
  | connected db1 res ev1 ev2 hd hc hp =>
    obtain ⟨pingErr, rest, h1, h2, h3, h4⟩ := pingRun_shape hp
    have hcount : (ev1 ++ ev2).countP Event.isPoolNew = (if pingErr = none then 1 else 2) := by
      rw [List.countP_append, connectRun_count hc, h4]
      split <;> rfl
    refine ⟨?_, ?_, ?_⟩
    · intro db hdb
      rw [hd] at hdb
      cases hdb
    · intro _
      refine ⟨some db1, ev1, ev2, hc, rfl, fun h => (by cases h), ?_⟩
      intro db hdb
      cases hdb
      exact ⟨pingErr, rest, h1, h2, h3, hcount⟩
    · rw [hcount]
      split <;> omega

/-! ### The REST caller, every transport -/

/-- What one round of the loop does, by the answer of the transport. -/
theorem restLoop_round (transport : Transport) (url body : String) (fuel retries : Nat)
    (hist : List RestEvent) :
    restLoop transport url body (fuel + 1) retries hist =
      match (transport hist url).2 with
      | some restErr =>
        if retries ≥ maxRetries then
          some ⟨finalOutcome body (transport hist url).1 (some restErr),
            hist ++ [RestEvent.get url (transport hist url).1 (some restErr)]⟩
        else
          restLoop transport url body fuel (retries + 1)
            (hist ++ [RestEvent.get url (transport hist url).1 (some restErr)] ++
              [RestEvent.sleep (initialBackoff * (retries + 1))])
      | none =>
        some ⟨finalOutcome body (transport hist url).1 none,
          hist ++ [RestEvent.get url (transport hist url).1 none]⟩ := by
  rcases ht : transport hist url with ⟨resp, restErr⟩
  cases restErr with
  | some e =>
    by_cases hr : retries ≥ maxRetries
    · simp only [restLoop, ht, hr, ↓reduceIte, finalOutcome]
      cases resp <;> rfl
    · simp only [restLoop, ht, hr, ↓reduceIte]
  | none =>
    cases resp with
    | none => simp only [restLoop, ht, finalOutcome]
    | some r =>
      simp only [restLoop, ht, finalOutcome]
      rcases hb : r.Body with _ | (_ | _) <;> simp only [] <;> split <;> rfl

/-- Every run of the loop with enough rounds: the attempts that are retried, each
followed by its sleep, then one last attempt, which decides the outcome. -/
theorem restLoop_shape (transport : Transport) (url body : String) :
    ∀ (n retries fuel : Nat) (hist : List RestEvent), retries + n = 5 → n + 1 ≤ fuel →
      ∃ attempts resp restErr,
        attempts.length ≤ n ∧
        (restErr ≠ none → attempts.length = n) ∧
        (resp, restErr) = transport (hist ++ retryTrace url retries attempts) url ∧
        restLoop transport url body fuel retries hist =
          some ⟨finalOutcome body resp restErr,
            hist ++ retryTrace url retries attempts ++ [RestEvent.get url resp restErr]⟩ := by
  intro n
  induction n with
  | zero =>
    intro retries fuel hist hr hf
    obtain ⟨f, rfl⟩ : ∃ f, fuel = f + 1 := ⟨fuel - 1, by omega⟩
    have hret : retries ≥ maxRetries := by simp [maxRetries]; omega
    refine ⟨[], (transport hist url).1, (transport hist url).2, le_refl _, fun _ => rfl,
      by simp [retryTrace], ?_⟩
    rw [restLoop_round]
    cases h2 : (transport hist url).2 with
    | some e => simp [hret, retryTrace]
    | none => simp [retryTrace]
  | succ n ih =>
    intro retries fuel hist hr hf
    obtain ⟨f, rfl⟩ : ∃ f, fuel = f + 1 := ⟨fuel - 1, by omega⟩
    have hret : ¬ retries ≥ maxRetries := by simp [maxRetries]; omega
    cases h2 : (transport hist url).2 with
    | none =>
      refine ⟨[], (transport hist url).1, none, Nat.zero_le _, fun h => absurd rfl h,
        by simp [retryTrace, ← h2], ?_⟩
      rw [restLoop_round]
      simp [h2, retryTrace]
    | some e =>
      obtain ⟨attempts, resp, restErr, hlen, hfull, hans, hrun⟩ := ih (retries + 1) f
        (hist ++ [RestEvent.get url (transport hist url).1 (some e)] ++
          [RestEvent.sleep (initialBackoff * (retries + 1))]) (by omega) (by omega)
      refine ⟨((transport hist url).1, e) :: attempts, resp, restErr, by simpa using hlen,
        fun h => by simpa using hfull h, ?_, ?_⟩
      · rw [hans]
        simp [retryTrace]
      · rw [restLoop_round]
        simp only [h2, hret, ↓reduceIte]
        rw [hrun]
        simp [retryTrace]

/-- The sleeps of the retried attempts: one second more each time. -/
theorem retryTrace_sleeps (url : String) :
    ∀ (attempts : List (Option Response × GoError)) (retries : Nat),
      (retryTrace url retries attempts).filterMap RestEvent.sleep? =
        (List.range attempts.length).map (fun i => initialBackoff * (retries + i + 1)) := by
  intro attempts
  induction attempts with
  | nil => intro retries; rfl
  | cons a rest ih =>
    intro retries
    rcases a with ⟨resp, restErr⟩
    have hstep : (retryTrace url retries ((resp, restErr) :: rest)).filterMap RestEvent.sleep? =
        initialBackoff * (retries + 1) ::
          (retryTrace url (retries + 1) rest).filterMap RestEvent.sleep? := rfl
    have harith : ∀ i, retries + 1 + i + 1 = retries + (i + 1) + 1 := by intro i; omega
    rw [hstep, ih, List.length_cons, List.range_succ_eq_map, List.map_cons, List.map_map]
    simp only [Function.comp_def, Nat.succ_eq_add_one, harith, Nat.add_zero]

/-- The GETs of the retried attempts: one each. -/
theorem retryTrace_gets (url : String) :
    ∀ (attempts : List (Option Response × GoError)) (retries : Nat),
      (retryTrace url retries attempts).countP RestEvent.isGet = attempts.length := by
  intro attempts
  induction attempts with
  | nil => intro retries; rfl
  | cons a rest ih =>
    intro retries
    rcases a with ⟨resp, restErr⟩
    simp [retryTrace, List.countP_cons, RestEvent.isGet, ih]

/-- Every run of `MakeRestCallToPartner` with at least 6 rounds: at most 5 attempts
that are retried, then the attempt that decides the outcome. -/
theorem MakeRestCallToPartner_shape (transport : Transport) (url params : String) (fuel : Nat)
    (hfuel : 6 ≤ fuel) :
    ∃ attempts resp restErr,
      attempts.length ≤ 5 ∧
      (restErr ≠ none → attempts.length = 5) ∧
      (resp, restErr) =
        transport (retryTrace (url ++ "?" ++ params) 0 attempts) (url ++ "?" ++ params) ∧
      MakeRestCallToPartner transport fuel url params =
        some ⟨finalOutcome "" resp restErr,
          retryTrace (url ++ "?" ++ params) 0 attempts ++
            [RestEvent.get (url ++ "?" ++ params) resp restErr]⟩ := by
  obtain ⟨attempts, resp, restErr, h1, h2, h3, h4⟩ :=
    restLoop_shape transport (url ++ "?" ++ params) "" 5 0 fuel [] rfl hfuel
  exact ⟨attempts, resp, restErr, h1, h2, by simpa using h3, by simpa [MakeRestCallToPartner] using h4⟩

/-- A trace that ends with a response has seen the status code of that response
last. -/
theorem specLastSeenStatusCode_append_response (url : String) (r : Response)
    (restErr : Option GoError) :
    ∀ (events : List RestEvent),
      specLastSeenStatusCode (events ++ [RestEvent.get url (some r) restErr]) = r.StatusCode := by
  intro events
  induction events with
  | nil => simp [specLastSeenStatusCode]
  | cons e rest ih =>
    cases e with
    | sleep d => simpa [specLastSeenStatusCode] using ih
    | get u resp err =>
      cases resp with
      | none => simpa [specLastSeenStatusCode] using ih
      | some r2 =>
        simp only [List.cons_append, specLastSeenStatusCode]
        rw [if_pos (by simp)]
        exact ih

/-- A trace without any response has seen no status code. -/
theorem specLastSeenStatusCode_no_response :
    ∀ (events : List RestEvent),
      (∀ u r err, RestEvent.get u (some r) err ∉ events) → specLastSeenStatusCode events = 0 := by
  intro events
  induction events with
  | nil => intro _; rfl
  | cons e rest ih =>
    intro h
    have hrest := ih (fun u r err hm => h u r err (List.mem_cons_of_mem _ hm))
    cases e with
    | sleep d => simpa [specLastSeenStatusCode] using hrest
    | get u resp err =>
      cases resp with
      | none => simpa [specLastSeenStatusCode] using hrest
      | some r2 => exact absurd (List.mem_cons_self _ _) (h u r2 err)

/-! ### Pagination values and the query extractor -/

/-- A value inside the range of the 64-bit `int` is held as it is. -/
theorem wrapInt64_of_range (x : Int) (h1 : -2 ^ 63 ≤ x) (h2 : x < 2 ^ 63) : wrapInt64 x = x := by
  unfold wrapInt64
  rw [Int.emod_eq_of_lt (by omega) (by omega)]
  omega

/-- The offset, by the page and the limit after their defaults. -/
theorem GetOffset_eq (p : Pagination) :
    p.GetOffset.1 = wrapInt64 (wrapInt64 (p.GetPage.1 - 1) * p.GetLimit.1) ∧
    p.GetOffset.2 = { p with Page := p.GetPage.1, Limit := p.GetLimit.1 } := by
  by_cases h1 : p.Page = 0 <;> by_cases h2 : p.Limit = 0 <;>
    simp [Pagination.GetOffset, Pagination.GetPage, Pagination.GetLimit, h1, h2]

/-- The loop of `StringContains` finds the string exactly when it is in the slice. -/
theorem StringContains_iff (slice : List String) (str : String) :
    StringContains slice str = true ↔ str ∈ slice := by
  induction slice with
  | nil => simp [StringContains]
  | cons item rest ih =>
    unfold StringContains
    by_cases h : item = str
    · simp [h]
    · simp only [h, ↓reduceIte, ih, List.mem_cons]
      constructor
      · intro hm; exact Or.inr hm
      · rintro (hm | hm)
        · exact absurd hm.symm h
        · exact hm

/-- What `Atoi` returns is an `int`. -/
theorem Atoi_range (s : String) :
    -2 ^ 63 ≤ (strconv.Atoi s).1 ∧ (strconv.Atoi s).1 < 2 ^ 63 := by
  unfold strconv.Atoi
  simp only []
  repeat' split
  all_goals first
    | exact ⟨by decide, by decide⟩
    | (rename_i hn
       refine ⟨?_, ?_⟩ <;> simp only [] <;> omega)

/-- The page and the limit that `PaginateQueryExtractor` returns, by what `Atoi`
makes of the two parameters. -/
theorem PaginateQueryExtractor_fields (context : gin.Context) (validSortFields : List String)
    (p : Pagination)
    (h : PaginateQueryExtractor context validSortFields = (some p, none)) :
    p.Page = (if (strconv.Atoi (context.Query "page")).2 = none ∧
        0 < (strconv.Atoi (context.Query "page")).1
      then (strconv.Atoi (context.Query "page")).1 else 1) ∧
    p.Limit = (if (strconv.Atoi (context.Query "per_page")).2 = none ∧
        0 < (strconv.Atoi (context.Query "per_page")).1
      then (strconv.Atoi (context.Query "per_page")).1 else 10) := by
  unfold PaginateQueryExtractor at h
  simp only [] at h
  split at h
  · simp at h
  · simp only [Prod.mk.injEq, Option.some.injEq, and_true] at h
    subst h
    simp only []
    constructor
    · by_cases h1 : (strconv.Atoi (context.Query "page")).2 = none ∧
          0 < (strconv.Atoi (context.Query "page")).1
      · have h2 : ¬ ((strconv.Atoi (context.Query "page")).2 ≠ none ∨
            (strconv.Atoi (context.Query "page")).1 ≤ 0) := by
          rintro (h3 | h3)
          · exact h3 h1.1
          · omega
        rw [if_neg h2, if_pos h1]
      · have h2 : (strconv.Atoi (context.Query "page")).2 ≠ none ∨
            (strconv.Atoi (context.Query "page")).1 ≤ 0 := by
          by_contra h3
          push_neg at h3
          exact h1 ⟨h3.1, h3.2⟩
        rw [if_pos h2, if_neg h1]
    · by_cases h1 : (strconv.Atoi (context.Query "per_page")).2 = none ∧
          0 < (strconv.Atoi (context.Query "per_page")).1
      · have h2 : ¬ ((strconv.Atoi (context.Query "per_page")).2 ≠ none ∨
            (strconv.Atoi (context.Query "per_page")).1 ≤ 0) := by
          rintro (h3 | h3)
          · exact h3 h1.1
          · omega
        rw [if_neg h2, if_pos h1]
      · have h2 : (strconv.Atoi (context.Query "per_page")).2 ≠ none ∨
            (strconv.Atoi (context.Query "per_page")).1 ≤ 0 := by
          by_contra h3
          push_neg at h3
          exact h1 ⟨h3.1, h3.2⟩
        rw [if_pos h2, if_neg h1]

/-- The page and the limit that `PaginateQueryExtractor` returns are positive
values of `int`. -/
theorem PaginateQueryExtractor_bounds (context : gin.Context) (validSortFields : List String)
    (p : Pagination)
    (h : PaginateQueryExtractor context validSortFields = (some p, none)) :
    1 ≤ p.Page ∧ p.Page < 2 ^ 63 ∧ 1 ≤ p.Limit ∧ p.Limit < 2 ^ 63 := by
  obtain ⟨h1, h2⟩ := PaginateQueryExtractor_fields context validSortFields p h
  have r1 := Atoi_range (context.Query "page")
  have r2 := Atoi_range (context.Query "per_page")
  rw [h1, h2]
  refine ⟨?_, ?_, ?_, ?_⟩
  · split
    · rename_i hc; omega
    · decide
  · split
    · exact r1.2
    · decide
  · split
    · rename_i hc; omega
    · decide
  · split
    · exact r2.2
    · decide

/-- The conversion `float64(n)` of an `int` other than 0 is not zero. -/
theorem float64_ne_zero (n : Int) (h0 : n ≠ 0) (hlo : -2 ^ 63 ≤ n) (hhi : n < 2 ^ 63) :
    ∃ m e, float64 n = .finite m e ∧ m ≠ 0 := by
  have h2 : (0 : ℚ) < 2 := by norm_num
  have hpos : 0 < n.natAbs := Int.natAbs_pos.mpr h0
  have hle : n.natAbs ≤ 2 ^ 63 := by omega
  obtain ⟨hb1, hb2⟩ := binade_spec n.natAbs 1 hpos (by decide)
  simp only [Nat.cast_one, div_one] at hb1 hb2
  have hposq : (1 : ℚ) ≤ (n.natAbs : ℚ) := by exact_mod_cast hpos
  have hleq : (n.natAbs : ℚ) ≤ (2 : ℚ) ^ (63 : Int) := by
    rw [show ((63 : Int)) = ((63 : Nat) : Int) from rfl, zpow_natCast]
    exact_mod_cast hle
  have hblo : 0 ≤ binade n.natAbs 1 := by
    have : (2 : ℚ) ^ (0 : Int) < (2 : ℚ) ^ (binade n.natAbs 1 + 1) := by
      rw [zpow_zero]
      exact lt_of_le_of_lt hposq hb2
    have := (two_zpow_lt_iff _ _).mp this
    omega
  have hbhi : binade n.natAbs 1 ≤ 63 := (two_zpow_le_iff _ _).mp (le_trans hb1 hleq)
  obtain ⟨m, hm, hge, _, _⟩ := roundFloat64_spec n.natAbs 1 (by decide) (by omega) (by omega)
  have hm1 : 1 ≤ m := by
    apply hge 1
    simp only [Nat.cast_one, one_mul, div_one]
    by_cases hb : binade n.natAbs 1 ≤ 52
    · calc (2 : ℚ) ^ (binade n.natAbs 1 - 52) ≤ (2 : ℚ) ^ (0 : Int) :=
            (two_zpow_le_iff _ _).mpr (by omega)
        _ = 1 := zpow_zero _
        _ ≤ _ := hposq
    · calc (2 : ℚ) ^ (binade n.natAbs 1 - 52) ≤ (2 : ℚ) ^ (binade n.natAbs 1) :=
            (two_zpow_le_iff _ _).mpr (by omega)
        _ ≤ _ := hb1
  unfold float64
  rw [if_neg h0, hm]
  simp only []
  refine ⟨_, _, rfl, ?_⟩
  split <;> omega

/-! ## Claims -/

/-- C1: every `Delete` call in which the transaction begins and the statement
executes without error reporting 0 affected rows returns nil (success). -/
theorem Delete_zero_rows_returns_nil (k : Constants) (query objectType : String)
    (args : List Value) (env : Env) (hist : List Event) (crud : crudRepository)
    (db : Handle) (tx : Tx)
    (hbegin : Event.begin db (.ok tx) ∈
      (Repository.Delete k query objectType args env hist crud).events)
    (hexec : Event.exec tx query args (.ok 0) ∈
      (Repository.Delete k query objectType args env hist crud).events) :
    (Repository.Delete k query objectType args env hist crud).out = .ret none := by
  revert hbegin hexec
  rw [wp_def (Repository.Delete k query objectType args) env hist crud
    (fun r => Event.begin db (.ok tx) ∈ r.events → Event.exec tx query args (.ok 0) ∈ r.events →
      r.out = .ret none)]
  apply wp_Delete
  · intro _ h; simp at h
  · intro c e he h1; exact absurd h1 (not_mem_of_health he rfl)
  · intro c e db1 err he h1 h2
    have hne : Event.exec tx query args (.ok 0) ∉ e := not_mem_of_health he rfl
    simp [hne] at h2
  · intro c e db1 tx1 err rb he h1 h2
    have hne : Event.exec tx query args (.ok 0) ∉ e := not_mem_of_health he rfl
    simp [hne] at h2
  · intro c e db1 tx1 he h1 h2
    rfl
  · intro c e db1 tx1 n he hn h1 h2
    have hne : Event.exec tx query args (.ok 0) ∉ e := not_mem_of_health he rfl
    simp [hne] at h2
    exact absurd h2.2.symm hn
  · intro c e db1 tx1 n err he hn h1 h2
    have hne : Event.exec tx query args (.ok 0) ∉ e := not_mem_of_health he rfl
    simp [hne] at h2
    exact absurd h2.2.symm hn

/-- Witness of C1: a delete that matches no row, on a driver where every call
succeeds. -/
theorem Delete_zero_rows_returns_nil_witness :
    Event.begin 0 (.ok 7) ∈
      (Repository.Delete sampleConstants "DELETE" "test" [.int 1] (okEnv 0) [] sampleCrud).events ∧
    Event.exec 7 "DELETE" [.int 1] (.ok 0) ∈
      (Repository.Delete sampleConstants "DELETE" "test" [.int 1] (okEnv 0) [] sampleCrud).events ∧
    (Repository.Delete sampleConstants "DELETE" "test" [.int 1] (okEnv 0) [] sampleCrud).out =
      .ret none :=
  ⟨by decide, by decide,
    Delete_zero_rows_returns_nil sampleConstants "DELETE" "test" [.int 1] (okEnv 0) [] sampleCrud
      0 7 (by decide) (by decide)⟩

/-- C2: every `Update` call in which the transaction begins and the statement
executes without error reporting 0 affected rows returns a NotFound error (status
404, the message naming the object kind), and commit is never invoked. -/
theorem Update_zero_rows_returns_NotFound (k : Constants) (query objectType : String)
    (args : List Value) (env : Env) (hist : List Event) (crud : crudRepository)
    (db : Handle) (tx : Tx)
    (hbegin : Event.begin db (.ok tx) ∈
      (Repository.Update k query objectType args env hist crud).events)
    (hexec : Event.exec tx query args (.ok 0) ∈
      (Repository.Update k query objectType args env hist crud).events) :
    (Repository.Update k query objectType args env hist crud).out =
      .ret (some ⟨404, k.NO_ROWS_AFFECTED.before ++ objectType ++ k.NO_ROWS_AFFECTED.after⟩) ∧
    ∀ tx2 err, Event.commit tx2 err ∉
      (Repository.Update k query objectType args env hist crud).events := by
  revert hbegin hexec
  rw [wp_def (Repository.Update k query objectType args) env hist crud
    (fun r => Event.begin db (.ok tx) ∈ r.events → Event.exec tx query args (.ok 0) ∈ r.events →
      r.out = .ret (some ⟨404,
        k.NO_ROWS_AFFECTED.before ++ objectType ++ k.NO_ROWS_AFFECTED.after⟩) ∧
      ∀ tx2 err, Event.commit tx2 err ∉ r.events)]
  apply wp_Update
  · intro _ h; simp at h
  · intro c e he h1; exact absurd h1 (not_mem_of_health he rfl)
  · intro c e db1 err he h1 h2
    have hne : Event.exec tx query args (.ok 0) ∉ e := not_mem_of_health he rfl
    simp [hne] at h2
  · intro c e db1 tx1 err rb he h1 h2
    have hne : Event.exec tx query args (.ok 0) ∉ e := not_mem_of_health he rfl
    simp [hne] at h2
  · intro c e db1 tx1 he h1 h2
    refine ⟨rfl, ?_⟩
    intro tx2 err
    have hne : Event.commit tx2 err ∉ e := not_mem_of_health he rfl
    simp [hne]
  · intro c e db1 tx1 n he hn h1 h2
    have hne : Event.exec tx query args (.ok 0) ∉ e := not_mem_of_health he rfl
    simp [hne] at h2
    exact absurd h2.2.symm hn
  · intro c e db1 tx1 n err he hn h1 h2
    have hne : Event.exec tx query args (.ok 0) ∉ e := not_mem_of_health he rfl
    simp [hne] at h2
    exact absurd h2.2.symm hn

/-- Witness of C2: an update that matches no row. -/
theorem Update_zero_rows_returns_NotFound_witness :
    Event.begin 0 (.ok 7) ∈
      (Repository.Update sampleConstants "UPDATE" "user" [.int 1] (okEnv 0) [] sampleCrud).events ∧
    Event.exec 7 "UPDATE" [.int 1] (.ok 0) ∈
      (Repository.Update sampleConstants "UPDATE" "user" [.int 1] (okEnv 0) [] sampleCrud).events ∧
    (Repository.Update sampleConstants "UPDATE" "user" [.int 1] (okEnv 0) [] sampleCrud).out =
      .ret (some ⟨404, "No user rows affected"⟩) :=
  ⟨by decide, by decide,
    (Update_zero_rows_returns_NotFound sampleConstants "UPDATE" "user" [.int 1] (okEnv 0) []
      sampleCrud 0 7 (by decide) (by decide)).1⟩

/-- C3, amended: every `GetOne` call whose query matches zero rows (`Scan` on the
row handle reports the driver's no-rows error) and whose row mapper returns the
error of that `Scan` as it is, returns a NotFound error (status 404).  Nothing is
asked of the mapper on any other row. -/
theorem GetOne_no_rows_returns_NotFound (k : Constants) (query objectType : String)
    (mapper : RowMapperFunc) (args : List Value) (env : Env) (hist : List Event)
    (crud : crudRepository) (db : Handle) (row : Row)
    (hrow : Event.queryRow db query args row ∈
      (Repository.GetOne k query objectType mapper args env hist crud).events)
    (hnone : row.scan = .err GoError.ErrNoRows)
    (hmapper : ∀ (err : GoError), row.scan = .err err → (mapper row).2 = some err) :
    (Repository.GetOne k query objectType mapper args env hist crud).out =
      .ret (Value.nil, some ⟨404, "No " ++ objectType ++ " found with the given criteria"⟩) := by
  revert hrow
  rw [wp_def (Repository.GetOne k query objectType mapper args) env hist crud
    (fun r => Event.queryRow db query args row ∈ r.events →
      r.out = .ret (Value.nil,
        some ⟨404, "No " ++ objectType ++ " found with the given criteria"⟩))]
  apply wp_GetOne
  · intro _ h; simp at h
  · intro c e he h1; exact absurd h1 (not_mem_of_health he rfl)
  · intro c e db1 row1 he hm h1
    have hne : Event.queryRow db query args row ∉ e := not_mem_of_health he rfl
    simp [hne] at h1
    rw [← h1.2, hmapper _ hnone] at hm
    simp at hm
  · intro c e db1 row1 he hm h1
    rfl
  · intro c e db1 row1 err he hm herr h1
    have hne : Event.queryRow db query args row ∉ e := not_mem_of_health he rfl
    simp [hne] at h1
    rw [← h1.2, hmapper _ hnone] at hm
    simp at hm
    exact absurd hm.symm herr


/-- Witness of C3, amended: no row, and a mapper that returns the no-rows error of
the scan as it is while it wraps every other scan error. -/
theorem GetOne_no_rows_returns_NotFound_witness :
    Event.queryRow 0 "SELECT" [.int 1] ⟨.err GoError.ErrNoRows⟩ ∈
      (Repository.GetOne sampleConstants "SELECT" "user" passNoRowsMapper [.int 1] (okEnv 0) []
        sampleCrud).events ∧
    (⟨.err GoError.ErrNoRows⟩ : Row).scan = .err GoError.ErrNoRows ∧
    (∀ (err : GoError), (⟨.err GoError.ErrNoRows⟩ : Row).scan = .err err →
      (passNoRowsMapper ⟨.err GoError.ErrNoRows⟩).2 = some err) ∧
    (Repository.GetOne sampleConstants "SELECT" "user" passNoRowsMapper [.int 1] (okEnv 0) []
        sampleCrud).out =
      .ret (Value.nil, some ⟨404, "No user found with the given criteria"⟩) :=
  have hmapper : ∀ (err : GoError), (⟨.err GoError.ErrNoRows⟩ : Row).scan = .err err →
      (passNoRowsMapper ⟨.err GoError.ErrNoRows⟩).2 = some err := by
    intro err h
    simp only [Res.err.injEq] at h
    subst h
    rfl
  ⟨by decide, rfl, hmapper,
    GetOne_no_rows_returns_NotFound sampleConstants "SELECT" "user" passNoRowsMapper [.int 1]
      (okEnv 0) [] sampleCrud 0 ⟨.err GoError.ErrNoRows⟩ (by decide) rfl hmapper⟩

/-- Counterexample to C3 as stated: the query matches zero rows and the mapper
wraps the no-rows error of `Scan`; `GetOne` returns ScanFailed (status 500). -/
theorem GetOne_no_rows_wrapping_mapper_ScanFailed :
    Event.queryRow 0 "SELECT" [.int 1] ⟨.err GoError.ErrNoRows⟩ ∈
      (Repository.GetOne sampleConstants "SELECT" "user" wrappingMapper [.int 1] (okEnv 0) []
        sampleCrud).events ∧
    (Repository.GetOne sampleConstants "SELECT" "user" wrappingMapper [.int 1] (okEnv 0) []
        sampleCrud).out =
      .ret (Value.nil, some ⟨500, "Failed to scan row"⟩) := by
  decide

/-- C4: for every identifier value `v`, if the transaction begins, the row of the
statement scans to `v` and the commit succeeds, `Create` returns `(v, nil)`, with
commit invoked exactly once and rollback never. -/
theorem Create_success_returns_id (k : Constants) (query objectType : String)
    (args : List Value) (env : Env) (hist : List Event) (crud : crudRepository)
    (db : Handle) (tx : Tx) (v : Value)
    (hbegin : Event.begin db (.ok tx) ∈
      (Repository.Create k query objectType args env hist crud).events)
    (hscan : Event.txQueryRowScan tx query args (.ok v) ∈
      (Repository.Create k query objectType args env hist crud).events)
    (hcommit : Event.commit tx none ∈
      (Repository.Create k query objectType args env hist crud).events) :
    (Repository.Create k query objectType args env hist crud).out = .ret (v, none) ∧
    (Repository.Create k query objectType args env hist crud).events.countP Event.isCommit = 1 ∧
    (Repository.Create k query objectType args env hist crud).events.countP Event.isRollback = 0 := by
  revert hbegin hscan hcommit
  rw [wp_def (Repository.Create k query objectType args) env hist crud
    (fun r => Event.begin db (.ok tx) ∈ r.events →
      Event.txQueryRowScan tx query args (.ok v) ∈ r.events →
      Event.commit tx none ∈ r.events →
      r.out = .ret (v, none) ∧ r.events.countP Event.isCommit = 1 ∧
      r.events.countP Event.isRollback = 0)]
  apply wp_Create
  · intro _ h; simp at h
  · intro c e he h1; exact absurd h1 (not_mem_of_health he rfl)
  · intro c e db1 err he h1 h2
    have hne : Event.txQueryRowScan tx query args (.ok v) ∉ e := not_mem_of_health he rfl
    simp [hne] at h2
  · intro c e db1 tx1 err rb he h1 h2
    have hne : Event.txQueryRowScan tx query args (.ok v) ∉ e := not_mem_of_health he rfl
    simp [hne] at h2
  · intro c e db1 tx1 id he h1 h2 h3
    have hne : Event.txQueryRowScan tx query args (.ok v) ∉ e := not_mem_of_health he rfl
    have hc : e.countP Event.isCommit = 0 := countP_isCommit_health he
    have hr : e.countP Event.isRollback = 0 := countP_isRollback_health he
    simp [hne] at h2
    simp [h2.2, List.countP_append, hc, hr, List.countP_cons, Event.isCommit, Event.isRollback]
  · intro c e db1 tx1 id err rb he h1 h2 h3
    have hne : Event.commit tx none ∉ e := not_mem_of_health he rfl
    simp [hne] at h3


/-- Witness of C4: the driver returns the identifier 42 and commits. -/
theorem Create_success_returns_id_witness :
    Event.begin 0 (.ok 7) ∈
      (Repository.Create sampleConstants "INSERT" "user" [.int 1] (okEnv 1) [] sampleCrud).events ∧
    Event.txQueryRowScan 7 "INSERT" [.int 1] (.ok (.int64 42)) ∈
      (Repository.Create sampleConstants "INSERT" "user" [.int 1] (okEnv 1) [] sampleCrud).events ∧
    Event.commit 7 none ∈
      (Repository.Create sampleConstants "INSERT" "user" [.int 1] (okEnv 1) [] sampleCrud).events ∧
    (Repository.Create sampleConstants "INSERT" "user" [.int 1] (okEnv 1) [] sampleCrud).out =
      .ret (.int64 42, none) :=
  ⟨by decide, by decide, by decide,
    (Create_success_returns_id sampleConstants "INSERT" "user" [.int 1] (okEnv 1) [] sampleCrud
      0 7 (.int64 42) (by decide) (by decide) (by decide)).1⟩

/-- C5: every `Create` call in which the statement succeeds and the commit fails
returns a non-nil error with the identifier -1 (not the scanned one), and a
rollback is attempted right after the failed commit, whatever that rollback
reports. -/
theorem Create_commit_failure_rolls_back (k : Constants) (query objectType : String)
    (args : List Value) (env : Env) (hist : List Event) (crud : crudRepository)
    (tx : Tx) (v : Value) (cErr : GoError)
    (hscan : Event.txQueryRowScan tx query args (.ok v) ∈
      (Repository.Create k query objectType args env hist crud).events)
    (hcommit : Event.commit tx (some cErr) ∈
      (Repository.Create k query objectType args env hist crud).events) :
    (∃ err, (Repository.Create k query objectType args env hist crud).out =
      .ret (Value.int (-1), some err)) ∧
    (v ≠ Value.int (-1) → ∀ err, (Repository.Create k query objectType args env hist crud).out ≠
      .ret (v, err)) ∧
    ∃ before rbErr, (Repository.Create k query objectType args env hist crud).events =
      before ++ [Event.commit tx (some cErr), Event.rollback tx rbErr] := by
  revert hscan hcommit
  rw [wp_def (Repository.Create k query objectType args) env hist crud
    (fun r => Event.txQueryRowScan tx query args (.ok v) ∈ r.events →
      Event.commit tx (some cErr) ∈ r.events →
      (∃ err, r.out = .ret (Value.int (-1), some err)) ∧
      (v ≠ Value.int (-1) → ∀ err, r.out ≠ .ret (v, err)) ∧
      ∃ before rbErr, r.events = before ++ [Event.commit tx (some cErr), Event.rollback tx rbErr])]
  apply wp_Create
  · intro _ h; simp at h
  · intro c e he h1; exact absurd h1 (not_mem_of_health he rfl)
  · intro c e db1 err he h1 h2
    have hne : Event.commit tx (some cErr) ∉ e := not_mem_of_health he rfl
    simp [hne] at h2
  · intro c e db1 tx1 err rb he h1 h2
    have hne : Event.commit tx (some cErr) ∉ e := not_mem_of_health he rfl
    simp [hne] at h2
  · intro c e db1 tx1 id he h1 h2
    have hne : Event.commit tx (some cErr) ∉ e := not_mem_of_health he rfl
    simp [hne] at h2
  · intro c e db1 tx1 id err rb he h1 h2
    have hne : Event.commit tx (some cErr) ∉ e := not_mem_of_health he rfl
    simp [hne] at h2
    obtain ⟨rfl, rfl⟩ := h2
    refine ⟨⟨_, rfl⟩, ?_, ?_⟩
    · intro hv err2 heq
      simp only [Outcome.ret.injEq, Prod.mk.injEq] at heq
      exact hv heq.1.symm
    · exact ⟨e ++ [Event.begin db1 (.ok tx), Event.txQueryRowScan tx query args (.ok id)], rb,
        by simp⟩

/-- Witness of C5: the commit fails on a created row. -/
theorem Create_commit_failure_rolls_back_witness :
    Event.txQueryRowScan 7 "INSERT" [.int 1] (.ok (.int64 42)) ∈
      (Repository.Create sampleConstants "INSERT" "user" [.int 1] commitFailEnv [] sampleCrud).events ∧
    Event.commit 7 (some (.errorString "commit failed")) ∈
      (Repository.Create sampleConstants "INSERT" "user" [.int 1] commitFailEnv [] sampleCrud).events ∧
    ∃ before rbErr,
      (Repository.Create sampleConstants "INSERT" "user" [.int 1] commitFailEnv [] sampleCrud).events =
        before ++ [Event.commit 7 (some (.errorString "commit failed")), Event.rollback 7 rbErr] :=
  ⟨by decide, by decide,
    (Create_commit_failure_rolls_back sampleConstants "INSERT" "user" [.int 1] commitFailEnv []
      sampleCrud 7 (.int64 42) (.errorString "commit failed") (by decide) (by decide)).2.2⟩

/-- Counterexample to C6 as stated: a `Create` whose commit fails invokes both
commit and rollback on its transaction, and a `Delete` whose statement reports 0
rows invokes neither. -/
theorem transaction_not_always_ended_once :
    (Event.begin 0 (.ok 7) ∈
        (Repository.Create sampleConstants "INSERT" "user" [.int 1] commitFailEnv []
          sampleCrud).events ∧
      (Repository.Create sampleConstants "INSERT" "user" [.int 1] commitFailEnv []
          sampleCrud).events.countP (Event.isCommitOn 7) = 1 ∧
      (Repository.Create sampleConstants "INSERT" "user" [.int 1] commitFailEnv []
          sampleCrud).events.countP (Event.isRollbackOn 7) = 1) ∧
    (Event.begin 0 (.ok 7) ∈
        (Repository.Delete sampleConstants "DELETE" "user" [.int 1] (okEnv 0) []
          sampleCrud).events ∧
      (Repository.Delete sampleConstants "DELETE" "user" [.int 1] (okEnv 0) []
          sampleCrud).events.countP (Event.isCommitOn 7) = 0 ∧
      (Repository.Delete sampleConstants "DELETE" "user" [.int 1] (okEnv 0) []
          sampleCrud).events.countP (Event.isRollbackOn 7) = 0) := by
  decide


/-- C6, amended: in every `Update` and `Delete` call that begins its transaction
and whose statement does not report 0 affected rows, and in every `Create` call
that begins its transaction and whose commit does not fail, exactly one of commit
and rollback is invoked on the transaction, exactly once; in a `Create` call whose
commit fails, that commit is followed by exactly one rollback. -/
theorem transaction_ended_once_unless_zero_rows (k : Constants) (query objectType : String)
    (args : List Value) (env : Env) (hist : List Event) (crud : crudRepository)
    (db : Handle) (tx : Tx) :
    (Event.begin db (.ok tx) ∈ (Repository.Delete k query objectType args env hist crud).events →
      Event.exec tx query args (.ok 0) ∉
        (Repository.Delete k query objectType args env hist crud).events →
      (Repository.Delete k query objectType args env hist crud).events.countP
          (Event.isCommitOn tx) +
        (Repository.Delete k query objectType args env hist crud).events.countP
          (Event.isRollbackOn tx) = 1) ∧
    (Event.begin db (.ok tx) ∈ (Repository.Update k query objectType args env hist crud).events →
      Event.exec tx query args (.ok 0) ∉
        (Repository.Update k query objectType args env hist crud).events →
      (Repository.Update k query objectType args env hist crud).events.countP
          (Event.isCommitOn tx) +
        (Repository.Update k query objectType args env hist crud).events.countP
          (Event.isRollbackOn tx) = 1) ∧
    (Event.begin db (.ok tx) ∈ (Repository.Create k query objectType args env hist crud).events →
      (∀ err, Event.commit tx (some err) ∉
        (Repository.Create k query objectType args env hist crud).events) →
      (Repository.Create k query objectType args env hist crud).events.countP
          (Event.isCommitOn tx) +
        (Repository.Create k query objectType args env hist crud).events.countP
          (Event.isRollbackOn tx) = 1) ∧
    (Event.begin db (.ok tx) ∈ (Repository.Create k query objectType args env hist crud).events →
      ∀ err, Event.commit tx (some err) ∈
        (Repository.Create k query objectType args env hist crud).events →
      (Repository.Create k query objectType args env hist crud).events.countP
          (Event.isCommitOn tx) = 1 ∧
      (Repository.Create k query objectType args env hist crud).events.countP
          (Event.isRollbackOn tx) = 1 ∧
      ∃ before rbErr, (Repository.Create k query objectType args env hist crud).events =
        before ++ [Event.commit tx (some err), Event.rollback tx rbErr]) := by
  refine ⟨?_, ?_, ?_, ?_⟩
  · rw [wp_def (Repository.Delete k query objectType args) env hist crud
      (fun r => Event.begin db (.ok tx) ∈ r.events →
        Event.exec tx query args (.ok 0) ∉ r.events →
        r.events.countP (Event.isCommitOn tx) + r.events.countP (Event.isRollbackOn tx) = 1)]
    apply wp_Delete
    · intro _ h; simp at h
    · intro c e he h1; exact absurd h1 (not_mem_of_health he rfl)
    · intro c e db1 err he h1
      have hne : Event.begin db (.ok tx) ∉ e := not_mem_of_health he rfl
      simp [hne] at h1
    · intro c e db1 tx1 err rb he h1 _
      have hne : Event.begin db (.ok tx) ∉ e := not_mem_of_health he rfl
      simp [hne] at h1
      obtain ⟨rfl, rfl⟩ := h1
      simp [List.countP_append, List.countP_cons, countP_isCommitOn_health _ he,
        countP_isRollbackOn_health _ he, Event.isCommitOn, Event.isRollbackOn]
    · intro c e db1 tx1 he h1 h2
      have hne : Event.begin db (.ok tx) ∉ e := not_mem_of_health he rfl
      simp [hne] at h1
      obtain ⟨rfl, rfl⟩ := h1
      simp at h2
    · intro c e db1 tx1 n he hn h1 _
      have hne : Event.begin db (.ok tx) ∉ e := not_mem_of_health he rfl
      simp [hne] at h1
      obtain ⟨rfl, rfl⟩ := h1
      simp [List.countP_append, List.countP_cons, countP_isCommitOn_health _ he,
        countP_isRollbackOn_health _ he, Event.isCommitOn, Event.isRollbackOn]
    · intro c e db1 tx1 n err he hn h1 _
      have hne : Event.begin db (.ok tx) ∉ e := not_mem_of_health he rfl
      simp [hne] at h1
      obtain ⟨rfl, rfl⟩ := h1
      simp [List.countP_append, List.countP_cons, countP_isCommitOn_health _ he,
        countP_isRollbackOn_health _ he, Event.isCommitOn, Event.isRollbackOn]
  · rw [wp_def (Repository.Update k query objectType args) env hist crud
      (fun r => Event.begin db (.ok tx) ∈ r.events →
        Event.exec tx query args (.ok 0) ∉ r.events →
        r.events.countP (Event.isCommitOn tx) + r.events.countP (Event.isRollbackOn tx) = 1)]
    apply wp_Update
    · intro _ h; simp at h
    · intro c e he h1; exact absurd h1 (not_mem_of_health he rfl)
    · intro c e db1 err he h1
      have hne : Event.begin db (.ok tx) ∉ e := not_mem_of_health he rfl
      simp [hne] at h1
    · intro c e db1 tx1 err rb he h1 _
      have hne : Event.begin db (.ok tx) ∉ e := not_mem_of_health he rfl
      simp [hne] at h1
      obtain ⟨rfl, rfl⟩ := h1
      simp [List.countP_append, List.countP_cons, countP_isCommitOn_health _ he,
        countP_isRollbackOn_health _ he, Event.isCommitOn, Event.isRollbackOn]
    · intro c e db1 tx1 he h1 h2
      have hne : Event.begin db (.ok tx) ∉ e := not_mem_of_health he rfl
      simp [hne] at h1
      obtain ⟨rfl, rfl⟩ := h1
      simp at h2
    · intro c e db1 tx1 n he hn h1 _
      have hne : Event.begin db (.ok tx) ∉ e := not_mem_of_health he rfl
      simp [hne] at h1
      obtain ⟨rfl, rfl⟩ := h1
      simp [List.countP_append, List.countP_cons, countP_isCommitOn_health _ he,
        countP_isRollbackOn_health _ he, Event.isCommitOn, Event.isRollbackOn]
    · intro c e db1 tx1 n err he hn h1 _
      have hne : Event.begin db (.ok tx) ∉ e := not_mem_of_health he rfl
      simp [hne] at h1
      obtain ⟨rfl, rfl⟩ := h1
      simp [List.countP_append, List.countP_cons, countP_isCommitOn_health _ he,
        countP_isRollbackOn_health _ he, Event.isCommitOn, Event.isRollbackOn]
  · rw [wp_def (Repository.Create k query objectType args) env hist crud
      (fun r => Event.begin db (.ok tx) ∈ r.events →
        (∀ err, Event.commit tx (some err) ∉ r.events) →
        r.events.countP (Event.isCommitOn tx) + r.events.countP (Event.isRollbackOn tx) = 1)]
    apply wp_Create
    · intro _ h; simp at h
    · intro c e he h1; exact absurd h1 (not_mem_of_health he rfl)
    · intro c e db1 err he h1
      have hne : Event.begin db (.ok tx) ∉ e := not_mem_of_health he rfl
      simp [hne] at h1
    · intro c e db1 tx1 err rb he h1 _
      have hne : Event.begin db (.ok tx) ∉ e := not_mem_of_health he rfl
      simp [hne] at h1
      obtain ⟨rfl, rfl⟩ := h1
      simp [List.countP_append, List.countP_cons, countP_isCommitOn_health _ he,
        countP_isRollbackOn_health _ he, Event.isCommitOn, Event.isRollbackOn]
    · intro c e db1 tx1 id he h1 _
      have hne : Event.begin db (.ok tx) ∉ e := not_mem_of_health he rfl
      simp [hne] at h1
      obtain ⟨rfl, rfl⟩ := h1
      simp [List.countP_append, List.countP_cons, countP_isCommitOn_health _ he,
        countP_isRollbackOn_health _ he, Event.isCommitOn, Event.isRollbackOn]
    · intro c e db1 tx1 id err rb he h1 h2
      have hne : Event.begin db (.ok tx) ∉ e := not_mem_of_health he rfl
      simp [hne] at h1
      obtain ⟨rfl, rfl⟩ := h1
      exact absurd (by simp) (h2 err)
  · rw [wp_def (Repository.Create k query objectType args) env hist crud
      (fun r => Event.begin db (.ok tx) ∈ r.events →
        ∀ err, Event.commit tx (some err) ∈ r.events →
        r.events.countP (Event.isCommitOn tx) = 1 ∧
        r.events.countP (Event.isRollbackOn tx) = 1 ∧
        ∃ before rbErr, r.events =
          before ++ [Event.commit tx (some err), Event.rollback tx rbErr])]
    apply wp_Create
    · intro _ h; simp at h
    · intro c e he h1; exact absurd h1 (not_mem_of_health he rfl)
    · intro c e db1 err he h1
      have hne : Event.begin db (.ok tx) ∉ e := not_mem_of_health he rfl
      simp [hne] at h1
    · intro c e db1 tx1 err rb he h1 err2 h2
      have hne : Event.commit tx (some err2) ∉ e := not_mem_of_health he rfl
      simp [hne] at h2
    · intro c e db1 tx1 id he h1 err2 h2
      have hne : Event.commit tx (some err2) ∉ e := not_mem_of_health he rfl
      simp [hne] at h2
    · intro c e db1 tx1 id err rb he h1 err2 h2
      have hne : Event.commit tx (some err2) ∉ e := not_mem_of_health he rfl
      simp [hne] at h2
      obtain ⟨rfl, rfl⟩ := h2
      refine ⟨?_, ?_, ?_⟩
      · simp [List.countP_append, List.countP_cons, countP_isCommitOn_health _ he,
          Event.isCommitOn]
      · simp [List.countP_append, List.countP_cons, countP_isRollbackOn_health _ he,
          Event.isRollbackOn]
      · exact ⟨e ++ [Event.begin db1 (.ok tx), Event.txQueryRowScan tx query args (.ok id)], rb,
          by simp⟩

/-- Witness of C6, amended: a delete of one row. -/
theorem transaction_ended_once_unless_zero_rows_witness :
    Event.begin 0 (.ok 7) ∈
      (Repository.Delete sampleConstants "DELETE" "user" [.int 1] (okEnv 1) [] sampleCrud).events ∧
    Event.exec 7 "DELETE" [.int 1] (.ok 0) ∉
      (Repository.Delete sampleConstants "DELETE" "user" [.int 1] (okEnv 1) [] sampleCrud).events ∧
    (Repository.Delete sampleConstants "DELETE" "user" [.int 1] (okEnv 1) [] sampleCrud).events.countP
        (Event.isCommitOn 7) +
      (Repository.Delete sampleConstants "DELETE" "user" [.int 1] (okEnv 1) []
        sampleCrud).events.countP (Event.isRollbackOn 7) = 1 :=
  ⟨by decide, by decide,
    (transaction_ended_once_unless_zero_rows sampleConstants "DELETE" "user" [.int 1] (okEnv 1) []
      sampleCrud 0 7).1 (by decide) (by decide)⟩

/-- C7: with a transport that fails on every attempt, `MakeRestCallToPartner`
(`maxRetries` = 5) makes exactly 6 GET attempts and then returns the non-nil error
of exhausted retries, whatever number of rounds at least 6 its loop is given. -/
theorem MakeRestCallToPartner_six_attempts (transport : Transport) (url params : String)
    (fuel : Nat) (hfail : ∀ hist url, (transport hist url).2 ≠ none) (hfuel : 6 ≤ fuel) :
    ∃ run, MakeRestCallToPartner transport fuel url params = some run ∧
      run.events.countP RestEvent.isGet = 6 ∧
      ∃ resp restErr,
        run.events.getLast? = some (RestEvent.get (url ++ "?" ++ params) resp (some restErr)) ∧
        run.out = .ret (some {
          Message := "Failed to make GET request after retries -> " ++ restErr.Error,
          StatusCode := lastStatusCode resp }) := by
  obtain ⟨run, hrun, hcount, hlast⟩ :=
    restLoop_failing transport (url ++ "?" ++ params) "" hfail 5 0 fuel [] rfl hfuel
  exact ⟨run, hrun, by simpa using hcount, hlast⟩

/-- Witness of C7: a transport that refuses every connection. -/
theorem MakeRestCallToPartner_six_attempts_witness :
    (∀ hist url, (failingTransport hist url).2 ≠ none) ∧ 6 ≤ 6 ∧
    ∃ run, MakeRestCallToPartner failingTransport 6 "http://partner" "a=1" = some run ∧
      run.events.countP RestEvent.isGet = 6 ∧
      ∃ resp restErr,
        run.events.getLast? =
          some (RestEvent.get ("http://partner" ++ "?" ++ "a=1") resp (some restErr)) ∧
        run.out = .ret (some {
          Message := "Failed to make GET request after retries -> " ++ restErr.Error,
          StatusCode := lastStatusCode resp }) :=
  ⟨by intro hist url; simp [failingTransport], by decide,
    MakeRestCallToPartner_six_attempts failingTransport "http://partner" "a=1" 6
      (by intro hist url; simp [failingTransport]) (by decide)⟩

/-- C8, at the failing input: the transport answers the first attempt with status
500 and the body "boom"; `MakeRestCallToPartner` makes no further attempt and
returns an error with status 500 whose message is the bare prefix, without the
body: the body is read into a variable local to the `if` block, and the message
is built from the outer `body`, which is never assigned. -/
theorem MakeRestCallToPartner_drops_body :
    MakeRestCallToPartner boomTransport 6 "http://partner" "a=1" =
      some ⟨.ret (some { Message := "Received non-OK HTTP status: ", StatusCode := 500 }),
        [RestEvent.get "http://partner?a=1" (some ⟨500, some (.ok "boom")⟩) none]⟩ := by
  decide

/-- Counterexample to C9 as stated: a successful call with the count `2 ^ 53 + 1`
and the limit 1 stores `TotalPages = 2 ^ 53`, which is not the ceiling of
`totalRows / L`: `float64(totalRows)` rounds the count to 53 bits. -/
theorem GetWithPagination_totalPages_inexact :
    (Repository.GetWithPagination sampleConstants 0 "COUNT" "user" "SELECT" plainMapper
        ⟨1, 1, "", 0, 0, none⟩ [] bigCountEnv [] sampleCrud).out =
      .ret ⟨⟨1, 1, "", 9007199254740993, 9007199254740992, some [.int64 1]⟩,
        some ⟨1, 1, "", 9007199254740993, 9007199254740992, some [.int64 1]⟩, none⟩ ∧
    Event.queryRowScanInt64 0 "COUNT" [] (.ok 9007199254740993) ∈
      (Repository.GetWithPagination sampleConstants 0 "COUNT" "user" "SELECT" plainMapper
        ⟨1, 1, "", 0, 0, none⟩ [] bigCountEnv [] sampleCrud).events ∧
    (9007199254740992 : Int) ≠
      ⌈((9007199254740993 : Int) : ℚ) /
        (((⟨1, 1, "", 0, 0, none⟩ : utils.Pagination).GetLimit.1 : Int) : ℚ)⌉ := by
  refine ⟨?_, ?_, ?_⟩
  · set_option maxRecDepth 100000 in decide
  · set_option maxRecDepth 100000 in decide
  · have hL : (⟨1, 1, "", 0, 0, none⟩ : utils.Pagination).GetLimit.1 = 1 := by decide
    rw [hL, Int.cast_one, div_one, Int.ceil_intCast]
    decide

/-- C9, amended: for every successful `GetWithPagination` call with count result
`0 ≤ totalRows ≤ 2 ^ 53` and effective limit `L = pagination.GetLimit() > 0` (a
64-bit `int`; 10 when `Limit` is unset), the stored `TotalPages` is the exact
ceiling of `totalRows / L`, `TotalRows` is `totalRows` and the caller's value is
returned. -/
theorem GetWithPagination_totalPages (k : Constants) (undef : Int)
    (countSQL objectType finalSQL : String) (mapper : RowMapperFunc) (pagination : Pagination)
    (args : List Value) (env : Env) (hist : List Event) (crud : crudRepository)
    (db : Handle) (totalRows : Int) (res : Repository.PaginationResult)
    (hout : (Repository.GetWithPagination k undef countSQL objectType finalSQL mapper pagination
      args env hist crud).out = .ret res)
    (herr : res.err = none)
    (hcount : Event.queryRowScanInt64 db countSQL [] (.ok totalRows) ∈
      (Repository.GetWithPagination k undef countSQL objectType finalSQL mapper pagination
        args env hist crud).events)
    (h0 : 0 ≤ totalRows) (h53 : totalRows ≤ 2 ^ 53)
    (hL : 0 < pagination.GetLimit.1) (hL63 : pagination.GetLimit.1 < 2 ^ 63) :
    res.pagination.TotalPages = ⌈(totalRows : ℚ) / (pagination.GetLimit.1 : ℚ)⌉ ∧
    res.pagination.TotalRows = totalRows ∧
    res.returned = some res.pagination ∧
    (pagination.Limit = 0 → pagination.GetLimit.1 = 10) := by
  refine ⟨?_, ?_, ?_, ?_⟩
  rotate_left 3
  · intro h
    simp [Pagination.GetLimit, h]
  all_goals
    revert hout herr hcount
    rw [wp_def (Repository.GetWithPagination k undef countSQL objectType finalSQL mapper
      pagination args) env hist crud
      (fun r => r.out = .ret res → res.err = none →
        Event.queryRowScanInt64 db countSQL [] (.ok totalRows) ∈ r.events → _)]
    apply wp_GetWithPagination
    · intro _ h; simp at h
    · intro c e he h; simp at h
    · intro c e db1 err he h1 h2
      simp only [Outcome.ret.injEq] at h1
      rw [← h1] at h2
      simp at h2
    · intro c e db1 before row rest he hall hne h1 h2
      simp only [Outcome.ret.injEq] at h1
      rw [← h1] at h2
      simp at h2
    · intro c e db1 rows err he hall h1 h2
      simp only [Outcome.ret.injEq] at h1
      rw [← h1] at h2
      simp at h2
    · intro c e db1 rows totalRows1 he hall h1 _ h3
      have hne : Event.queryRowScanInt64 db countSQL [] (.ok totalRows) ∉ e :=
        not_mem_of_health he rfl
      simp [hne, mapperEvent] at h3
      obtain ⟨_, rfl⟩ := h3
      simp only [Outcome.ret.injEq] at h1
      rw [← h1]
      try exact float64_ceil_div undef totalRows _ h0 h53 hL hL63


/-- Witness of C9, amended: the query yields 1 row, the count is 1 and `Limit` is
unset: `TotalPages` is 1. -/
theorem GetWithPagination_totalPages_witness :
    (Repository.GetWithPagination sampleConstants 0 "COUNT" "test" "SELECT" plainMapper
        zeroPagination [.int 1] (okEnv 1) [] sampleCrud).out =
      .ret ⟨⟨10, 0, "", 1, 1, some [.int64 1]⟩, some ⟨10, 0, "", 1, 1, some [.int64 1]⟩, none⟩ ∧
    (0 : Int) < zeroPagination.GetLimit.1 ∧
    (1 : Int) = ⌈((1 : Int) : ℚ) / ((zeroPagination.GetLimit.1 : Int) : ℚ)⌉ :=
  ⟨by decide, by decide,
    (GetWithPagination_totalPages sampleConstants 0 "COUNT" "test" "SELECT" plainMapper
      zeroPagination [.int 1] (okEnv 1) [] sampleCrud 0 1
      ⟨⟨10, 0, "", 1, 1, some [.int64 1]⟩, some ⟨10, 0, "", 1, 1, some [.int64 1]⟩, none⟩
      (by decide) rfl (by decide) (by decide) (by decide) (by decide) (by decide)).1⟩

/-- C10: when a pool exists and its ping succeeds, `CheckAndResetDBConnection`
opens no pool and leaves the fields unchanged (and returns, past the busy-wait);
two calls in sequence in which every ping succeeds open at most one pool in
total, and the second call opens none, leaves the fields unchanged and returns. -/
theorem CheckAndReset_healthy_no_acquire (env : Env) (hist : List Event)
    (crud : crudRepository) :
    (∀ db, crud.db = some db → env.ping hist db = none →
      (∀ res, Event.poolNew res ∉ (Repository.CheckAndResetDBConnection env hist crud).events) ∧
      (Repository.CheckAndResetDBConnection env hist crud).crud = crud ∧
      (crud.lock = false →
        (Repository.CheckAndResetDBConnection env hist crud).out = .ret ())) ∧
    ((Repository.CheckAndResetDBConnection env hist crud).out = .ret () →
      (∀ d err, Event.ping d err ∈
        (Repository.CheckAndResetDBConnection env hist crud).events ++
          (Repository.secondCheck env hist crud).events → err = none) →
      ((Repository.CheckAndResetDBConnection env hist crud).events ++
          (Repository.secondCheck env hist crud).events).countP Event.isPoolNew ≤ 1 ∧
      (Repository.secondCheck env hist crud).events.countP Event.isPoolNew = 0 ∧
      (Repository.secondCheck env hist crud).crud =
        (Repository.CheckAndResetDBConnection env hist crud).crud ∧
      (Repository.secondCheck env hist crud).out = .ret ()) := by
  unfold Repository.secondCheck
  constructor
  · intro db hdb hping
    cases hlock : crud.lock
    · rw [CheckAndReset_healthy env hist crud db hdb hlock hping]
      simp
    · rw [CheckAndReset_spinning env hist crud hlock]
      simp
  · rw [wp_def Repository.CheckAndResetDBConnection env hist crud
      (fun r => r.out = .ret () →
        (∀ d err, Event.ping d err ∈
          r.events ++ (Repository.CheckAndResetDBConnection env (hist ++ r.events) r.crud).events →
          err = none) →
        (r.events ++ (Repository.CheckAndResetDBConnection env (hist ++ r.events)
          r.crud).events).countP Event.isPoolNew ≤ 1 ∧
        (Repository.CheckAndResetDBConnection env (hist ++ r.events) r.crud).events.countP
          Event.isPoolNew = 0 ∧
        (Repository.CheckAndResetDBConnection env (hist ++ r.events) r.crud).crud = r.crud ∧
        (Repository.CheckAndResetDBConnection env (hist ++ r.events) r.crud).out = .ret ())]
    apply wp_CheckAndReset_exact
    · intro _ h
      simp at h
    · intro db ev hlock hrun _ hpings
      simp only at hpings ⊢
      have hfirst := CheckAndReset_first_ping env (hist ++ ev) ⟨some db, false⟩ db rfl rfl
      have hok : env.ping (hist ++ ev) db = none :=
        hpings db _ (List.mem_append_right _ hfirst)
      rw [CheckAndReset_healthy env (hist ++ ev) ⟨some db, false⟩ db rfl rfl hok]
      have h1 := healthRun_acquires_le_one crud db ev hrun
        (fun d err hmem => hpings d err (List.mem_append_left _ hmem))
      simp [List.countP_append, List.countP_cons, Event.isPoolNew]
      exact h1
    · intro c ev _ _ h
      simp at h


/-- Witness of C10: two calls in sequence on a repository without a pool, with a
driver on which every call succeeds; the first call opens one pool. -/
theorem CheckAndReset_healthy_no_acquire_witness :
    (Repository.CheckAndResetDBConnection (okEnv 0) [] nilCrud).out = .ret () ∧
    (∀ d err, Event.ping d err ∈
      (Repository.CheckAndResetDBConnection (okEnv 0) [] nilCrud).events ++
        (Repository.secondCheck (okEnv 0) [] nilCrud).events → err = none) ∧
    ((Repository.CheckAndResetDBConnection (okEnv 0) [] nilCrud).events ++
        (Repository.secondCheck (okEnv 0) [] nilCrud).events).countP Event.isPoolNew ≤ 1 ∧
    (Repository.secondCheck (okEnv 0) [] nilCrud).events.countP Event.isPoolNew = 0 ∧
    (Repository.secondCheck (okEnv 0) [] nilCrud).crud =
      (Repository.CheckAndResetDBConnection (okEnv 0) [] nilCrud).crud ∧
    (Repository.secondCheck (okEnv 0) [] nilCrud).out = .ret () :=
  have hev : (Repository.CheckAndResetDBConnection (okEnv 0) [] nilCrud).events ++
      (Repository.secondCheck (okEnv 0) [] nilCrud).events =
      [Event.poolNew (.ok 1), Event.ping 1 none, Event.ping 1 none, Event.ping 1 none] := by
    decide
  have hpings : ∀ d err, Event.ping d err ∈
      (Repository.CheckAndResetDBConnection (okEnv 0) [] nilCrud).events ++
        (Repository.secondCheck (okEnv 0) [] nilCrud).events → err = none := by
    intro d err h
    rw [hev] at h
    simp at h
    exact h.2
  ⟨by decide, hpings,
    (CheckAndReset_healthy_no_acquire (okEnv 0) [] nilCrud).2 (by decide) hpings⟩

/-- C11, at the failing input: two goroutines enter `CheckAndResetDBConnection` on
the same repository while its pool is stale, and step in turn.  Both leave the
busy-wait before either sets the flag and both find the ping failing; then both
stand between `crud.lock = true` and `crud.lock = false` at the same time, and
each opens a new pool: two replacements for two callers, not one. -/
theorem concurrent_callers_replace_twice :
    (World.run staleEnv [0, 1, 0, 1, 0, 1, 0, 1] twoCallers).pcs.countP Pc.replacing = 2 ∧
    (World.run staleEnv [0, 1, 0, 1, 0, 1, 0, 1, 0, 1, 0, 1] twoCallers).pcs =
      [Pc.done, Pc.done] ∧
    (World.run staleEnv [0, 1, 0, 1, 0, 1, 0, 1, 0, 1, 0, 1] twoCallers).hist.countP
      Event.isPoolNew = 2 := by
  decide

/-- C12: in every `Delete`, `Update` and `Create` call whose statement fails (the
`Exec`, or for `Create` the scan of the returned row) a rollback is invoked exactly
once, on the transaction of the statement, commit is never invoked, and the call
returns a non-nil error with status 500; `Create` returns the identifier -1 with
it. -/
theorem statement_failure_rolls_back (k : Constants) (query objectType : String)
    (args : List Value) (env : Env) (hist : List Event) (crud : crudRepository)
    (tx : Tx) (err : GoError) :
    (Event.exec tx query args (.err err) ∈
        (Repository.Delete k query objectType args env hist crud).events →
      (Repository.Delete k query objectType args env hist crud).events.countP
        (Event.isRollbackOn tx) = 1 ∧
      (Repository.Delete k query objectType args env hist crud).events.countP
        Event.isRollback = 1 ∧
      (Repository.Delete k query objectType args env hist crud).events.countP
        Event.isCommit = 0 ∧
      (Repository.Delete k query objectType args env hist crud).out =
        .ret (some ⟨500, Sprintf k.FAILED_TO_UPDATE_OBJ objectType⟩)) ∧
    (Event.exec tx query args (.err err) ∈
        (Repository.Update k query objectType args env hist crud).events →
      (Repository.Update k query objectType args env hist crud).events.countP
        (Event.isRollbackOn tx) = 1 ∧
      (Repository.Update k query objectType args env hist crud).events.countP
        Event.isRollback = 1 ∧
      (Repository.Update k query objectType args env hist crud).events.countP
        Event.isCommit = 0 ∧
      (Repository.Update k query objectType args env hist crud).out =
        .ret (some ⟨500, Sprintf k.FAILED_TO_UPDATE_OBJ objectType⟩)) ∧
    (Event.txQueryRowScan tx query args (.err err) ∈
        (Repository.Create k query objectType args env hist crud).events →
      (Repository.Create k query objectType args env hist crud).events.countP
        (Event.isRollbackOn tx) = 1 ∧
      (Repository.Create k query objectType args env hist crud).events.countP
        Event.isRollback = 1 ∧
      (Repository.Create k query objectType args env hist crud).events.countP
        Event.isCommit = 0 ∧
      (Repository.Create k query objectType args env hist crud).out =
        .ret (Value.int (-1), some ⟨500, Sprintf k.FAILED_TO_CREATE_OBJ objectType⟩)) := by
  refine ⟨?_, ?_, ?_⟩
  · intro h
    obtain ⟨hout, e, db, rb, he, hev⟩ := Delete_exec_failed k query objectType args env hist crud tx err h
    rw [hev]
    obtain ⟨h1, h2, h3⟩ := counts_of_rolled_back e (Event.begin db (.ok tx))
      (Event.exec tx query args (.err err)) tx rb he ⟨rfl, rfl⟩ ⟨rfl, rfl⟩
    exact ⟨h1, h2, h3, hout⟩
  · intro h
    obtain ⟨hout, e, db, rb, he, hev⟩ := Update_exec_failed k query objectType args env hist crud tx err h
    rw [hev]
    obtain ⟨h1, h2, h3⟩ := counts_of_rolled_back e (Event.begin db (.ok tx))
      (Event.exec tx query args (.err err)) tx rb he ⟨rfl, rfl⟩ ⟨rfl, rfl⟩
    exact ⟨h1, h2, h3, hout⟩
  · intro h
    obtain ⟨hout, e, db, rb, he, hev⟩ := Create_scan_failed k query objectType args env hist crud tx err h
    rw [hev]
    obtain ⟨h1, h2, h3⟩ := counts_of_rolled_back e (Event.begin db (.ok tx))
      (Event.txQueryRowScan tx query args (.err err)) tx rb he ⟨rfl, rfl⟩ ⟨rfl, rfl⟩
    exact ⟨h1, h2, h3, hout⟩

/-- Witness of C12: a delete whose statement fails. -/
theorem statement_failure_rolls_back_witness :
    Event.exec 7 "DELETE" [.int 1] (.err (.errorString "some error")) ∈
      (Repository.Delete sampleConstants "DELETE" "test" [.int 1] execFailEnv [] sampleCrud).events ∧
    (Repository.Delete sampleConstants "DELETE" "test" [.int 1] execFailEnv [] sampleCrud).events.countP
        (Event.isRollbackOn 7) = 1 ∧
    (Repository.Delete sampleConstants "DELETE" "test" [.int 1] execFailEnv [] sampleCrud).events.countP
        Event.isRollback = 1 ∧
    (Repository.Delete sampleConstants "DELETE" "test" [.int 1] execFailEnv [] sampleCrud).events.countP
        Event.isCommit = 0 ∧
    (Repository.Delete sampleConstants "DELETE" "test" [.int 1] execFailEnv [] sampleCrud).out =
      .ret (some ⟨500, "Failed to update test"⟩) :=
  ⟨by decide,
    (statement_failure_rolls_back sampleConstants "DELETE" "test" [.int 1] execFailEnv [] sampleCrud
      7 (.errorString "some error")).1 (by decide)⟩

/-- C13: for `Delete`, `Update` and `Create`, a call whose statement fails and whose
rollback succeeds and a call whose statement fails and whose rollback fails return
the same error (status code and message; for `Create` also the same identifier):
the failure of the rollback does not change what is returned. -/
theorem rollback_failure_keeps_error (k : Constants) (query objectType : String)
    (args : List Value) (env1 env2 : Env) (hist1 hist2 : List Event)
    (crud1 crud2 : crudRepository) (tx1 tx2 : Tx) (err1 err2 rbErr : GoError) :
    (Event.exec tx1 query args (.err err1) ∈
        (Repository.Delete k query objectType args env1 hist1 crud1).events →
      Event.rollback tx1 none ∈
        (Repository.Delete k query objectType args env1 hist1 crud1).events →
      Event.exec tx2 query args (.err err2) ∈
        (Repository.Delete k query objectType args env2 hist2 crud2).events →
      Event.rollback tx2 (some rbErr) ∈
        (Repository.Delete k query objectType args env2 hist2 crud2).events →
      (Repository.Delete k query objectType args env1 hist1 crud1).out =
        (Repository.Delete k query objectType args env2 hist2 crud2).out) ∧
    (Event.exec tx1 query args (.err err1) ∈
        (Repository.Update k query objectType args env1 hist1 crud1).events →
      Event.rollback tx1 none ∈
        (Repository.Update k query objectType args env1 hist1 crud1).events →
      Event.exec tx2 query args (.err err2) ∈
        (Repository.Update k query objectType args env2 hist2 crud2).events →
      Event.rollback tx2 (some rbErr) ∈
        (Repository.Update k query objectType args env2 hist2 crud2).events →
      (Repository.Update k query objectType args env1 hist1 crud1).out =
        (Repository.Update k query objectType args env2 hist2 crud2).out) ∧
    (Event.txQueryRowScan tx1 query args (.err err1) ∈
        (Repository.Create k query objectType args env1 hist1 crud1).events →
      Event.rollback tx1 none ∈
        (Repository.Create k query objectType args env1 hist1 crud1).events →
      Event.txQueryRowScan tx2 query args (.err err2) ∈
        (Repository.Create k query objectType args env2 hist2 crud2).events →
      Event.rollback tx2 (some rbErr) ∈
        (Repository.Create k query objectType args env2 hist2 crud2).events →
      (Repository.Create k query objectType args env1 hist1 crud1).out =
        (Repository.Create k query objectType args env2 hist2 crud2).out) := by
  refine ⟨?_, ?_, ?_⟩
  · intro h1 _ h2 _
    rw [(Delete_exec_failed k query objectType args env1 hist1 crud1 tx1 err1 h1).1,
      (Delete_exec_failed k query objectType args env2 hist2 crud2 tx2 err2 h2).1]
  · intro h1 _ h2 _
    rw [(Update_exec_failed k query objectType args env1 hist1 crud1 tx1 err1 h1).1,
      (Update_exec_failed k query objectType args env2 hist2 crud2 tx2 err2 h2).1]
  · intro h1 _ h2 _
    rw [(Create_scan_failed k query objectType args env1 hist1 crud1 tx1 err1 h1).1,
      (Create_scan_failed k query objectType args env2 hist2 crud2 tx2 err2 h2).1]

/-- Witness of C13: a delete whose statement fails, once with a rollback that
succeeds and once with a rollback that fails. -/
theorem rollback_failure_keeps_error_witness :
    Event.exec 7 "DELETE" [.int 1] (.err (.errorString "some error")) ∈
      (Repository.Delete sampleConstants "DELETE" "test" [.int 1] execFailEnv [] sampleCrud).events ∧
    Event.rollback 7 none ∈
      (Repository.Delete sampleConstants "DELETE" "test" [.int 1] execFailEnv [] sampleCrud).events ∧
    Event.exec 7 "DELETE" [.int 1] (.err (.errorString "some error")) ∈
      (Repository.Delete sampleConstants "DELETE" "test" [.int 1] rollbackFailEnv []
        sampleCrud).events ∧
    Event.rollback 7 (some (.errorString "some error")) ∈
      (Repository.Delete sampleConstants "DELETE" "test" [.int 1] rollbackFailEnv []
        sampleCrud).events ∧
    (Repository.Delete sampleConstants "DELETE" "test" [.int 1] execFailEnv [] sampleCrud).out =
      (Repository.Delete sampleConstants "DELETE" "test" [.int 1] rollbackFailEnv []
        sampleCrud).out :=
  ⟨by decide, by decide, by decide, by decide,
    (rollback_failure_keeps_error sampleConstants "DELETE" "test" [.int 1] execFailEnv
      rollbackFailEnv [] [] sampleCrud sampleCrud 7 7 (.errorString "some error")
      (.errorString "some error") (.errorString "some error")).1
      (by decide) (by decide) (by decide) (by decide)⟩

/-- C14: in every `Delete` and `Update` call whose statement succeeds with an
affected-row count above 0, commit is invoked exactly once (and rollback never); the
call returns nil exactly when that commit succeeds, and the status-500 error whose
message is `COMMIT_FAILED` with the object kind interpolated exactly when it
fails. -/
theorem affected_rows_commit_once (k : Constants) (query objectType : String)
    (args : List Value) (env : Env) (hist : List Event) (crud : crudRepository)
    (tx : Tx) (n : Int) (hn : 0 < n) :
    (Event.exec tx query args (.ok n) ∈
        (Repository.Delete k query objectType args env hist crud).events →
      (Repository.Delete k query objectType args env hist crud).events.countP Event.isCommit = 1 ∧
      (Repository.Delete k query objectType args env hist crud).events.countP
        (Event.isCommitOn tx) = 1 ∧
      (Repository.Delete k query objectType args env hist crud).events.countP
        Event.isRollback = 0 ∧
      ((Repository.Delete k query objectType args env hist crud).out = .ret none ↔
        Event.commit tx none ∈
          (Repository.Delete k query objectType args env hist crud).events) ∧
      ((Repository.Delete k query objectType args env hist crud).out =
          .ret (some ⟨500, k.COMMIT_FAILED.before ++ objectType ++ k.COMMIT_FAILED.after⟩) ↔
        ∃ err, Event.commit tx (some err) ∈
          (Repository.Delete k query objectType args env hist crud).events)) ∧
    (Event.exec tx query args (.ok n) ∈
        (Repository.Update k query objectType args env hist crud).events →
      (Repository.Update k query objectType args env hist crud).events.countP Event.isCommit = 1 ∧
      (Repository.Update k query objectType args env hist crud).events.countP
        (Event.isCommitOn tx) = 1 ∧
      (Repository.Update k query objectType args env hist crud).events.countP
        Event.isRollback = 0 ∧
      ((Repository.Update k query objectType args env hist crud).out = .ret none ↔
        Event.commit tx none ∈
          (Repository.Update k query objectType args env hist crud).events) ∧
      ((Repository.Update k query objectType args env hist crud).out =
          .ret (some ⟨500, k.COMMIT_FAILED.before ++ objectType ++ k.COMMIT_FAILED.after⟩) ↔
        ∃ err, Event.commit tx (some err) ∈
          (Repository.Update k query objectType args env hist crud).events)) := by
  refine ⟨?_, ?_⟩
  · intro h
    obtain ⟨e, db, cErr, he, hev, hout⟩ :=
      Delete_rows_affected k query objectType args env hist crud tx n hn.ne' h
    exact committed_once _ _ e db tx (Event.exec tx query args (.ok n)) cErr _ he ⟨rfl, rfl⟩ hev hout
  · intro h
    obtain ⟨e, db, cErr, he, hev, hout⟩ :=
      Update_rows_affected k query objectType args env hist crud tx n hn.ne' h
    exact committed_once _ _ e db tx (Event.exec tx query args (.ok n)) cErr _ he ⟨rfl, rfl⟩ hev hout

/-- Witness of C14: a delete of one row whose commit fails. -/
theorem affected_rows_commit_once_witness :
    (0 : Int) < 1 ∧
    Event.exec 7 "DELETE" [.int 1] (.ok 1) ∈
      (Repository.Delete sampleConstants "DELETE" "test" [.int 1] commitFailEnv [] sampleCrud).events ∧
    (Repository.Delete sampleConstants "DELETE" "test" [.int 1] commitFailEnv [] sampleCrud).out =
      .ret (some ⟨500, "Failed to commit the test transaction"⟩) ∧
    (Repository.Delete sampleConstants "DELETE" "test" [.int 1] commitFailEnv []
      sampleCrud).events.countP Event.isCommit = 1 :=
  ⟨by decide, by decide, by decide,
    ((affected_rows_commit_once sampleConstants "DELETE" "test" [.int 1] commitFailEnv []
      sampleCrud 7 1 (by decide)).1 (by decide)).1⟩

/-- C15: in every `Delete`, `Update` and `Create` call whose `Begin` fails, the call
returns the error of `BeginTransaction` (status 500, `FAILED_BEGIN_TRANSACTION`;
`Create` returns the identifier -1 with it), the health check ran, and returned,
before the `Begin`, and the call did nothing after it: its trace is the trace of the
health check and then the failed `Begin`, without statement, commit or rollback. -/
theorem begin_failure_stops_the_call (k : Constants) (query objectType : String)
    (args : List Value) (env : Env) (hist : List Event) (crud : crudRepository)
    (db : Handle) (err : GoError) :
    (Event.begin db (.err err) ∈
        (Repository.Delete k query objectType args env hist crud).events →
      (Repository.Delete k query objectType args env hist crud).out =
        .ret (some ⟨500, k.FAILED_BEGIN_TRANSACTION⟩) ∧
      (Repository.CheckAndResetDBConnection env hist crud).out = .ret () ∧
      (Repository.Delete k query objectType args env hist crud).events =
        (Repository.CheckAndResetDBConnection env hist crud).events ++
          [Event.begin db (.err err)] ∧
      ∀ x ∈ (Repository.Delete k query objectType args env hist crud).events,
        x.isStatement = false ∧ x.isCommit = false ∧ x.isRollback = false) ∧
    (Event.begin db (.err err) ∈
        (Repository.Update k query objectType args env hist crud).events →
      (Repository.Update k query objectType args env hist crud).out =
        .ret (some ⟨500, k.FAILED_BEGIN_TRANSACTION⟩) ∧
      (Repository.CheckAndResetDBConnection env hist crud).out = .ret () ∧
      (Repository.Update k query objectType args env hist crud).events =
        (Repository.CheckAndResetDBConnection env hist crud).events ++
          [Event.begin db (.err err)] ∧
      ∀ x ∈ (Repository.Update k query objectType args env hist crud).events,
        x.isStatement = false ∧ x.isCommit = false ∧ x.isRollback = false) ∧
    (Event.begin db (.err err) ∈
        (Repository.Create k query objectType args env hist crud).events →
      (Repository.Create k query objectType args env hist crud).out =
        .ret (Value.int (-1), some ⟨500, k.FAILED_BEGIN_TRANSACTION⟩) ∧
      (Repository.CheckAndResetDBConnection env hist crud).out = .ret () ∧
      (Repository.Create k query objectType args env hist crud).events =
        (Repository.CheckAndResetDBConnection env hist crud).events ++
          [Event.begin db (.err err)] ∧
      ∀ x ∈ (Repository.Create k query objectType args env hist crud).events,
        x.isStatement = false ∧ x.isCommit = false ∧ x.isRollback = false) := by
  refine ⟨?_, ?_, ?_⟩
  · intro h
    obtain ⟨h1, h2, h3⟩ := Delete_begin_failed k query objectType args env hist crud db err h
    refine ⟨h1, h2, h3, ?_⟩
    rw [h3]
    exact only_begin_after_health _ _ (CheckAndReset_events_health env hist crud) ⟨rfl, rfl, rfl⟩
  · intro h
    obtain ⟨h1, h2, h3⟩ := Update_begin_failed k query objectType args env hist crud db err h
    refine ⟨h1, h2, h3, ?_⟩
    rw [h3]
    exact only_begin_after_health _ _ (CheckAndReset_events_health env hist crud) ⟨rfl, rfl, rfl⟩
  · intro h
    obtain ⟨h1, h2, h3⟩ := Create_begin_failed k query objectType args env hist crud db err h
    refine ⟨h1, h2, h3, ?_⟩
    rw [h3]
    exact only_begin_after_health _ _ (CheckAndReset_events_health env hist crud) ⟨rfl, rfl, rfl⟩

/-- Witness of C15: a create on a driver whose `Begin` fails. -/
theorem begin_failure_stops_the_call_witness :
    Event.begin 0 (.err (.errorString "some error")) ∈
      (Repository.Create sampleConstants "INSERT" "user" [.nil] beginFailEnv [] sampleCrud).events ∧
    (Repository.Create sampleConstants "INSERT" "user" [.nil] beginFailEnv [] sampleCrud).out =
      .ret (Value.int (-1), some ⟨500, "Failed to begin transaction"⟩) ∧
    (Repository.Create sampleConstants "INSERT" "user" [.nil] beginFailEnv [] sampleCrud).events =
      [Event.ping 0 none, Event.begin 0 (.err (.errorString "some error"))] :=
  ⟨by decide,
    ((begin_failure_stops_the_call sampleConstants "INSERT" "user" [.nil] beginFailEnv []
      sampleCrud 0 (.errorString "some error")).2.2 (by decide)).1, by decide⟩

/-- Counterexample to C16 as stated: the underlying rollback succeeds, and
`RollBackTransaction` returns the status-500 error all the same, not nil. -/
theorem RollBackTransaction_ok_returns_error :
    (Repository.RollBackTransaction sampleConstants 7 "user" (okEnv 1) [] sampleCrud).events =
      [Event.rollback 7 none] ∧
    (Repository.RollBackTransaction sampleConstants 7 "user" (okEnv 1) [] sampleCrud).out =
      .ret (some ⟨500, "Failed to update user"⟩) := by
  decide

/-- C16, amended: `CommitTransaction` invokes the commit once and returns nil when it
succeeds and the status-500 error of `COMMIT_FAILED`, with the object kind
interpolated, when it fails; `RollBackTransaction` invokes the rollback once and
returns the status-500 error of `FAILED_TO_UPDATE_OBJ`, with the object kind
interpolated, whether the rollback succeeds or fails. -/
theorem CommitTransaction_RollBackTransaction_results (k : Constants) (tx : Tx)
    (objectType : String) (env : Env) (hist : List Event) (crud : crudRepository) :
    (Repository.CommitTransaction k tx objectType env hist crud).events =
      [Event.commit tx (env.commit hist tx)] ∧
    (env.commit hist tx = none →
      (Repository.CommitTransaction k tx objectType env hist crud).out = .ret none) ∧
    (env.commit hist tx ≠ none →
      (Repository.CommitTransaction k tx objectType env hist crud).out =
        .ret (some ⟨500, k.COMMIT_FAILED.before ++ objectType ++ k.COMMIT_FAILED.after⟩)) ∧
    (Repository.RollBackTransaction k tx objectType env hist crud).events =
      [Event.rollback tx (env.rollback hist tx)] ∧
    (Repository.RollBackTransaction k tx objectType env hist crud).out =
      .ret (some ⟨500,
        k.FAILED_TO_UPDATE_OBJ.before ++ objectType ++ k.FAILED_TO_UPDATE_OBJ.after⟩) := by
  have hc : (Repository.CommitTransaction k tx objectType env hist crud).events =
        [Event.commit tx (env.commit hist tx)] ∧
      (env.commit hist tx = none →
        (Repository.CommitTransaction k tx objectType env hist crud).out = .ret none) ∧
      (env.commit hist tx ≠ none →
        (Repository.CommitTransaction k tx objectType env hist crud).out =
          .ret (some ⟨500, k.COMMIT_FAILED.before ++ objectType ++ k.COMMIT_FAILED.after⟩)) := by
    rw [wp_def (Repository.CommitTransaction k tx objectType) env hist crud
      (fun r => r.events = [Event.commit tx (env.commit hist tx)] ∧
        (env.commit hist tx = none → r.out = .ret none) ∧
        (env.commit hist tx ≠ none → r.out =
          .ret (some ⟨500, k.COMMIT_FAILED.before ++ objectType ++ k.COMMIT_FAILED.after⟩)))]
    unfold Repository.CommitTransaction TxCommit
    simp only [wp_bind, wp_call]
    intro a ha
    rw [← ha]
    cases a <;> simp [wp_pure, Sprintf, http.StatusInternalServerError]
  have hr : (Repository.RollBackTransaction k tx objectType env hist crud).events =
        [Event.rollback tx (env.rollback hist tx)] ∧
      (Repository.RollBackTransaction k tx objectType env hist crud).out =
        .ret (some ⟨500,
          k.FAILED_TO_UPDATE_OBJ.before ++ objectType ++ k.FAILED_TO_UPDATE_OBJ.after⟩) := by
    rw [wp_def (Repository.RollBackTransaction k tx objectType) env hist crud
      (fun r => r.events = [Event.rollback tx (env.rollback hist tx)] ∧
        r.out = .ret (some ⟨500,
          k.FAILED_TO_UPDATE_OBJ.before ++ objectType ++ k.FAILED_TO_UPDATE_OBJ.after⟩))]
    unfold Repository.RollBackTransaction TxRollback
    simp only [wp_bind, wp_call]
    intro a ha
    rw [← ha]
    simp [wp_pure, Sprintf, http.StatusInternalServerError]
  exact ⟨hc.1, hc.2.1, hc.2.2, hr.1, hr.2⟩

/-- Witness of C16, amended: a commit that fails. -/
theorem CommitTransaction_RollBackTransaction_results_witness :
    commitFailEnv.commit [] 7 ≠ none ∧
    (Repository.CommitTransaction sampleConstants 7 "user" commitFailEnv [] sampleCrud).out =
      .ret (some ⟨500, "Failed to commit the user transaction"⟩) :=
  ⟨by decide,
    (CommitTransaction_RollBackTransaction_results sampleConstants 7 "user" commitFailEnv []
      sampleCrud).2.2.1 (by decide)⟩

/-- C17: in every `Get` call whose query succeeds and yields the rows `rows`: if the
mapper succeeds on every row, `Get` returns the mapped values of all rows, in the
order of the rows and as the mapper returned them, with a nil error; if the mapper
first fails at a row, `Get` returns nil (the empty slice) with the status-500 error
"Failed to scan row", and the mapper was called on the rows up to that one and on
no later row. -/
theorem Get_maps_rows_in_order (query objectType : String) (mapper : RowMapperFunc)
    (args : List Value) (env : Env) (hist : List Event) (crud : crudRepository)
    (db : Handle) (rows : List Row)
    (hquery : Event.query db query args (.ok rows) ∈
      (Repository.Get query objectType mapper args env hist crud).events) :
    ((∀ r ∈ rows, (mapper r).2 = none) →
      (Repository.Get query objectType mapper args env hist crud).out =
        .ret (rows.map (fun r => (mapper r).1), none) ∧
      (Repository.Get query objectType mapper args env hist crud).events.filter Event.isMapper =
        rows.map (mapperEvent mapper)) ∧
    (∀ before row rest, rows = before ++ row :: rest →
      (∀ r ∈ before, (mapper r).2 = none) → (mapper row).2 ≠ none →
      (Repository.Get query objectType mapper args env hist crud).out =
        .ret ([], some ⟨500, "Failed to scan row"⟩) ∧
      (Repository.Get query objectType mapper args env hist crud).events.filter Event.isMapper =
        (before ++ [row]).map (mapperEvent mapper)) := by
  revert hquery
  rw [wp_def (Repository.Get query objectType mapper args) env hist crud
    (fun r => Event.query db query args (.ok rows) ∈ r.events →
      ((∀ r ∈ rows, (mapper r).2 = none) →
        r.out = .ret (rows.map (fun r => (mapper r).1), none) ∧
        r.events.filter Event.isMapper = rows.map (mapperEvent mapper)) ∧
      (∀ before row rest, rows = before ++ row :: rest →
        (∀ r ∈ before, (mapper r).2 = none) → (mapper row).2 ≠ none →
        r.out = .ret ([], some ⟨500, "Failed to scan row"⟩) ∧
        r.events.filter Event.isMapper = (before ++ [row]).map (mapperEvent mapper)))]
  apply wp_Get
  · intro _ h; simp at h
  · intro c e he h1; exact absurd h1 (not_mem_of_health he rfl)
  · intro c e db1 err he h1
    have hne : Event.query db query args (.ok rows) ∉ e := not_mem_of_health he rfl
    simp [hne] at h1
  · intro c e db1 before1 row1 rest1 he hall1 hne1 h1
    have hne : Event.query db query args (.ok rows) ∉ e := not_mem_of_health he rfl
    simp [hne, mapperEvent] at h1
    obtain ⟨_, hrows⟩ := h1
    have hfilter := filter_isMapper_query mapper e
      (Event.query db1 query args (.ok (before1 ++ row1 :: rest1))) (before1 ++ [row1])
      [Event.rowsClose] he rfl (by simp [Event.isMapper])
    constructor
    · intro hall
      exact absurd (hall row1 (by rw [hrows]; simp)) hne1
    · intro before row rest hsplit hall hne2
      rw [hsplit] at hrows
      obtain ⟨hb, hr, _⟩ := first_failure_unique (fun r => (mapper r).2 = none) before before1
        rest rest1 row row1 hall hall1 hne2 hne1 hrows
      rw [hb, hr]
      exact ⟨rfl, hfilter⟩
  · intro c e db1 rows1 he hall1 h1
    have hne : Event.query db query args (.ok rows) ∉ e := not_mem_of_health he rfl
    simp [hne, mapperEvent] at h1
    obtain ⟨_, hrows⟩ := h1
    subst hrows
    have hfilter := filter_isMapper_query mapper e
      (Event.query db1 query args (.ok rows)) rows [Event.rowsClose] he rfl
      (by simp [Event.isMapper])
    constructor
    · intro _
      exact ⟨rfl, hfilter⟩
    · intro before row rest hsplit hall hne2
      exact absurd (hall1 row (by rw [hsplit]; simp)) hne2

/-- Witness of C17: three rows, the mapper fails on the second. -/
theorem Get_maps_rows_in_order_witness :
    Event.query 0 "SELECT" [.int 1] (.ok [⟨.ok [.int64 1]⟩, ⟨.ok []⟩, ⟨.ok [.int64 3]⟩]) ∈
      (Repository.Get "SELECT" "test" plainMapper [.int 1] threeRowsEnv [] sampleCrud).events ∧
    (Repository.Get "SELECT" "test" plainMapper [.int 1] threeRowsEnv [] sampleCrud).out =
      .ret ([], some ⟨500, "Failed to scan row"⟩) ∧
    (Repository.Get "SELECT" "test" plainMapper [.int 1] threeRowsEnv []
      sampleCrud).events.filter Event.isMapper =
      [Event.mapper ⟨.ok [.int64 1]⟩ (.int64 1) none,
        Event.mapper ⟨.ok []⟩ .nil (some (.errorString "no columns"))] :=
  ⟨by decide,
    (Get_maps_rows_in_order "SELECT" "test" plainMapper [.int 1] threeRowsEnv [] sampleCrud 0
      [⟨.ok [.int64 1]⟩, ⟨.ok []⟩, ⟨.ok [.int64 3]⟩] (by decide)).2
      [⟨.ok [.int64 1]⟩] ⟨.ok []⟩ [⟨.ok [.int64 3]⟩] rfl (by decide) (by decide)⟩

/-- C18: a `GetWithPagination` call that returns a nil error has issued, after the
health check, the data query with the caller's arguments, then the mapper on each
row, then the count query without arguments; it returns the caller's `Pagination`
with `Rows` the mapped rows in row order and `TotalRows` the count, `Page` and
`Sort` as they were, and `Limit` as it was unless it was 0, then 10. -/
theorem GetWithPagination_success (k : Constants) (undef : Int)
    (countSQL objectType finalSQL : String) (mapper : RowMapperFunc) (pagination : Pagination)
    (args : List Value) (env : Env) (hist : List Event) (crud : crudRepository)
    (res : Repository.PaginationResult)
    (hout : (Repository.GetWithPagination k undef countSQL objectType finalSQL mapper pagination
      args env hist crud).out = .ret res)
    (herr : res.err = none) :
    ∃ e db rows totalRows, (∀ x ∈ e, x.isHealth = true) ∧
      (Repository.GetWithPagination k undef countSQL objectType finalSQL mapper pagination
        args env hist crud).events =
        e ++ [Event.query db finalSQL args (.ok rows)] ++ rows.map (mapperEvent mapper) ++
          [Event.queryRowScanInt64 db countSQL [] (.ok totalRows), Event.rowsClose] ∧
      res.returned = some res.pagination ∧
      res.pagination.Rows = some (rows.map (fun r => (mapper r).1)) ∧
      res.pagination.TotalRows = totalRows ∧
      res.pagination.Page = pagination.Page ∧
      res.pagination.Sort_ = pagination.Sort_ ∧
      res.pagination.Limit = (if pagination.Limit = 0 then 10 else pagination.Limit) := by
  revert hout herr
  rw [wp_def (Repository.GetWithPagination k undef countSQL objectType finalSQL mapper
    pagination args) env hist crud
    (fun r => r.out = .ret res → res.err = none →
      ∃ e db rows totalRows, (∀ x ∈ e, x.isHealth = true) ∧
        r.events =
          e ++ [Event.query db finalSQL args (.ok rows)] ++ rows.map (mapperEvent mapper) ++
            [Event.queryRowScanInt64 db countSQL [] (.ok totalRows), Event.rowsClose] ∧
        res.returned = some res.pagination ∧
        res.pagination.Rows = some (rows.map (fun r => (mapper r).1)) ∧
        res.pagination.TotalRows = totalRows ∧
        res.pagination.Page = pagination.Page ∧
        res.pagination.Sort_ = pagination.Sort_ ∧
        res.pagination.Limit = (if pagination.Limit = 0 then 10 else pagination.Limit))]
  apply wp_GetWithPagination
  · intro _ h; simp at h
  · intro c e he h; simp at h
  · intro c e db1 err he h1 h2
    simp only [Outcome.ret.injEq] at h1
    rw [← h1] at h2
    simp at h2
  · intro c e db1 before row rest he hall hne h1 h2
    simp only [Outcome.ret.injEq] at h1
    rw [← h1] at h2
    simp at h2
  · intro c e db1 rows err he hall h1 h2
    simp only [Outcome.ret.injEq] at h1
    rw [← h1] at h2
    simp at h2
  · intro c e db1 rows totalRows he hall h1 _
    simp only [Outcome.ret.injEq] at h1
    rw [← h1]
    refine ⟨e, db1, rows, totalRows, he, rfl, rfl, rfl, rfl, ?_, ?_, ?_⟩
    · by_cases hlim : pagination.Limit = 0 <;> simp [Pagination.GetLimit, hlim]
    · by_cases hlim : pagination.Limit = 0 <;> simp [Pagination.GetLimit, hlim]
    · by_cases hlim : pagination.Limit = 0 <;> simp [Pagination.GetLimit, hlim]

/-- Witness of C18: one row, count 1, the zero `Pagination`. -/
theorem GetWithPagination_success_witness :
    (Repository.GetWithPagination sampleConstants 0 "COUNT" "test" "SELECT" plainMapper
        zeroPagination [.int 1] (okEnv 1) [] sampleCrud).out =
      .ret ⟨⟨10, 0, "", 1, 1, some [.int64 1]⟩, some ⟨10, 0, "", 1, 1, some [.int64 1]⟩, none⟩ ∧
    ∃ e db rows totalRows, (∀ x ∈ e, x.isHealth = true) ∧
      (Repository.GetWithPagination sampleConstants 0 "COUNT" "test" "SELECT" plainMapper
        zeroPagination [.int 1] (okEnv 1) [] sampleCrud).events =
        e ++ [Event.query db "SELECT" [.int 1] (.ok rows)] ++ rows.map (mapperEvent plainMapper) ++
          [Event.queryRowScanInt64 db "COUNT" [] (.ok totalRows), Event.rowsClose] :=
  ⟨by decide,
    (GetWithPagination_success sampleConstants 0 "COUNT" "test" "SELECT" plainMapper
      zeroPagination [.int 1] (okEnv 1) [] sampleCrud
      ⟨⟨10, 0, "", 1, 1, some [.int64 1]⟩, some ⟨10, 0, "", 1, 1, some [.int64 1]⟩, none⟩
      (by decide) rfl).imp fun _ h => h.imp fun _ h => h.imp fun _ h => h.imp fun _ h =>
        ⟨h.1, h.2.1⟩⟩

/-- C19: when the data query fails, the mapper fails on a row or the count query
fails, `GetWithPagination` returns a nil pointer with a status-500 error, and the
caller's `Pagination` is as it was before the call (no rows, totals or limit
written). -/
theorem GetWithPagination_failure (k : Constants) (undef : Int)
    (countSQL objectType finalSQL : String) (mapper : RowMapperFunc) (pagination : Pagination)
    (args : List Value) (env : Env) (hist : List Event) (crud : crudRepository)
    (db : Handle) (err : GoError)
    (h : Event.query db finalSQL args (.err err) ∈
        (Repository.GetWithPagination k undef countSQL objectType finalSQL mapper pagination
          args env hist crud).events ∨
      (∃ row item, Event.mapper row item (some err) ∈
        (Repository.GetWithPagination k undef countSQL objectType finalSQL mapper pagination
          args env hist crud).events) ∨
      Event.queryRowScanInt64 db countSQL [] (.err err) ∈
        (Repository.GetWithPagination k undef countSQL objectType finalSQL mapper pagination
          args env hist crud).events) :
    ∃ msg, (Repository.GetWithPagination k undef countSQL objectType finalSQL mapper pagination
      args env hist crud).out = .ret ⟨pagination, none, some ⟨500, msg⟩⟩ := by
  revert h
  rw [wp_def (Repository.GetWithPagination k undef countSQL objectType finalSQL mapper
    pagination args) env hist crud
    (fun r => Event.query db finalSQL args (.err err) ∈ r.events ∨
      (∃ row item, Event.mapper row item (some err) ∈ r.events) ∨
      Event.queryRowScanInt64 db countSQL [] (.err err) ∈ r.events →
      ∃ msg, r.out = .ret ⟨pagination, none, some ⟨500, msg⟩⟩)]
  apply wp_GetWithPagination
  · intro _ h; simp at h
  · intro c e he h
    rcases h with h | ⟨row, item, h⟩ | h <;> exact absurd h (not_mem_of_health he rfl)
  · intro c e db1 err1 he _
    exact ⟨_, rfl⟩
  · intro c e db1 before row rest he hall hne _
    exact ⟨_, rfl⟩
  · intro c e db1 rows err1 he hall _
    exact ⟨_, rfl⟩
  · intro c e db1 rows totalRows he hall h
    exfalso
    rcases h with h | ⟨row, item, h⟩ | h
    · have hne : Event.query db finalSQL args (.err err) ∉ e := not_mem_of_health he rfl
      simp [hne, mapperEvent] at h
    · have hne : Event.mapper row item (some err) ∉ e := not_mem_of_health he rfl
      simp [hne, mapperEvent] at h
      obtain ⟨r, hr, _, _, hr2⟩ := h
      rw [hall r hr] at hr2
      simp at hr2
    · have hne : Event.queryRowScanInt64 db countSQL [] (.err err) ∉ e :=
        not_mem_of_health he rfl
      simp [hne, mapperEvent] at h

/-- Witness of C19: the count query fails after one row was mapped. -/
theorem GetWithPagination_failure_witness :
    Event.queryRowScanInt64 0 "COUNT" [] (.err (.errorString "some error")) ∈
      (Repository.GetWithPagination sampleConstants 0 "COUNT" "test" "SELECT" plainMapper
        zeroPagination [.int 1] countFailEnv [] sampleCrud).events ∧
    ∃ msg, (Repository.GetWithPagination sampleConstants 0 "COUNT" "test" "SELECT" plainMapper
      zeroPagination [.int 1] countFailEnv [] sampleCrud).out =
        .ret ⟨zeroPagination, none, some ⟨500, msg⟩⟩ :=
  ⟨by decide,
    GetWithPagination_failure sampleConstants 0 "COUNT" "test" "SELECT" plainMapper
      zeroPagination [.int 1] countFailEnv [] sampleCrud 0 (.errorString "some error")
      (Or.inr (Or.inr (by decide)))⟩

/-- Counterexample to C20 as stated: on a repository without a pool the call opens
a pool and then pings it in its second step; and when that ping fails it opens a
second pool, two acquires in one call. -/
theorem CheckAndReset_nil_pool_pings_and_may_acquire_twice :
    (Repository.CheckAndResetDBConnection (okEnv 1) [] nilCrud).events =
      [Event.poolNew (.ok 1), Event.ping 1 none, Event.ping 1 none] ∧
    (Repository.CheckAndResetDBConnection flakyEnv [] nilCrud).out = .ret () ∧
    (Repository.CheckAndResetDBConnection flakyEnv [] nilCrud).events =
      [Event.poolNew (.ok 1), Event.ping 1 none,
        Event.ping 1 (some (.errorString "conn closed")),
        Event.poolNew (.ok 1), Event.ping 1 none] ∧
    (Repository.CheckAndResetDBConnection flakyEnv [] nilCrud).events.countP
      Event.isPoolNew = 2 := by
  decide

/-- C20, amended: one call of `CheckAndResetDBConnection`, the flag being free.  If
a pool exists, the call pings it once, first, and acquires a replacement exactly
when that ping fails: at most one acquire.  If no pool exists, the call acquires
one and then goes on to the second step with the new pool: it pings the new pool
once and acquires a second one exactly when that ping fails.  In every case at most
two acquires.  (An acquire is a run of `config.ConnectDB`: it opens a pool and
pings it.) -/
theorem CheckAndReset_two_steps (env : Env) (hist : List Event) (crud : crudRepository)
    (hlock : crud.lock = false) :
    (∀ db, crud.db = some db →
      ∃ pingErr rest,
        (Repository.CheckAndResetDBConnection env hist crud).events =
          Event.ping db pingErr :: rest ∧
        (pingErr = none → rest = []) ∧
        (pingErr ≠ none → ∃ res, ConnectRun res rest) ∧
        (Repository.CheckAndResetDBConnection env hist crud).events.countP Event.isPoolNew =
          (if pingErr = none then 0 else 1)) ∧
    (crud.db = none →
      ∃ res1 ev1 rest, ConnectRun res1 ev1 ∧
        (Repository.CheckAndResetDBConnection env hist crud).events = ev1 ++ rest ∧
        (res1 = none → rest = []) ∧
        (∀ db, res1 = some db →
          ∃ pingErr rest2, rest = Event.ping db pingErr :: rest2 ∧
            (pingErr = none → rest2 = []) ∧
            (pingErr ≠ none → ∃ res2, ConnectRun res2 rest2) ∧
            (Repository.CheckAndResetDBConnection env hist crud).events.countP
              Event.isPoolNew = (if pingErr = none then 1 else 2))) ∧
    (Repository.CheckAndResetDBConnection env hist crud).events.countP Event.isPoolNew ≤ 2 := by
  rw [wp_def Repository.CheckAndResetDBConnection env hist crud
    (fun r => (∀ db, crud.db = some db →
      ∃ pingErr rest, r.events = Event.ping db pingErr :: rest ∧
        (pingErr = none → rest = []) ∧
        (pingErr ≠ none → ∃ res, ConnectRun res rest) ∧
        r.events.countP Event.isPoolNew = (if pingErr = none then 0 else 1)) ∧
    (crud.db = none →
      ∃ res1 ev1 rest, ConnectRun res1 ev1 ∧ r.events = ev1 ++ rest ∧
        (res1 = none → rest = []) ∧
        (∀ db, res1 = some db →
          ∃ pingErr rest2, rest = Event.ping db pingErr :: rest2 ∧
            (pingErr = none → rest2 = []) ∧
            (pingErr ≠ none → ∃ res2, ConnectRun res2 rest2) ∧
            r.events.countP Event.isPoolNew = (if pingErr = none then 1 else 2))) ∧
    r.events.countP Event.isPoolNew ≤ 2)]
  apply wp_CheckAndReset_exact
  · intro h
    rw [hlock] at h
    cases h
  · intro db ev _ hrun
    exact healthRun_shape hrun
  · intro c ev _ hrun
    exact healthRun_shape hrun

/-- Witness of C20, amended: no pool, and the ping of the second step fails. -/
theorem CheckAndReset_two_steps_witness :
    nilCrud.lock = false ∧ nilCrud.db = none ∧
    (∃ res1 ev1 rest, ConnectRun res1 ev1 ∧
      (Repository.CheckAndResetDBConnection flakyEnv [] nilCrud).events = ev1 ++ rest) ∧
    (Repository.CheckAndResetDBConnection flakyEnv [] nilCrud).events.countP
      Event.isPoolNew ≤ 2 :=
  ⟨rfl, rfl,
    ((CheckAndReset_two_steps flakyEnv [] nilCrud rfl).2.1 rfl).imp fun _ h =>
      h.imp fun _ h => h.imp fun _ h => ⟨h.1, h.2.1⟩,
    (CheckAndReset_two_steps flakyEnv [] nilCrud rfl).2.2⟩

/-- Counterexample to C21 as stated: the first five attempts each obtain a response
with status 302 together with an error, the sixth obtains no response; the call
gives up with the status code 0, while the status code last seen in its trace is
302. -/
theorem MakeRestCallToPartner_reports_zero_after_responses :
    (MakeRestCallToPartner redirectTransport 6 "http://partner" "a=1").map
        (fun run => (run.out, run.events.getLast?, specLastSeenStatusCode run.events)) =
      some (.ret (some { Message := "Failed to make GET request after retries -> connection refused",
                         StatusCode := 0 }),
        some (RestEvent.get "http://partner?a=1" none (some (.errorString "connection refused"))),
        302) := by
  decide

/-- C21, amended: when `MakeRestCallToPartner` gives up (its last attempt, the
sixth, fails), the status code of the returned error is that of the response which
the last attempt returned together with its error, and 0 when the last attempt
returned no response, whatever the earlier attempts returned; the message ends with
the text of the error of the last attempt.  This is the status code last seen in the
trace when the last attempt returned a response or no attempt did. -/
theorem MakeRestCallToPartner_gives_up (transport : Transport) (url params : String)
    (fuel : Nat) (run : RestRun) (resp : Option Response) (restErr : GoError)
    (hfuel : 6 ≤ fuel)
    (hrun : MakeRestCallToPartner transport fuel url params = some run)
    (hlast : run.events.getLast? =
      some (RestEvent.get (url ++ "?" ++ params) resp (some restErr))) :
    run.out = .ret (some {
      Message := "Failed to make GET request after retries -> " ++ restErr.Error,
      StatusCode := lastStatusCode resp }) ∧
    run.events.countP RestEvent.isGet = 6 ∧
    (resp = none → lastStatusCode resp = 0) ∧
    (∀ r, resp = some r → lastStatusCode resp = r.StatusCode) ∧
    ((resp ≠ none ∨ ∀ u r err, RestEvent.get u (some r) err ∉ run.events) →
      lastStatusCode resp = specLastSeenStatusCode run.events) := by
  obtain ⟨attempts, resp1, restErr1, h1, h2, _, h4⟩ :=
    MakeRestCallToPartner_shape transport url params fuel hfuel
  rw [hrun] at h4
  simp only [Option.some.injEq] at h4
  subst h4
  simp at hlast
  obtain ⟨hr, he⟩ := hlast
  rw [← hr]
  subst he
  refine ⟨?_, ?_, ?_, ?_, ?_⟩
  · cases resp1 <;> rfl
  · rw [List.countP_append, retryTrace_gets, h2 (by simp)]
    rfl
  · intro h; rw [h]; rfl
  · intro r h; rw [h]; rfl
  · rintro (h | h)
    · obtain ⟨r, rfl⟩ := Option.ne_none_iff_exists'.mp h
      rw [specLastSeenStatusCode_append_response]
      rfl
    · rw [specLastSeenStatusCode_no_response _ h]
      cases resp1 with
      | none => rfl
      | some r => exact absurd (by simp) (h (url ++ "?" ++ params) r (some restErr))

/-- Witness of C21, amended: five redirects, then the connection is refused. -/
theorem MakeRestCallToPartner_gives_up_witness :
    6 ≤ 6 ∧
    MakeRestCallToPartner redirectTransport 6 "http://partner" "a=1" = some redirectRun ∧
    redirectRun.events.getLast? = some (RestEvent.get ("http://partner" ++ "?" ++ "a=1") none
      (some (.errorString "connection refused"))) ∧
    redirectRun.out = .ret (some {
      Message := "Failed to make GET request after retries -> " ++
        (GoError.errorString "connection refused").Error,
      StatusCode := lastStatusCode none }) :=
  ⟨by decide, by decide, by decide,
    (MakeRestCallToPartner_gives_up redirectTransport "http://partner" "a=1" 6 redirectRun none
      (.errorString "connection refused") (by decide) (by decide) (by decide)).1⟩

/-- C22: each accessor of `Pagination` returns the field when it is set (non-zero,
non-empty) and leaves the receiver as it is, and otherwise stores and returns the
default: 10 for `GetLimit`, 1 for `GetPage`, `"id" desc` in quotes for `GetSort`.  A
second read returns what the first returned and changes nothing, and the zero value
gives the three defaults. -/
theorem accessors_default_lazily (p : Pagination) :
    (p.GetLimit.1 = (if p.Limit ≠ 0 then p.Limit else 10) ∧
      p.GetLimit.2 = { p with Limit := p.GetLimit.1 } ∧
      (p.Limit ≠ 0 → p.GetLimit.2 = p) ∧
      p.GetLimit.2.GetLimit = (p.GetLimit.1, p.GetLimit.2)) ∧
    (p.GetPage.1 = (if p.Page ≠ 0 then p.Page else 1) ∧
      p.GetPage.2 = { p with Page := p.GetPage.1 } ∧
      (p.Page ≠ 0 → p.GetPage.2 = p) ∧
      p.GetPage.2.GetPage = (p.GetPage.1, p.GetPage.2)) ∧
    (p.GetSort.1 = (if p.Sort_ ≠ "" then p.Sort_ else "\"id\" desc") ∧
      p.GetSort.2 = { p with Sort_ := p.GetSort.1 } ∧
      (p.Sort_ ≠ "" → p.GetSort.2 = p) ∧
      p.GetSort.2.GetSort = (p.GetSort.1, p.GetSort.2)) ∧
    (p.Limit = 0 → p.Page = 0 → p.Sort_ = "" →
      (p.GetLimit.1, p.GetPage.1, p.GetSort.1) = (10, 1, "\"id\" desc")) := by
  refine ⟨?_, ?_, ?_, ?_⟩
  · by_cases h : p.Limit = 0 <;> simp [Pagination.GetLimit, h]
  · by_cases h : p.Page = 0 <;> simp [Pagination.GetPage, h]
  · by_cases h : p.Sort_ = "" <;> simp [Pagination.GetSort, h]
  · intro h1 h2 h3
    simp [Pagination.GetLimit, Pagination.GetPage, Pagination.GetSort, h1, h2, h3]

/-- Witness of C22: the zero value `Pagination{}`. -/
theorem accessors_default_lazily_witness :
    zeroPagination.Limit = 0 ∧ zeroPagination.Page = 0 ∧ zeroPagination.Sort_ = "" ∧
    (zeroPagination.GetLimit.1, zeroPagination.GetPage.1, zeroPagination.GetSort.1) =
      (10, 1, "\"id\" desc") :=
  ⟨rfl, rfl, rfl, (accessors_default_lazily zeroPagination).2.2.2 rfl rfl rfl⟩

/-- C23: for every `Pagination`, `GetOffset()` is `(GetPage() - 1) * GetLimit()`,
formed in the 64-bit `int`, with the page and the limit after their defaults (1 and
10); it is the exact product whenever that fits into `int`.  Page 2 with limit 10
gives 10, the zero value gives 0, and page 1 gives 0 for every limit. -/
theorem GetOffset_is_page_times_limit (p : Pagination) :
    p.GetOffset.1 = wrapInt64 (wrapInt64 (p.GetPage.1 - 1) * p.GetLimit.1) ∧
    p.GetPage.1 = (if p.Page = 0 then 1 else p.Page) ∧
    p.GetLimit.1 = (if p.Limit = 0 then 10 else p.Limit) ∧
    (-2 ^ 63 ≤ p.GetPage.1 - 1 → p.GetPage.1 - 1 < 2 ^ 63 →
      -2 ^ 63 ≤ (p.GetPage.1 - 1) * p.GetLimit.1 → (p.GetPage.1 - 1) * p.GetLimit.1 < 2 ^ 63 →
      p.GetOffset.1 = (p.GetPage.1 - 1) * p.GetLimit.1) ∧
    (p.Page = 2 → p.Limit = 10 → p.GetOffset.1 = 10) ∧
    (p.Page = 0 → p.Limit = 0 → p.GetOffset.1 = 0) ∧
    (p.Page = 1 → p.GetOffset.1 = 0) := by
  have hoff := (GetOffset_eq p).1
  have hzero : wrapInt64 0 = 0 := by decide
  refine ⟨hoff, ?_, ?_, ?_, ?_, ?_, ?_⟩
  · by_cases h : p.Page = 0 <;> simp [Pagination.GetPage, h]
  · by_cases h : p.Limit = 0 <;> simp [Pagination.GetLimit, h]
  · intro h1 h2 h3 h4
    rw [hoff, wrapInt64_of_range _ h1 h2, wrapInt64_of_range _ h3 h4]
  · intro h1 h2
    have hp : p.GetPage.1 = 2 := by simp [Pagination.GetPage, h1]
    have hl : p.GetLimit.1 = 10 := by simp [Pagination.GetLimit, h2]
    rw [hoff, hp, hl]
    decide
  · intro h1 h2
    have hp : p.GetPage.1 = 1 := by simp [Pagination.GetPage, h1]
    have hl : p.GetLimit.1 = 10 := by simp [Pagination.GetLimit, h2]
    rw [hoff, hp, hl]
    decide
  · intro h1
    have hp : p.GetPage.1 = 1 := by simp [Pagination.GetPage, h1]
    rw [hoff, hp]
    simp [hzero]

/-- Witness of C23: page 2, limit 10. -/
theorem GetOffset_is_page_times_limit_witness :
    (⟨10, 2, "", 0, 0, none⟩ : Pagination).Page = 2 ∧
    (⟨10, 2, "", 0, 0, none⟩ : Pagination).Limit = 10 ∧
    (⟨10, 2, "", 0, 0, none⟩ : Pagination).GetOffset.1 = 10 :=
  ⟨rfl, rfl, (GetOffset_is_page_times_limit ⟨10, 2, "", 0, 0, none⟩).2.2.2.2.1 rfl rfl⟩

/-- C24: `PaginateQueryExtractor` returns nil with the status-400 error "Invalid sort
field" exactly when the parameter `sort` is not empty and is not an element of
`validSortFields`; in every other case it returns a nil error and a `Pagination`
whose `Sort` is "" when `sort` is empty, the quoted field followed by " DESC" when
`sortDesc` is "true", and the quoted field followed by " ASC" for every other
`sortDesc`. -/
theorem PaginateQueryExtractor_sort (context : gin.Context) (validSortFields : List String) :
    ((PaginateQueryExtractor context validSortFields =
        (none, some { StatusCode := 400, Message := "Invalid sort field" })) ↔
      (context.Query "sort" ≠ "" ∧ context.Query "sort" ∉ validSortFields)) ∧
    (¬ (context.Query "sort" ≠ "" ∧ context.Query "sort" ∉ validSortFields) →
      ∃ p, PaginateQueryExtractor context validSortFields = (some p, none) ∧
        (context.Query "sort" = "" → p.Sort_ = "") ∧
        (context.Query "sort" ≠ "" → context.Query "sortDesc" = "true" →
          p.Sort_ = "\"" ++ context.Query "sort" ++ "\" DESC") ∧
        (context.Query "sort" ≠ "" → context.Query "sortDesc" ≠ "true" →
          p.Sort_ = "\"" ++ context.Query "sort" ++ "\" ASC")) := by
  have hfail : (context.Query "sort" ≠ "" ∧ context.Query "sort" ∉ validSortFields) →
      PaginateQueryExtractor context validSortFields =
        (none, some { StatusCode := 400, Message := "Invalid sort field" }) := by
    intro h
    have hc : StringContains validSortFields (context.Query "sort") = false := by
      rw [← Bool.not_eq_true, StringContains_iff]
      exact h.2
    simp [PaginateQueryExtractor, h.1, hc, http.StatusBadRequest]
  have hok : ¬ (context.Query "sort" ≠ "" ∧ context.Query "sort" ∉ validSortFields) →
      ∃ p, PaginateQueryExtractor context validSortFields = (some p, none) ∧
        (context.Query "sort" = "" → p.Sort_ = "") ∧
        (context.Query "sort" ≠ "" → context.Query "sortDesc" = "true" →
          p.Sort_ = "\"" ++ context.Query "sort" ++ "\" DESC") ∧
        (context.Query "sort" ≠ "" → context.Query "sortDesc" ≠ "true" →
          p.Sort_ = "\"" ++ context.Query "sort" ++ "\" ASC") := by
    intro h
    have hc : ¬ (context.Query "sort" ≠ "" ∧
        (!StringContains validSortFields (context.Query "sort")) = true) := by
      intro hh
      apply h
      refine ⟨hh.1, ?_⟩
      rw [← StringContains_iff]
      simpa using hh.2
    unfold PaginateQueryExtractor
    simp only [hc, ↓reduceIte]
    refine ⟨_, rfl, ?_, ?_, ?_⟩
    · intro h1; simp [h1]
    · intro h1 h2; simp [h1, h2]
    · intro h1 h2; simp [h1, h2]
  refine ⟨⟨?_, hfail⟩, hok⟩
  intro heq
  by_contra hnot
  obtain ⟨p, hp, _⟩ := hok hnot
  rw [hp] at heq
  simp at heq

/-- Witness of C24: the request of `TestPaginateQueryExtractor`. -/
theorem PaginateQueryExtractor_sort_witness :
    ¬ ((contextOf [("page", "2"), ("per_page", "15"), ("sort", "name"),
          ("sortDesc", "true")]).Query "sort" ≠ "" ∧
        (contextOf [("page", "2"), ("per_page", "15"), ("sort", "name"),
          ("sortDesc", "true")]).Query "sort" ∉ ["id", "name"]) ∧
    ∃ p, PaginateQueryExtractor (contextOf [("page", "2"), ("per_page", "15"), ("sort", "name"),
        ("sortDesc", "true")]) ["id", "name"] = (some p, none) :=
  ⟨by decide,
    ((PaginateQueryExtractor_sort (contextOf [("page", "2"), ("per_page", "15"), ("sort", "name"),
      ("sortDesc", "true")]) ["id", "name"]).2 (by decide)).imp fun _ h => h.1⟩

/-- C25: when `PaginateQueryExtractor` succeeds, `Page` is what `strconv.Atoi` reads
from the parameter `page` when it reads it without error and above 0, and 1
otherwise (so also when the parameter is missing); `Limit` is what it reads from
`per_page` under the same conditions, and 10 otherwise.  Hence `Page ≥ 1` and
`Limit ≥ 1`. -/
theorem PaginateQueryExtractor_page_limit (context : gin.Context)
    (validSortFields : List String) (p : Pagination)
    (h : PaginateQueryExtractor context validSortFields = (some p, none)) :
    p.Page = (if (strconv.Atoi (context.Query "page")).2 = none ∧
        0 < (strconv.Atoi (context.Query "page")).1
      then (strconv.Atoi (context.Query "page")).1 else 1) ∧
    p.Limit = (if (strconv.Atoi (context.Query "per_page")).2 = none ∧
        0 < (strconv.Atoi (context.Query "per_page")).1
      then (strconv.Atoi (context.Query "per_page")).1 else 10) ∧
    (context.Query "page" = "" → p.Page = 1) ∧
    (context.Query "per_page" = "" → p.Limit = 10) ∧
    1 ≤ p.Page ∧ 1 ≤ p.Limit := by
  obtain ⟨h1, h2⟩ := PaginateQueryExtractor_fields context validSortFields p h
  obtain ⟨b1, _, b3, _⟩ := PaginateQueryExtractor_bounds context validSortFields p h
  have hempty : (strconv.Atoi "").2 ≠ none := by decide
  refine ⟨h1, h2, ?_, ?_, b1, b3⟩
  · intro he
    rw [h1, he, if_neg (fun hc => hempty hc.1)]
  · intro he
    rw [h2, he, if_neg (fun hc => hempty hc.1)]

/-- Witness of C25: page "2", and a per_page that is not a number. -/
theorem PaginateQueryExtractor_page_limit_witness :
    PaginateQueryExtractor (contextOf [("page", "2"), ("per_page", "abc")]) [] =
      (some ⟨10, 2, "", 0, 0, none⟩, none) ∧
    (⟨10, 2, "", 0, 0, none⟩ : Pagination).Page = 2 ∧
    strconv.Atoi "2" = (2, none) ∧ (strconv.Atoi "abc").2 ≠ none :=
  ⟨by decide,
    ((PaginateQueryExtractor_page_limit (contextOf [("page", "2"), ("per_page", "abc")]) []
      ⟨10, 2, "", 0, 0, none⟩ (by decide)).1).trans (by decide), by decide, by decide⟩

/-- C26: `GetOne` decides its result by what the mapper returns for the row of the
query: the value of the mapper with a nil error when the mapper returns no error,
NotFound (status 404, the message naming the object kind) exactly when the error of
the mapper is the sentinel `pgx.ErrNoRows` itself, and ScanFailed (status 500) for
every other error, also one that wraps the sentinel.  The value is nil whenever an
error is returned. -/
theorem GetOne_classifies_by_mapper (k : Constants) (query objectType : String)
    (mapper : RowMapperFunc) (args : List Value) (env : Env) (hist : List Event)
    (crud : crudRepository) (db : Handle) (row : Row)
    (hrow : Event.queryRow db query args row ∈
      (Repository.GetOne k query objectType mapper args env hist crud).events) :
    ((mapper row).2 = none →
      (Repository.GetOne k query objectType mapper args env hist crud).out =
        .ret ((mapper row).1, none)) ∧
    ((mapper row).2 = some GoError.ErrNoRows →
      (Repository.GetOne k query objectType mapper args env hist crud).out =
        .ret (Value.nil, some ⟨404, "No " ++ objectType ++ " found with the given criteria"⟩)) ∧
    (∀ err, (mapper row).2 = some err → err ≠ GoError.ErrNoRows →
      (Repository.GetOne k query objectType mapper args env hist crud).out =
        .ret (Value.nil, some ⟨500, k.FAILED_SCAN⟩)) ∧
    (∀ text, (mapper row).2 = some (.wrapError text .ErrNoRows) →
      (Repository.GetOne k query objectType mapper args env hist crud).out =
        .ret (Value.nil, some ⟨500, k.FAILED_SCAN⟩)) ∧
    ((∃ msg, (Repository.GetOne k query objectType mapper args env hist crud).out =
        .ret (Value.nil, some ⟨404, msg⟩)) ↔ (mapper row).2 = some GoError.ErrNoRows) ∧
    (∀ v e, (Repository.GetOne k query objectType mapper args env hist crud).out =
      .ret (v, some e) → v = Value.nil) := by
  have hmain : ((mapper row).2 = none →
        (Repository.GetOne k query objectType mapper args env hist crud).out =
          .ret ((mapper row).1, none)) ∧
      ((mapper row).2 = some GoError.ErrNoRows →
        (Repository.GetOne k query objectType mapper args env hist crud).out =
          .ret (Value.nil,
            some ⟨404, "No " ++ objectType ++ " found with the given criteria"⟩)) ∧
      (∀ err, (mapper row).2 = some err → err ≠ GoError.ErrNoRows →
        (Repository.GetOne k query objectType mapper args env hist crud).out =
          .ret (Value.nil, some ⟨500, k.FAILED_SCAN⟩)) := by
    revert hrow
    rw [wp_def (Repository.GetOne k query objectType mapper args) env hist crud
      (fun r => Event.queryRow db query args row ∈ r.events →
        ((mapper row).2 = none → r.out = .ret ((mapper row).1, none)) ∧
        ((mapper row).2 = some GoError.ErrNoRows → r.out =
          .ret (Value.nil,
            some ⟨404, "No " ++ objectType ++ " found with the given criteria"⟩)) ∧
        (∀ err, (mapper row).2 = some err → err ≠ GoError.ErrNoRows →
          r.out = .ret (Value.nil, some ⟨500, k.FAILED_SCAN⟩)))]
    apply wp_GetOne
    · intro _ h; simp at h
    · intro c e he h1; exact absurd h1 (not_mem_of_health he rfl)
    · intro c e db1 row1 he hm h1
      have hne : Event.queryRow db query args row ∉ e := not_mem_of_health he rfl
      simp [hne] at h1
      obtain ⟨_, rfl⟩ := h1
      refine ⟨fun _ => rfl, fun h => ?_, fun err h _ => ?_⟩
      · rw [hm] at h; cases h
      · rw [hm] at h; cases h
    · intro c e db1 row1 he hm h1
      have hne : Event.queryRow db query args row ∉ e := not_mem_of_health he rfl
      simp [hne] at h1
      obtain ⟨_, rfl⟩ := h1
      refine ⟨fun h => ?_, fun _ => rfl, fun err h hne2 => ?_⟩
      · rw [hm] at h; cases h
      · rw [hm] at h
        exact absurd (Option.some.inj h).symm hne2
    · intro c e db1 row1 err1 he hm herr h1
      have hne : Event.queryRow db query args row ∉ e := not_mem_of_health he rfl
      simp [hne] at h1
      obtain ⟨_, rfl⟩ := h1
      refine ⟨fun h => ?_, fun h => ?_, fun _ _ _ => rfl⟩
      · rw [hm] at h; cases h
      · rw [hm] at h
        exact absurd (Option.some.inj h) herr
  obtain ⟨h1, h2, h3⟩ := hmain
  refine ⟨h1, h2, h3, ?_, ?_, ?_⟩
  · intro text h
    exact h3 _ h (by simp)
  · constructor
    · rintro ⟨msg, hout⟩
      rcases hm : (mapper row).2 with _ | err
      · rw [h1 hm] at hout
        simp at hout
      · by_cases herr : err = GoError.ErrNoRows
        · rw [herr]
        · rw [h3 err hm herr] at hout
          simp at hout
    · intro h
      exact ⟨_, h2 h⟩
  · intro v e hout
    rcases hm : (mapper row).2 with _ | err
    · rw [h1 hm] at hout
      simp at hout
    · by_cases herr : err = GoError.ErrNoRows
      · rw [herr] at hm
        rw [h2 hm] at hout
        simp at hout
        exact hout.1.symm
      · rw [h3 err hm herr] at hout
        simp at hout
        exact hout.1.symm

/-- Witness of C26: no row, and a mapper that wraps the error of `Scan`. -/
theorem GetOne_classifies_by_mapper_witness :
    Event.queryRow 0 "SELECT" [.int 1] ⟨.err GoError.ErrNoRows⟩ ∈
      (Repository.GetOne sampleConstants "SELECT" "user" wrappingMapper [.int 1] (okEnv 0) []
        sampleCrud).events ∧
    (wrappingMapper ⟨.err GoError.ErrNoRows⟩).2 =
      some (.wrapError ("scan user: " ++ GoError.ErrNoRows.Error) .ErrNoRows) ∧
    (Repository.GetOne sampleConstants "SELECT" "user" wrappingMapper [.int 1] (okEnv 0) []
        sampleCrud).out =
      .ret (Value.nil, some ⟨500, sampleConstants.FAILED_SCAN⟩) :=
  ⟨by decide, rfl,
    (GetOne_classifies_by_mapper sampleConstants "SELECT" "user" wrappingMapper [.int 1]
      (okEnv 0) [] sampleCrud 0 ⟨.err GoError.ErrNoRows⟩ (by decide)).2.2.2.1 _ rfl⟩

/-- C27: for every transport, the trace of `MakeRestCallToPartner` is at most 5
attempts that fail, each followed by a sleep, and then the last attempt; the sleep
before the k-th retry lasts `k * initialBackoff`, that is k seconds, and no sleep
comes before the first attempt or after the last.  Against a transport that always
fails the sleeps are 1, 2, 3, 4 and 5 seconds, 15 seconds in total. -/
theorem MakeRestCallToPartner_linear_backoff (transport : Transport) (url params : String)
    (fuel : Nat) (hfuel : 6 ≤ fuel) :
    ∃ run attempts resp restErr,
      MakeRestCallToPartner transport fuel url params = some run ∧
      attempts.length ≤ 5 ∧
      run.events = retryTrace (url ++ "?" ++ params) 0 attempts ++
        [RestEvent.get (url ++ "?" ++ params) resp restErr] ∧
      run.events.filterMap RestEvent.sleep? =
        (List.range attempts.length).map (fun k => (k + 1) * initialBackoff) ∧
      (∃ r e, run.events.head? = some (RestEvent.get (url ++ "?" ++ params) r e)) ∧
      run.events.getLast? = some (RestEvent.get (url ++ "?" ++ params) resp restErr) ∧
      initialBackoff = 1000000000 ∧
      ((∀ hist u, (transport hist u).2 ≠ none) →
        run.events.filterMap RestEvent.sleep? =
          [1000000000, 2000000000, 3000000000, 4000000000, 5000000000] ∧
        (run.events.filterMap RestEvent.sleep?).sum = 15000000000) := by
  obtain ⟨attempts, resp, restErr, h1, h2, h3, h4⟩ :=
    MakeRestCallToPartner_shape transport url params fuel hfuel
  have hsleeps : (retryTrace (url ++ "?" ++ params) 0 attempts ++
      [RestEvent.get (url ++ "?" ++ params) resp restErr]).filterMap RestEvent.sleep? =
      (List.range attempts.length).map (fun k => (k + 1) * initialBackoff) := by
    rw [List.filterMap_append, retryTrace_sleeps]
    have : [RestEvent.get (url ++ "?" ++ params) resp restErr].filterMap RestEvent.sleep? = [] :=
      rfl
    rw [this, List.append_nil]
    apply List.map_congr_left
    intro k _
    rw [Nat.zero_add, Nat.mul_comm]
  refine ⟨_, attempts, resp, restErr, h4, h1, rfl, hsleeps, ?_, by simp, rfl, ?_⟩
  · cases attempts with
    | nil => exact ⟨resp, restErr, rfl⟩
    | cons a rest => exact ⟨a.1, some a.2, rfl⟩
  · intro hfail
    have hne : restErr ≠ none := by
      have := hfail (retryTrace (url ++ "?" ++ params) 0 attempts) (url ++ "?" ++ params)
      rw [← h3] at this
      exact this
    have hlen := h2 hne
    simp only [] at hsleeps ⊢
    rw [hsleeps, hlen]
    exact ⟨by decide, by decide⟩

/-- Witness of C27: a transport that refuses every connection. -/
theorem MakeRestCallToPartner_linear_backoff_witness :
    6 ≤ 6 ∧ (∀ hist u, (failingTransport hist u).2 ≠ none) ∧
    ∃ run, MakeRestCallToPartner failingTransport 6 "http://partner" "a=1" = some run ∧
      run.events.filterMap RestEvent.sleep? =
        [1000000000, 2000000000, 3000000000, 4000000000, 5000000000] :=
  ⟨by decide, by intro hist u; simp [failingTransport],
    (MakeRestCallToPartner_linear_backoff failingTransport "http://partner" "a=1" 6
      (by decide)).elim fun run h => h.elim fun _ h => h.elim fun _ h => h.elim fun _ h =>
        ⟨run, h.1, (h.2.2.2.2.2.2.2 (by intro hist u; simp [failingTransport])).1⟩⟩

/-- C28: for every transport, `MakeRestCallToPartner` ends within 6 rounds of its
loop, with at most 6 GET attempts; it returns nil only if its last attempt obtained
a response with status 200 and no error of reading its body (the body was read, or
there was none to read); and it returns, nil or an error, whenever the transport
never answers with neither a response nor an error. -/
theorem MakeRestCallToPartner_terminates (transport : Transport) (url params : String)
    (fuel : Nat) (hfuel : 6 ≤ fuel) :
    ∃ run, MakeRestCallToPartner transport fuel url params = some run ∧
      run.events.countP RestEvent.isGet ≤ 6 ∧
      (run.out = .ret none →
        ∃ resp, run.events.getLast? =
            some (RestEvent.get (url ++ "?" ++ params) (some resp) none) ∧
          resp.StatusCode = 200 ∧
          (resp.Body = none ∨ ∃ body, resp.Body = some (.ok body))) ∧
      ((∀ hist u, transport hist u ≠ (none, none)) → ∃ result, run.out = .ret result) := by
  obtain ⟨attempts, resp, restErr, h1, h2, h3, h4⟩ :=
    MakeRestCallToPartner_shape transport url params fuel hfuel
  refine ⟨_, h4, ?_, ?_, ?_⟩
  · simp only [List.countP_append, retryTrace_gets]
    simp [List.countP_cons, RestEvent.isGet]
    omega
  · intro hout
    simp only [] at hout
    cases restErr with
    | some e => simp [finalOutcome] at hout
    | none =>
      cases resp with
      | none => simp [finalOutcome] at hout
      | some r =>
        refine ⟨r, by simp, ?_, ?_⟩
        · rcases hb : r.Body with _ | (_ | _) <;> simp [finalOutcome, hb] at hout <;>
            simpa [http.StatusOK] using hout
        · rcases hb : r.Body with _ | (_ | _)
          · exact Or.inl rfl
          · exact Or.inr ⟨_, rfl⟩
          · simp [finalOutcome, hb] at hout
  · intro hnil
    simp only []
    cases restErr with
    | some e => cases resp <;> exact ⟨_, rfl⟩
    | none =>
      cases resp with
      | none => exact absurd h3.symm (hnil _ _)
      | some r =>
        rcases hb : r.Body with _ | (_ | _) <;> simp only [finalOutcome, hb] <;>
          first | exact ⟨_, rfl⟩ | (split <;> exact ⟨_, rfl⟩)

/-- Witness of C28: a transport that answers at once with status 500. -/
theorem MakeRestCallToPartner_terminates_witness :
    6 ≤ 6 ∧
    ∃ run, MakeRestCallToPartner boomTransport 6 "http://partner" "a=1" = some run ∧
      run.events.countP RestEvent.isGet ≤ 6 :=
  ⟨by decide,
    (MakeRestCallToPartner_terminates boomTransport "http://partner" "a=1" 6 (by decide)).imp
      fun _ h => ⟨h.1, h.2.1⟩⟩

/-- C29: for every `Pagination`, whatever its `Limit` (0 and negative values too),
`GetLimit()` is not 0, and so `float64(GetLimit())`, by which a successful
`GetWithPagination` divides to compute `TotalPages`, is not zero. -/
theorem GetLimit_never_zero (p : Pagination) :
    p.GetLimit.1 ≠ 0 ∧
    (-2 ^ 63 ≤ p.Limit → p.Limit < 2 ^ 63 →
      ∃ m e, float64 p.GetLimit.1 = .finite m e ∧ m ≠ 0) ∧
    (∀ (k : Constants) (undef : Int) (countSQL objectType finalSQL : String)
      (mapper : RowMapperFunc) (args : List Value) (env : Env) (hist : List Event)
      (crud : crudRepository) (res : Repository.PaginationResult),
      (Repository.GetWithPagination k undef countSQL objectType finalSQL mapper p
        args env hist crud).out = .ret res → res.err = none →
      res.pagination.TotalPages = intOfFloat64 undef
        (math.Ceil ((float64 res.pagination.TotalRows).div (float64 p.GetLimit.1)))) := by
  have hne : p.GetLimit.1 ≠ 0 := by
    by_cases h : p.Limit = 0 <;> simp [Pagination.GetLimit, h]
  refine ⟨hne, ?_, ?_⟩
  · intro h1 h2
    apply float64_ne_zero _ hne
    · by_cases h : p.Limit = 0 <;> simp [Pagination.GetLimit, h]
      exact h1
    · by_cases h : p.Limit = 0 <;> simp [Pagination.GetLimit, h]
      exact h2
  · intro k undef countSQL objectType finalSQL mapper args env hist crud res
    rw [wp_def (Repository.GetWithPagination k undef countSQL objectType finalSQL mapper
      p args) env hist crud
      (fun r => r.out = .ret res → res.err = none →
        res.pagination.TotalPages = intOfFloat64 undef
          (math.Ceil ((float64 res.pagination.TotalRows).div (float64 p.GetLimit.1))))]
    apply wp_GetWithPagination
    · intro _ h; simp at h
    · intro c e he h; simp at h
    · intro c e db1 err he h1 h2
      simp only [Outcome.ret.injEq] at h1
      rw [← h1] at h2
      simp at h2
    · intro c e db1 before row rest he hall hne h1 h2
      simp only [Outcome.ret.injEq] at h1
      rw [← h1] at h2
      simp at h2
    · intro c e db1 rows err he hall h1 h2
      simp only [Outcome.ret.injEq] at h1
      rw [← h1] at h2
      simp at h2
    · intro c e db1 rows totalRows he hall h1 _
      simp only [Outcome.ret.injEq] at h1
      rw [← h1]

/-- Witness of C29: the limit -5. -/
theorem GetLimit_never_zero_witness :
    (-2 ^ 63 : Int) ≤ (⟨-5, 0, "", 0, 0, none⟩ : Pagination).Limit ∧
    (⟨-5, 0, "", 0, 0, none⟩ : Pagination).Limit < 2 ^ 63 ∧
    (⟨-5, 0, "", 0, 0, none⟩ : Pagination).GetLimit.1 = -5 ∧
    ∃ m e, float64 (⟨-5, 0, "", 0, 0, none⟩ : Pagination).GetLimit.1 = .finite m e ∧ m ≠ 0 :=
  ⟨by decide, by decide, by decide,
    (GetLimit_never_zero ⟨-5, 0, "", 0, 0, none⟩).2.1 (by decide) (by decide)⟩

/-- Counterexample to C30 as stated: `Atoi` accepts the page 4611686018427387905
(`2 ^ 62 + 1`); with `per_page` 2 the product `(page - 1) * limit` is `2 ^ 63`, which
wraps, and `GetOffset()` is `-2 ^ 63`. -/
theorem GetOffset_wraps_negative :
    PaginateQueryExtractor (contextOf [("page", "4611686018427387905"), ("per_page", "2")]) [] =
      (some ⟨2, 4611686018427387905, "", 0, 0, none⟩, none) ∧
    (⟨2, 4611686018427387905, "", 0, 0, none⟩ : Pagination).GetOffset.1 =
      -9223372036854775808 ∧
    (⟨2, 4611686018427387905, "", 0, 0, none⟩ : Pagination).GetOffset.1 < 0 := by
  decide

/-- C30, amended: for every `Pagination` that `PaginateQueryExtractor` returns and
whose product `(Page - 1) * Limit` is below `2 ^ 63`, `GetOffset()` is that product
and is not negative. -/
theorem GetOffset_nonneg_in_range (context : gin.Context) (validSortFields : List String)
    (p : Pagination)
    (h : PaginateQueryExtractor context validSortFields = (some p, none))
    (hfit : (p.Page - 1) * p.Limit < 2 ^ 63) :
    p.GetOffset.1 = (p.Page - 1) * p.Limit ∧ 0 ≤ p.GetOffset.1 := by
  obtain ⟨b1, b2, b3, b4⟩ := PaginateQueryExtractor_bounds context validSortFields p h
  have hnonneg : 0 ≤ (p.Page - 1) * p.Limit := Int.mul_nonneg (by omega) (by omega)
  have hp : p.GetPage.1 = p.Page := by
    have : p.Page ≠ 0 := by omega
    simp [Pagination.GetPage, this]
  have hl : p.GetLimit.1 = p.Limit := by
    have : p.Limit ≠ 0 := by omega
    simp [Pagination.GetLimit, this]
  have hoff : p.GetOffset.1 = (p.Page - 1) * p.Limit := by
    rw [(GetOffset_eq p).1, hp, hl, wrapInt64_of_range (p.Page - 1) (by omega) (by omega),
      wrapInt64_of_range _ (by omega) hfit]
  exact ⟨hoff, by rw [hoff]; exact hnonneg⟩

/-- Witness of C30, amended: page 2, 15 rows per page. -/
theorem GetOffset_nonneg_in_range_witness :
    PaginateQueryExtractor (contextOf [("page", "2"), ("per_page", "15")]) [] =
      (some ⟨15, 2, "", 0, 0, none⟩, none) ∧
    (((⟨15, 2, "", 0, 0, none⟩ : Pagination).Page - 1) *
      (⟨15, 2, "", 0, 0, none⟩ : Pagination).Limit < 2 ^ 63) ∧
    (⟨15, 2, "", 0, 0, none⟩ : Pagination).GetOffset.1 = 15 :=
  ⟨by decide, by decide,
    ((GetOffset_nonneg_in_range (contextOf [("page", "2"), ("per_page", "15")]) []
      ⟨15, 2, "", 0, 0, none⟩ (by decide) (by decide)).1).trans (by decide)⟩

end Starter
